import Mathlib


/-!
# Zendesk Terraform provider: view and macro mapping

A shallow embedding of the view/macro client and resource code
(`zendesk/client/view.go`, `zendesk/models/view.go`,
`zendesk/resource_zendesk_view.go`, `zendesk/resource_zendesk_macro.go`,
`zendesk/util.go`).

Conventions of the embedding:

* a Go `string` is a `String` (a sequence of Unicode scalar values); text is
  processed through its list of characters;
* Go `int` and `int64` are `Int`; the code does no arithmetic on them;
* a Go slice is a `List`; the nil slice and the empty slice are both `[]`;
* a Go `interface{}` is a value of `Iface`, a type assertion is a `match`, and a
  failed single-value assertion is the fault `Fault.panic`;
* a function returning `(T, error)` returns `Except Fault T`;
* resource data (`identifiableGetterSetter`) is the map-backed implementation
  of util.go, on which `Set` stores the value and never fails;
* `strconv` and `encoding/json` are modelled on finite binary64 numbers with
  exact arithmetic: formatting writes the shortest decimal that reads back,
  reading rounds to nearest, ties to even.
-/

namespace Zendesk

/-! ## Values -/

/-- A finite IEEE-754 binary64 number, by its three bit fields: the sign, the
biased exponent (0 for zero and subnormals, at most 2046) and the 52-bit
fraction.  `encoding/json` only ever produces finite numbers. -/
structure Float64 where
  sign : Bool
  biased : Nat
  frac : Nat
  biased_lt : biased < 2047
  frac_lt : frac < 2 ^ 52
deriving DecidableEq

/-- Outcome of a Go call that did not return normally with a nil error. -/
inductive Fault where
  | error (msg : String)
  | panic (msg : String)
deriving DecidableEq

/-- The text `err.Error()` of an error. -/
def Fault.message : Fault → String
  | Fault.error msg => msg
  | Fault.panic msg => msg

/-- The dynamic values a Go `interface{}` field of a model holds: what
`encoding/json` decodes into an `interface{}` (nil, bool, float64, string,
`[]interface{}`, `map[string]interface{}`; a map is the list of its entries, a
lookup taking the first entry of a key), and the `*MacroRestriction` that
`unmarshalMacros` stores. -/
inductive Iface where
  | nil
  | bool (b : Bool)
  | float64 (x : Float64)
  | string (s : String)
  | slice (xs : List Iface)
  | map (kvs : List (String × Iface))
  | macroRestriction (ids : List Int) (type_ : String)

/-- The values a Go `interface{}` holds in resource data: what the marshal
functions hand to `Set` and what `GetOk` hands back (`*schema.Set` is kept as
the list its `List()` returns). -/
inductive Attr where
  | nil
  | bool (b : Bool)
  | int (n : Int)
  | float64 (x : Float64)
  | string (s : String)
  | ints (xs : List Int)
  | strings (xs : List String)
  | maps (xs : List (List (String × Attr)))
  | slice (xs : List Attr)
  | map (kvs : List (String × Attr))
  | set (xs : List Attr)

/-- Go `time.Time`, kept as the RFC 3339 text `encoding/json` writes for it. -/
structure Time where
  text : String
deriving DecidableEq

/-! ## models/view.go -/

structure ViewCondition where
  Field : String
  Operator : String
  Value : String
deriving DecidableEq

structure Column where
  ID : Iface
  Title : String

structure Restriction where
  IDs : List Int
  Type_ : String
deriving DecidableEq

structure Conditions where
  All : List ViewCondition
  Any : List ViewCondition
deriving DecidableEq

structure Execution where
  Columns : List Column
  GroupBy : String
  SortBy : String
  GroupOrder : String
  SortOrder : String

structure View where
  ID : Int
  Active : Bool
  Description : String
  Position : Int
  Title : String
  CreatedAt : Time
  UpdatedAt : Time
  Restriction : Option Restriction
  Conditions : Conditions
  URL : String
  Execution : Execution

structure Output where
  Columns : List Iface
  GroupBy : String
  SortBy : String
  GroupOrder : String
  SortOrder : String

structure ViewCreateOrUpdate where
  ID : Int
  Active : Bool
  Description : String
  Position : Int
  Title : String
  CreatedAt : Time
  UpdatedAt : Time
  All : List ViewCondition
  Any : List ViewCondition
  URL : String
  Restriction : Option Restriction
  Output : Output

structure ViewPosition where
  ID : Int
  Position : Int
deriving DecidableEq

/-! ## client/queue.go, client/custom_status.go, client/membership.go: the records -/

/-- A queue; a nil `Definition` map is `none`. -/
structure Queue where
  ID : Int
  URL : String
  Name : String
  Description : String
  Definition : Option (List (String × Attr))
  CreatedAt : String
  UpdatedAt : String

/-- The zero value `Queue{}`. -/
def Queue.zero : Queue :=
  { ID := 0, URL := "", Name := "", Description := "", Definition := none,
    CreatedAt := "", UpdatedAt := "" }

structure CustomStatus where
  ID : Int
  URL : String
  StatusCategory : String
  AgentLabel : String
  EndUserLabel : String
  Description : String
  Default : Bool
  Active : Bool
  EndUserHidden : Bool
  CreatedAt : String
  UpdatedAt : String
deriving DecidableEq

/-- The zero value `CustomStatus{}`. -/
def CustomStatus.zero : CustomStatus :=
  { ID := 0, URL := "", StatusCategory := "", AgentLabel := "", EndUserLabel := "",
    Description := "", Default := false, Active := false, EndUserHidden := false,
    CreatedAt := "", UpdatedAt := "" }

structure GroupMembership where
  ID : Int
  URL : String
  UserID : Int
  GroupID : Int
  Default : Bool
  CreatedAt : String
  UpdatedAt : String
deriving DecidableEq

/-- The zero value `GroupMembership{}`. -/
def GroupMembership.zero : GroupMembership :=
  { ID := 0, URL := "", UserID := 0, GroupID := 0, Default := false,
    CreatedAt := "", UpdatedAt := "" }

structure OrganizationMembership where
  ID : Int
  URL : String
  UserID : Int
  OrganizationID : Int
  Default : Bool
  CreatedAt : String
  UpdatedAt : String
deriving DecidableEq

/-- The zero value `OrganizationMembership{}`. -/
def OrganizationMembership.zero : OrganizationMembership :=
  { ID := 0, URL := "", UserID := 0, OrganizationID := 0, Default := false,
    CreatedAt := "", UpdatedAt := "" }

/-! ## client/user.go, client/ticket.go: the records -/

/-- A user; a nil `Tags` slice or `UserFields` map is `none`. -/
structure User where
  ID : Int
  URL : String
  Name : String
  Email : String
  CreatedAt : String
  UpdatedAt : String
  Active : Bool
  Verified : Bool
  Shared : Bool
  LocaleID : Int
  Locale : String
  TimeZone : String
  LastLoginAt : String
  Phone : String
  Signature : String
  Details : String
  Notes : String
  OrganizationID : Int
  Role : String
  CustomRoleID : Int
  Moderator : Bool
  TicketRestriction : String
  OnlyPrivateComments : Bool
  Tags : Option (List String)
  ExternalID : String
  Alias : String
  UserFields : Option (List (String × Attr))

/-- The zero value `User{}`. -/
def User.zero : User :=
  { ID := 0, URL := "", Name := "", Email := "", CreatedAt := "", UpdatedAt := "",
    Active := false, Verified := false, Shared := false, LocaleID := 0, Locale := "",
    TimeZone := "", LastLoginAt := "", Phone := "", Signature := "", Details := "",
    Notes := "", OrganizationID := 0, Role := "", CustomRoleID := 0, Moderator := false,
    TicketRestriction := "", OnlyPrivateComments := false, Tags := none, ExternalID := "",
    Alias := "", UserFields := none }

/-- A ticket; a nil slice or map is `none`. -/
structure Ticket where
  ID : Int
  URL : String
  ExternalID : String
  Type_ : String
  Subject : String
  RawSubject : String
  Description : String
  Priority : String
  Status : String
  Recipient : String
  RequesterID : Int
  SubmitterID : Int
  AssigneeID : Int
  OrganizationID : Int
  GroupID : Int
  CollaboratorIDs : Option (List Int)
  FollowerIDs : Option (List Int)
  EmailCCIDs : Option (List Int)
  ForumTopicID : Int
  ProblemID : Int
  HasIncidents : Bool
  IsPublic : Bool
  DueAt : String
  Tags : Option (List String)
  CustomFields : Option (List (List (String × Attr)))
  SatisfactionRating : Option (List (String × Attr))
  SharingAgreementIDs : Option (List Int)
  Fields : Option (List (List (String × Attr)))
  FollowupIDs : Option (List Int)
  TicketFormID : Int
  BrandID : Int
  CreatedAt : String
  UpdatedAt : String

/-- The zero value `Ticket{}`. -/
def Ticket.zero : Ticket :=
  { ID := 0, URL := "", ExternalID := "", Type_ := "", Subject := "", RawSubject := "",
    Description := "", Priority := "", Status := "", Recipient := "", RequesterID := 0,
    SubmitterID := 0, AssigneeID := 0, OrganizationID := 0, GroupID := 0,
    CollaboratorIDs := none, FollowerIDs := none, EmailCCIDs := none, ForumTopicID := 0,
    ProblemID := 0, HasIncidents := false, IsPublic := false, DueAt := "", Tags := none,
    CustomFields := none, SatisfactionRating := none, SharingAgreementIDs := none,
    Fields := none, FollowupIDs := none, TicketFormID := 0, BrandID := 0,
    CreatedAt := "", UpdatedAt := "" }

/-! ## client/view.go: the field mapping -/

/-- The loop `for _, col := range cols { columns = append(columns, col.ID) }`. -/
def appendColumnIDs : List Iface → List Column → List Iface
  | columns, [] => columns
  | columns, col :: rest => appendColumnIDs (columns ++ [col.ID]) rest

def mapViewToViewCreateOrUpdate (view : View) : ViewCreateOrUpdate :=
  { ID := view.ID
    Active := view.Active
    Description := view.Description
    Position := view.Position
    Title := view.Title
    CreatedAt := view.CreatedAt
    UpdatedAt := view.UpdatedAt
    All := view.Conditions.All
    Any := view.Conditions.Any
    URL := view.URL
    Restriction := view.Restriction
    Output :=
      { GroupBy := view.Execution.GroupBy
        SortBy := view.Execution.SortBy
        GroupOrder := view.Execution.GroupOrder
        SortOrder := view.Execution.SortOrder
        Columns := appendColumnIDs [] view.Execution.Columns } }

/-! ## Decimal numerals (`%d`, `strconv.Itoa`) -/

/-- The ASCII digit of `d`, for `d < 10`. -/
def digitChar (d : Nat) : Char := Char.ofNat (48 + d)

/-- Digits of `n` in front of `acc`, most significant first; `fuel` bounds the
number of digits. -/
def natDigits : Nat → Nat → List Char → List Char
  | 0, _, acc => acc
  | fuel + 1, n, acc =>
    if n < 10 then digitChar n :: acc
    else natDigits fuel (n / 10) (digitChar (n % 10) :: acc)

/-- The plain decimal numeral of a natural number. -/
def formatNat (n : Nat) : List Char := natDigits (n + 1) n []

/-- The plain decimal numeral of an integer (`%d`). -/
def formatInt : Int → List Char
  | Int.ofNat n => formatNat n
  | Int.negSucc n => '-' :: formatNat (n + 1)

/-! ## Binary64 numbers: formatting and conversion (`strconv`) -/

namespace Float64

/-- The significand: the fraction, with the hidden bit for a normal number. -/
def mant (x : Float64) : Nat := if x.biased = 0 then x.frac else 2 ^ 52 + x.frac

/-- The binary exponent above the smallest subnormal, 2^-1074. -/
def shift (x : Float64) : Nat := x.biased - 1

/-- The magnitude of `x` in units of 2^-1074: |x| = scaled x / 2^1074. -/
def scaled (x : Float64) : Nat := x.mant * 2 ^ x.shift

/-- Half the distance to the next float above, in units of 2^-1076. -/
def halfUp (x : Float64) : Nat := 2 * 2 ^ x.shift

/-- Half the distance to the next float below, in units of 2^-1076: at the
bottom of a binade the floats below are twice as dense. -/
def halfDown (x : Float64) : Nat :=
  if x.frac = 0 ∧ 1 < x.biased then 2 ^ x.shift else 2 * 2 ^ x.shift

/-- Whether the decimal `c * 10^k` reads back as `x` (round to nearest, ties to
the even significand): it lies between the midpoints to the neighbours of `x`,
the midpoints included exactly when the significand of `x` is even. -/
def readsBack (x : Float64) (c : Nat) (k : Int) : Bool :=
  let s := 10 ^ (-k).toNat
  let C := c * 10 ^ k.toNat * 2 ^ 1076
  let lo := (4 * x.scaled - x.halfDown) * s
  let hi := (4 * x.scaled + x.halfUp) * s
  if x.mant % 2 = 0 then decide (lo ≤ C ∧ C ≤ hi) else decide (lo < C ∧ C < hi)

/-- The integer part of |x| / 10^k. -/
def floorScale (x : Float64) (k : Int) : Nat :=
  x.scaled * 10 ^ (-k).toNat / (2 ^ 1074 * 10 ^ k.toNat)

/-- Twice the distance from `c * 10^k` to |x|, compared for two candidates:
whether `c1 * 10^k` is strictly closer to |x| than `c2 * 10^k`. -/
def closer (x : Float64) (k : Int) (c1 c2 : Nat) : Bool :=
  let v := x.scaled * 10 ^ (-k).toNat
  let a := c1 * 10 ^ k.toNat * 2 ^ 1074
  let b := c2 * 10 ^ k.toNat * 2 ^ 1074
  decide ((a - v) + (v - a) < (b - v) + (v - b))

/-- The shortest decimal that reads back as `x`: going down from the scale `k`,
the first scale at which a multiple of 10^k next to |x| reads back as `x`; of
two such multiples the closer one, the even one on a tie. -/
def shortestFrom (x : Float64) : Nat → Int → Nat × Int
  | 0, k => (x.floorScale k, k)
  | fuel + 1, k =>
    let lo := x.floorScale k
    let hi := lo + 1
    match x.readsBack lo k, x.readsBack hi k with
    | true, true =>
      if x.closer k lo hi then (lo, k)
      else if x.closer k hi lo then (hi, k)
      else if lo % 2 = 0 then (lo, k) else (hi, k)
    | true, false => (lo, k)
    | false, true => (hi, k)
    | false, false => shortestFrom x fuel (k - 1)

/-- The scale of the leading digit of a magnitude below one: the first
`-j`, `j = 1, 2, ...`, with 10^-j ≤ |x|. -/
def leadingBelowOne (x : Float64) : Nat → Nat → Int
  | 0, j => -(j : Int)
  | fuel + 1, j =>
    if 2 ^ 1074 ≤ x.scaled * 10 ^ j then -(j : Int) else leadingBelowOne x fuel (j + 1)

/-- The scale of the leading decimal digit of |x|, for x ≠ 0. -/
def leadingScale (x : Float64) : Int :=
  let q := x.scaled / 2 ^ 1074
  if q = 0 then x.leadingBelowOne 324 1 else ((formatNat q).length : Int) - 1

/-- The digits and the scale of the shortest decimal reading back as x ≠ 0. -/
def shortest (x : Float64) : Nat × Int := x.shortestFrom 17 x.leadingScale

/-- Strip the trailing zeros of the digit string: c * 10^k with 10 not dividing c. -/
def stripZeros : Nat → Nat → Int → Nat × Int
  | 0, c, k => (c, k)
  | fuel + 1, c, k => if c ≠ 0 ∧ c % 10 = 0 then stripZeros fuel (c / 10) (k + 1) else (c, k)

/-- Pad a digit string with zeros on the left up to a width. -/
def padLeft (width : Nat) (ds : List Char) : List Char :=
  List.replicate (width - ds.length) '0' ++ ds

/-- The format `%f` of the decimal c * 10^k: all digits, no exponent. -/
def fmtF (c : Nat) (k : Int) : List Char :=
  if 0 ≤ k then
    if c = 0 then ['0'] else formatNat c ++ List.replicate k.toNat '0'
  else
    let p := 10 ^ (-k).toNat
    formatNat (c / p) ++ '.' :: padLeft (-k).toNat (formatNat (c % p))

/-- The format `%e` of the decimal c * 10^k: d.ddde±dd. -/
def fmtE (c : Nat) (k : Int) : List Char :=
  let ds := formatNat c
  let e := k + ((ds.length : Int) - 1)
  let mantissa := match ds with
    | [] => ['0']
    | [d] => [d]
    | d :: rest => d :: '.' :: rest
  let digits := padLeft 2 (formatNat e.natAbs)
  mantissa ++ 'e' :: (if e < 0 then '-' else '+') :: digits

/-- The call `strconv.FormatFloat(x, 'f', -1, 64)`. -/
def FormatFloat (x : Float64) : List Char :=
  let body :=
    if x.scaled = 0 then ['0']
    else let d := x.shortest; let s := stripZeros 17 d.1 d.2; fmtF s.1 s.2
  if x.sign then '-' :: body else body

/-- The Go conversion `int(x)` on amd64: the fraction is discarded; a value
outside the int64 range gives the "integer indefinite" value -2^63. -/
def toInt (x : Float64) : Int :=
  let q : Int := (x.scaled / 2 ^ 1074 : Nat)
  let v := if x.sign then -q else q
  if -(2 : Int) ^ 63 ≤ v ∧ v < (2 : Int) ^ 63 then v else -(2 : Int) ^ 63

/-- The float64 constant `1e-6`, bits 0x3EB0C6F7A0B5ED8D, in units of 2^-1074. -/
def micro : Nat := (2 ^ 52 + 0x0C6F7A0B5ED8D) * 2 ^ 1002

/-- The clean-up of a two-digit exponent: "e-0d" becomes "e-d" (and "e+0d",
"e+d"). -/
def cleanExponent (b : List Char) : List Char :=
  match b.reverse with
  | d :: '0' :: '-' :: 'e' :: rest => (d :: '-' :: 'e' :: rest).reverse
  | d :: '0' :: '+' :: 'e' :: rest => (d :: '+' :: 'e' :: rest).reverse
  | _ => b

/-- The number text `encoding/json` writes for a float64: `%f` with the
shortest digits, or `%e` when |x| < 1e-6 or |x| ≥ 1e21, the exponent then
cleaned up. -/
def jsonNumber (x : Float64) : List Char :=
  let useE := x.scaled ≠ 0 ∧ (x.scaled < micro ∨ 10 ^ 21 * 2 ^ 1074 ≤ x.scaled)
  let body :=
    if x.scaled = 0 then ['0']
    else
      let d := x.shortest
      let s := stripZeros 17 d.1 d.2
      if useE then fmtE s.1 s.2 else fmtF s.1 s.2
  let b := if x.sign then '-' :: body else body
  if useE then cleanExponent b else b

/-- Number of binary digits of `n`; `fuel` bounds it. -/
def bitLength : Nat → Nat → Nat
  | 0, _ => 0
  | fuel + 1, n => if n = 0 then 0 else bitLength fuel (n / 2) + 1

/-- The nearest integer to `a / b`, the even one on a tie. -/
def roundHalfEven (a b : Nat) : Nat :=
  let q := a / b
  let r := a % b
  if 2 * r < b then q
  else if b < 2 * r then q + 1
  else if q % 2 = 0 then q else q + 1

/-- The call `strconv.ParseFloat` on the decimal `c * 10^k` with the given
sign: the nearest float64, ties to even; `none` when it is out of range. -/
def ofDecimal (sign : Bool) (c : Nat) (k : Int) : Option Float64 :=
  let num := c * 10 ^ k.toNat * 2 ^ 1074
  let den := 10 ^ (-k).toNat
  let q := num / den
  let s := bitLength (q + 1) q - 53
  let m := roundHalfEven num (den * 2 ^ s)
  let s1 := if m = 2 ^ 53 then s + 1 else s
  let m1 := if m = 2 ^ 53 then 2 ^ 52 else m
  let biased := if m1 < 2 ^ 52 then 0 else s1 + 1
  if h : biased < 2047 then
    some { sign := sign, biased := biased, frac := m1 % 2 ^ 52,
           biased_lt := h, frac_lt := Nat.mod_lt _ (by decide) }
  else none

end Float64

/-! ## encoding/json: writing -/

/-- A JSON text, as a tree; a number keeps its literal. -/
inductive JSON where
  | null
  | bool (b : Bool)
  | number (literal : List Char)
  | string (s : String)
  | array (elems : List JSON)
  | object (members : List (String × JSON))

/-- The lower-case hexadecimal digit of `d`, for `d < 16`. -/
def hexDigit (d : Nat) : Char :=
  if d < 10 then Char.ofNat (48 + d) else Char.ofNat (87 + d)

/-- The escape `\uXXXX` of a code unit. -/
def escapeU (u : Nat) : List Char :=
  ['\\', 'u', hexDigit (u / 4096 % 16), hexDigit (u / 256 % 16), hexDigit (u / 16 % 16),
   hexDigit (u % 16)]

/-- How `encoding/json` writes one character of a string (HTML escaping on;
the short escapes for backspace and form feed are those of Go 1.22). -/
def escapeChar (c : Char) : List Char :=
  if c = '"' then ['\\', '"']
  else if c = '\\' then ['\\', '\\']
  else if c = '\n' then ['\\', 'n']
  else if c = '\r' then ['\\', 'r']
  else if c = '\t' then ['\\', 't']
  else if c = Char.ofNat 8 then ['\\', 'b']
  else if c = Char.ofNat 12 then ['\\', 'f']
  else if c.toNat < 32 then escapeU c.toNat
  else if c = '<' ∨ c = '>' ∨ c = '&' then escapeU c.toNat
  else if c = Char.ofNat 0x2028 ∨ c = Char.ofNat 0x2029 then escapeU c.toNat
  else [c]

def escapeChars : List Char → List Char
  | [] => []
  | c :: rest => escapeChar c ++ escapeChars rest

/-- A quoted JSON string. -/
def quote (s : String) : List Char := '"' :: escapeChars s.data ++ ['"']

mutual
/-- The compact text of a JSON tree. -/
def JSON.render : JSON → List Char
  | JSON.null => ['n', 'u', 'l', 'l']
  | JSON.bool true => ['t', 'r', 'u', 'e']
  | JSON.bool false => ['f', 'a', 'l', 's', 'e']
  | JSON.number literal => literal
  | JSON.string s => quote s
  | JSON.array elems => '[' :: JSON.renderElems elems ++ [']']
  | JSON.object members => '{' :: JSON.renderMembers members ++ ['}']
def JSON.renderElems : List JSON → List Char
  | [] => []
  | [v] => JSON.render v
  | v :: w :: rest => JSON.render v ++ ',' :: JSON.renderElems (w :: rest)
def JSON.renderMembers : List (String × JSON) → List Char
  | [] => []
  | [(k, v)] => quote k ++ ':' :: JSON.render v
  | (k, v) :: m :: rest => quote k ++ ':' :: JSON.render v ++ ',' :: JSON.renderMembers (m :: rest)
end

/-- Insert a member into members sorted by key, replacing an equal key. -/
def insertMember (k : String) (v : JSON) : List (String × JSON) → List (String × JSON)
  | [] => [(k, v)]
  | (k1, v1) :: rest =>
    if k < k1 then (k, v) :: (k1, v1) :: rest
    else if k = k1 then (k, v) :: rest
    else (k1, v1) :: insertMember k v rest

mutual
/-- The JSON tree `encoding/json` writes for a dynamic value: a map with its
keys sorted, a `*MacroRestriction` by its field tags. -/
def Iface.toJSON : Iface → JSON
  | Iface.nil => JSON.null
  | Iface.bool b => JSON.bool b
  | Iface.float64 x => JSON.number x.jsonNumber
  | Iface.string s => JSON.string s
  | Iface.slice xs => JSON.array (Iface.toJSONs xs)
  | Iface.map kvs => JSON.object (Iface.toMembers kvs)
  | Iface.macroRestriction ids type_ =>
    JSON.object [("ids", if ids = [] then JSON.null
                         else JSON.array (ids.map (fun n => JSON.number (formatInt n)))),
                 ("type", JSON.string type_)]
def Iface.toJSONs : List Iface → List JSON
  | [] => []
  | v :: rest => Iface.toJSON v :: Iface.toJSONs rest
def Iface.toMembers : List (String × Iface) → List (String × JSON)
  | [] => []
  | (k, v) :: rest => insertMember k (Iface.toJSON v) (Iface.toMembers rest)
end

/-- The call `json.Marshal(v)` on a dynamic value; it does not fail on the
values of `Iface`. -/
def jsonMarshal (v : Iface) : Except Fault (List Char) := Except.ok (Iface.toJSON v).render

/-! ## encoding/json: reading into an `interface{}` -/

/-- JSON white space. -/
def isSpace (c : Char) : Bool := c = ' ' || c = '\t' || c = '\r' || c = '\n'

def skipSpace : List Char → List Char
  | [] => []
  | c :: rest => if isSpace c then skipSpace rest else c :: rest

/-- The value of a hexadecimal digit. -/
def hexValue (c : Char) : Option Nat :=
  if '0'.toNat ≤ c.toNat ∧ c.toNat ≤ '9'.toNat then some (c.toNat - '0'.toNat)
  else if 'a'.toNat ≤ c.toNat ∧ c.toNat ≤ 'f'.toNat then some (c.toNat - 'a'.toNat + 10)
  else if 'A'.toNat ≤ c.toNat ∧ c.toNat ≤ 'F'.toNat then some (c.toNat - 'A'.toNat + 10)
  else none

/-- The code unit of the four hexadecimal digits of a `\u` escape. -/
def hex4 (a b c d : Char) : Option Nat :=
  match hexValue a, hexValue b, hexValue c, hexValue d with
  | some x, some y, some z, some w => some (x * 4096 + y * 256 + z * 16 + w)
  | _, _, _, _ => none

/-- The character of a one-letter escape. -/
def simpleEscape (e : Char) : Option Char :=
  if e = '"' then some '"'
  else if e = '\\' then some '\\'
  else if e = '/' then some '/'
  else if e = 'b' then some (Char.ofNat 8)
  else if e = 'f' then some (Char.ofNat 12)
  else if e = 'n' then some '\n'
  else if e = 'r' then some '\r'
  else if e = 't' then some '\t'
  else none

/-- The character of a surrogate pair, when `hi` is a high surrogate and `lo`
a low one. -/
def surrogatePair (hi : Nat) (lo : Option Nat) : Option Char :=
  match lo with
  | some l =>
    if hi < 0xDC00 ∧ 0xDC00 ≤ l ∧ l < 0xE000 then
      some (Char.ofNat (0x10000 + (hi - 0xD800) * 0x400 + (l - 0xDC00)))
    else none
  | none => none

/-- The rest of a string literal after its opening quote: the characters up to
the closing quote, escapes decoded, and the text after the closing quote.  A
surrogate escape that is not the first half of a pair reads as U+FFFD.  `fuel`
bounds the number of characters read. -/
def parseString : Nat → List Char → List Char → Except Fault (List Char × List Char)
  | 0, _, _ => Except.error (Fault.error "unexpected end of JSON input")
  | _ + 1, [], _ => Except.error (Fault.error "unexpected end of JSON input")
  | fuel + 1, c :: rest, acc =>
    if c = '"' then Except.ok (acc, rest)
    else if c = '\\' then
      match rest with
      | [] => Except.error (Fault.error "unexpected end of JSON input")
      | 'u' :: a :: b :: c1 :: d :: rest2 =>
        match hex4 a b c1 d with
        | none => Except.error (Fault.error "invalid character in \\u hexadecimal character escape")
        | some u =>
          if 0xD800 ≤ u ∧ u < 0xE000 then
            match rest2 with
            | '\\' :: 'u' :: l1 :: l2 :: l3 :: l4 :: rest3 =>
              match surrogatePair u (hex4 l1 l2 l3 l4) with
              | some ch => parseString fuel rest3 (acc ++ [ch])
              | none => parseString fuel rest2 (acc ++ [Char.ofNat 0xFFFD])
            | _ => parseString fuel rest2 (acc ++ [Char.ofNat 0xFFFD])
          else parseString fuel rest2 (acc ++ [Char.ofNat u])
      | e :: rest1 =>
        match simpleEscape e with
        | some ch => parseString fuel rest1 (acc ++ [ch])
        | none => Except.error (Fault.error "invalid character in string escape code")
    else if c.toNat < 32 then Except.error (Fault.error "invalid character in string literal")
    else parseString fuel rest (acc ++ [c])

/-- The leading decimal digits of a text, as a number, with their count. -/
def takeDigits : List Char → Nat → Nat → Nat × Nat × List Char
  | [], n, len => (n, len, [])
  | c :: rest, n, len =>
    if c.isDigit then takeDigits rest (n * 10 + (c.toNat - '0'.toNat)) (len + 1)
    else (n, len, c :: rest)

/-- A number literal: `-? (0 | [1-9][0-9]*) (. [0-9]+)? ([eE] [+-]? [0-9]+)?`,
read as the nearest float64; out of the float64 range it is an error. -/
def parseNumber (input : List Char) : Except Fault (Float64 × List Char) :=
  let bad : Except Fault (Float64 × List Char) :=
    Except.error (Fault.error "invalid character in numeric literal")
  let neg := input.head? = some '-'
  let s0 := if neg then input.tail else input
  match s0 with
  | [] => Except.error (Fault.error "unexpected end of JSON input")
  | c :: _ =>
    if ¬ c.isDigit then bad
    else
      let ip := if c = '0' then (0, 1, s0.tail) else takeDigits s0 0 0
      let afterFrac : Option (Nat × Nat × List Char) :=
        match ip.2.2 with
        | '.' :: r =>
          let fp := takeDigits r ip.1 0
          if fp.2.1 = 0 then none else some fp
        | r => some (ip.1, 0, r)
      match afterFrac with
      | none => bad
      | some (digits, fracLen, r) =>
        let afterExp : Option (Int × List Char) :=
          match r with
          | e :: r1 =>
            if e = 'e' ∨ e = 'E' then
              let negE := r1.head? = some '-'
              let r2 := if r1.head? = some '-' ∨ r1.head? = some '+' then r1.tail else r1
              let ep := takeDigits r2 0 0
              if ep.2.1 = 0 then none
              else some (if negE then -(ep.1 : Int) else (ep.1 : Int), ep.2.2)
            else some (0, r)
          | [] => some (0, r)
        match afterExp with
        | none => bad
        | some (exp, r3) =>
          match Float64.ofDecimal neg digits (exp - fracLen) with
          | none => Except.error (Fault.error "json: cannot unmarshal number into Go value of type float64")
          | some x => Except.ok (x, r3)

/-- The assignment `m[k] = v` on a decoded object. -/
def assignMember (k : String) (v : Iface) : List (String × Iface) → List (String × Iface)
  | [] => [(k, v)]
  | (k1, v1) :: rest => if k1 = k then (k, v) :: rest else (k1, v1) :: assignMember k v rest

mutual
/-- One JSON value at the head of the text, and the text after it.  `depth`
is the number of array and object levels still allowed (the decoder gives up
beyond 10000); `fuel` bounds the number of values read. -/
def parseValue : Nat → Nat → List Char → Except Fault (Iface × List Char)
  | 0, _, _ => Except.error (Fault.error "unexpected end of JSON input")
  | fuel + 1, depth, input =>
    match input with
    | [] => Except.error (Fault.error "unexpected end of JSON input")
    | 'n' :: 'u' :: 'l' :: 'l' :: rest => Except.ok (Iface.nil, rest)
    | 't' :: 'r' :: 'u' :: 'e' :: rest => Except.ok (Iface.bool true, rest)
    | 'f' :: 'a' :: 'l' :: 's' :: 'e' :: rest => Except.ok (Iface.bool false, rest)
    | '"' :: rest =>
      match parseString rest.length rest [] with
      | Except.error err => Except.error err
      | Except.ok (s, rest1) => Except.ok (Iface.string (String.mk s), rest1)
    | '[' :: rest =>
      match depth with
      | 0 => Except.error (Fault.error "exceeded max depth")
      | depth1 + 1 =>
        match skipSpace rest with
        | ']' :: rest1 => Except.ok (Iface.slice [], rest1)
        | rest1 => parseElems fuel depth1 rest1 []
    | '{' :: rest =>
      match depth with
      | 0 => Except.error (Fault.error "exceeded max depth")
      | depth1 + 1 =>
        match skipSpace rest with
        | '}' :: rest1 => Except.ok (Iface.map [], rest1)
        | rest1 => parseMembers fuel depth1 rest1 []
    | c :: _ =>
      if c = '-' ∨ c.isDigit then
        match parseNumber input with
        | Except.error err => Except.error err
        | Except.ok (x, rest) => Except.ok (Iface.float64 x, rest)
      else Except.error (Fault.error "invalid character looking for beginning of value")
/-- The elements of an array from the head of an element on, up to the closing
bracket. -/
def parseElems : Nat → Nat → List Char → List Iface → Except Fault (Iface × List Char)
  | 0, _, _, _ => Except.error (Fault.error "unexpected end of JSON input")
  | fuel + 1, depth, input, acc =>
    match parseValue fuel depth input with
    | Except.error err => Except.error err
    | Except.ok (v, rest) =>
      match skipSpace rest with
      | ',' :: rest1 => parseElems fuel depth (skipSpace rest1) (acc ++ [v])
      | ']' :: rest1 => Except.ok (Iface.slice (acc ++ [v]), rest1)
      | [] => Except.error (Fault.error "unexpected end of JSON input")
      | _ => Except.error (Fault.error "invalid character after array element")
/-- The members of an object from the head of a key on, up to the closing brace. -/
def parseMembers : Nat → Nat → List Char → List (String × Iface) →
    Except Fault (Iface × List Char)
  | 0, _, _, _ => Except.error (Fault.error "unexpected end of JSON input")
  | fuel + 1, depth, input, acc =>
    match input with
    | '"' :: rest =>
      match parseString rest.length rest [] with
      | Except.error err => Except.error err
      | Except.ok (k, rest1) =>
        match skipSpace rest1 with
        | ':' :: rest2 =>
          match parseValue fuel depth (skipSpace rest2) with
          | Except.error err => Except.error err
          | Except.ok (v, rest3) =>
            match skipSpace rest3 with
            | ',' :: rest4 =>
              parseMembers fuel depth (skipSpace rest4) (assignMember (String.mk k) v acc)
            | '}' :: rest4 => Except.ok (Iface.map (assignMember (String.mk k) v acc), rest4)
            | [] => Except.error (Fault.error "unexpected end of JSON input")
            | _ => Except.error (Fault.error "invalid character after object key:value pair")
        | [] => Except.error (Fault.error "unexpected end of JSON input")
        | _ => Except.error (Fault.error "invalid character after object key")
    | [] => Except.error (Fault.error "unexpected end of JSON input")
    | _ => Except.error (Fault.error "invalid character looking for beginning of object key string")
end

/-- The call `json.Unmarshal(data, &v)` with `v` an `interface{}`: one value,
white space around it allowed, nothing after it. -/
def jsonUnmarshal (data : List Char) : Except Fault Iface :=
  match parseValue (data.length + 1) 10000 (skipSpace data) with
  | Except.error err => Except.error err
  | Except.ok (v, rest) =>
    match skipSpace rest with
    | [] => Except.ok v
    | _ => Except.error (Fault.error "invalid character after top-level value")

/-! ## encoding/json: the view payload, by its field tags -/

/-- The member of a JSON object under a key. -/
def lookupMember : List (String × JSON) → String → Option JSON
  | [], _ => none
  | (k1, v1) :: rest, k => if k1 = k then some v1 else lookupMember rest k

def JSON.member (j : JSON) (k : String) : Option JSON :=
  match j with
  | JSON.object members => lookupMember members k
  | _ => none

/-- A string field tagged `omitempty`: left out when empty. -/
def omitEmptyString (key value : String) : List (String × JSON) :=
  if value = "" then [] else [(key, JSON.string value)]

/-- A slice field: null when nil. -/
def sliceJSON (xs : List JSON) : JSON :=
  match xs with
  | [] => JSON.null
  | _ => JSON.array xs

def ViewCondition.toJSON (c : ViewCondition) : JSON :=
  JSON.object [("field", JSON.string c.Field), ("operator", JSON.string c.Operator),
               ("value", JSON.string c.Value)]

def Restriction.toJSON (r : Restriction) : JSON :=
  JSON.object [("ids", sliceJSON (r.IDs.map (fun n => JSON.number (formatInt n)))),
               ("type", JSON.string r.Type_)]

def Output.toJSON (o : Output) : JSON :=
  JSON.object
    ([("columns", sliceJSON (Iface.toJSONs o.Columns))]
      ++ omitEmptyString "group_by" o.GroupBy
      ++ omitEmptyString "sort_by" o.SortBy
      ++ omitEmptyString "group_order" o.GroupOrder
      ++ omitEmptyString "sort_order" o.SortOrder)

/-- The JSON object of a `ViewCreateOrUpdate`: one member per field, under the
key of its tag, in field order; `id` and `url` are left out when zero
(`omitempty` has no effect on the `time.Time` structs). -/
def ViewCreateOrUpdate.toJSON (v : ViewCreateOrUpdate) : JSON :=
  JSON.object
    ((if v.ID = 0 then [] else [("id", JSON.number (formatInt v.ID))])
      ++ [("active", JSON.bool v.Active),
          ("description", JSON.string v.Description),
          ("position", JSON.number (formatInt v.Position)),
          ("title", JSON.string v.Title),
          ("created_at", JSON.string v.CreatedAt.text),
          ("updated_at", JSON.string v.UpdatedAt.text),
          ("all", sliceJSON (v.All.map ViewCondition.toJSON)),
          ("any", sliceJSON (v.Any.map ViewCondition.toJSON))]
      ++ omitEmptyString "url" v.URL
      ++ [("restriction", match v.Restriction with
                          | none => JSON.null
                          | some r => r.toJSON),
          ("output", v.Output.toJSON)])

/-! ## client/view.go: the requests -/

inductive Method where
  | GET
  | POST
  | PUT
  | DELETE
deriving DecidableEq

/-- The value handed to the HTTP helper as request data: the anonymous structs
`struct{ View ViewCreateOrUpdate }` (key "view") and
`struct{ Views []ViewPosition }` (key "views"), and the one-field structs of
the other record types (keys "queue", "custom_status", "group_membership",
"organization_membership"). -/
inductive Payload where
  | none
  | view (v : ViewCreateOrUpdate)
  | views (vs : List ViewPosition)
  | queue (q : Queue)
  | customStatus (s : CustomStatus)
  | groupMembership (m : GroupMembership)
  | organizationMembership (m : OrganizationMembership)

structure Request where
  method : Method
  path : String
  data : Payload

/-- The API client together with the server it talks to.  The HTTP helpers of
the client (`z.Put`, ...) are not part of the listed sources, so the exchange
is a parameter: `roundTrip` answers a request, given the requests sent before
it, with a response body or an error; `sent` records the requests in order. -/
structure Client where
  roundTrip : List Request → Request → Except Fault String
  sent : List Request

/-- The call `z.Put(ctx, path, data)`: one request, recorded and answered. -/
def Client.Put (z : Client) (path : String) (data : Payload) :
    Except Fault String × Client :=
  let r : Request := { method := Method.PUT, path := path, data := data }
  (z.roundTrip z.sent r, { z with sent := z.sent ++ [r] })

/-- The call `z.Post(ctx, path, data)`: one request, recorded and answered. -/
def Client.Post (z : Client) (path : String) (data : Payload) :
    Except Fault String × Client :=
  let r : Request := { method := Method.POST, path := path, data := data }
  (z.roundTrip z.sent r, { z with sent := z.sent ++ [r] })

/-- The call `z.Get(ctx, path)`: one request, recorded and answered. -/
def Client.Get (z : Client) (path : String) : Except Fault String × Client :=
  let r : Request := { method := Method.GET, path := path, data := Payload.none }
  (z.roundTrip z.sent r, { z with sent := z.sent ++ [r] })

/-- The call `z.Delete(ctx, path)`: one request, recorded and answered; only
the error comes back. -/
def Client.Delete (z : Client) (path : String) : Option Fault × Client :=
  let r : Request := { method := Method.DELETE, path := path, data := Payload.none }
  (match z.roundTrip z.sent r with
   | Except.error err => some err
   | Except.ok _ => none,
   { z with sent := z.sent ++ [r] })

/-- The two uses of `json.Unmarshal(body, &result)` in the view client, one per
result type; decoding into a struct is left to the library, so both are
parameters. -/
structure ViewCodec where
  unmarshalView : String → Except Fault View
  unmarshalViewPositions : String → Except Fault (List ViewPosition)

def UpdateViewPosition (codec : ViewCodec) (z : Client) (_id : Int) (view : ViewPosition) :
    Except Fault Unit × Client :=
  let data : List ViewPosition := [] ++ [view]
  let sent := z.Put "/views/update_many" (Payload.views data)
  match sent.1 with
  | Except.error err => (Except.error err, sent.2)
  | Except.ok body =>
    match codec.unmarshalViewPositions body with
    | Except.error err => (Except.error err, sent.2)
    | Except.ok _ => (Except.ok (), sent.2)

/-- `UpdateView`.  The `json.Marshal(data)` of line 106 only feeds a debug print
and its error is overwritten; the result of `UpdateViewPosition` is discarded
by the call statement of line 110. -/
def UpdateView (codec : ViewCodec) (z : Client) (id : Int) (view : View) :
    Except Fault View × Client :=
  let data := mapViewToViewCreateOrUpdate view
  let z1 := (UpdateViewPosition codec z id { ID := id, Position := view.Position }).2
  let sent := z1.Put (String.mk ("/views/".data ++ formatInt id ++ ".json".data)) (Payload.view data)
  match sent.1 with
  | Except.error err => (Except.error err, sent.2)
  | Except.ok body =>
    match codec.unmarshalView body with
    | Except.error err => (Except.error err, sent.2)
    | Except.ok result => (Except.ok result, sent.2)

def CreateView (codec : ViewCodec) (z : Client) (view : View) : Except Fault View × Client :=
  let data := mapViewToViewCreateOrUpdate view
  let sent := z.Post "/views.json" (Payload.view data)
  match sent.1 with
  | Except.error err => (Except.error err, sent.2)
  | Except.ok body =>
    match codec.unmarshalView body with
    | Except.error err => (Except.error err, sent.2)
    | Except.ok result => (Except.ok result, sent.2)

/-! ## util.go: resource data -/

/-- A Go `map[string]interface{}`: at most one entry per key; a lookup takes
the entry of the key. -/
abbrev mapGetterSetter := List (String × Attr)

/-- The assignment `m[k] = v`. -/
def mapGetterSetter.assign : mapGetterSetter → String → Attr → mapGetterSetter
  | [], k, v => [(k, v)]
  | (k1, v1) :: rest, k, v =>
    if k1 = k then (k, v) :: rest else (k1, v1) :: mapGetterSetter.assign rest k v

/-- The lookup `v, ok := m[k]`. -/
def mapGetterSetter.GetOk : mapGetterSetter → String → Attr × Bool
  | [], _ => (Attr.nil, false)
  | (k1, v1) :: rest, k => if k1 = k then (v1, true) else mapGetterSetter.GetOk rest k

def mapGetterSetter.Get (m : mapGetterSetter) (k : String) : Attr :=
  match m.GetOk k with
  | (_, false) => Attr.nil
  | (v, true) => v

structure identifiableMapGetterSetter where
  mapGetterSetter : mapGetterSetter
  id : String

def newIdentifiableGetterSetter : identifiableMapGetterSetter :=
  { mapGetterSetter := [], id := "" }

namespace identifiableMapGetterSetter

def Id (i : identifiableMapGetterSetter) : String := i.id

def SetId (i : identifiableMapGetterSetter) (id : String) : identifiableMapGetterSetter :=
  { i with id := id }

def Get (i : identifiableMapGetterSetter) (k : String) : Attr := i.mapGetterSetter.Get k

def GetOk (i : identifiableMapGetterSetter) (k : String) : Attr × Bool :=
  i.mapGetterSetter.GetOk k

/-- `Set` stores the value and returns a nil error. -/
def Set (i : identifiableMapGetterSetter) (k : String) (v : Attr) :
    Except Fault identifiableMapGetterSetter :=
  Except.ok { i with mapGetterSetter := i.mapGetterSetter.assign k v }

end identifiableMapGetterSetter

/-- `setSchemaFields`: `Set` for every entry of the map, stopping at the first
error.  Go ranges over a map in no fixed order; the entries are taken in the
order of the list. -/
def setSchemaFields (d : identifiableMapGetterSetter) :
    mapGetterSetter → Except Fault identifiableMapGetterSetter
  | [] => Except.ok d
  | (k, v) :: rest =>
    match d.Set k v with
    | Except.error err => Except.error err
    | Except.ok d1 => setSchemaFields d1 rest

/-! ## resource_zendesk_view.go: marshalViews -/

/-- The loop `for _, col := range ids { restrictions = append(restrictions, col) }`. -/
def appendRestrictionIDs : List Int → List Int → List Int
  | restrictions, [] => restrictions
  | restrictions, col :: rest => appendRestrictionIDs (restrictions ++ [col]) rest

/-- The loop over the columns: a float64 ID is formatted, anything else is
asserted to be a string. -/
def appendColumnStrings : List String → List Column → Except Fault (List String)
  | columns, [] => Except.ok columns
  | columns, col :: rest =>
    match col.ID with
    | Iface.float64 x => appendColumnStrings (columns ++ [String.mk (Float64.FormatFloat x)]) rest
    | Iface.string s => appendColumnStrings (columns ++ [s]) rest
    | _ => Except.error (Fault.panic "interface conversion: interface {} is not string")

/-- The loops over the conditions, one map per condition. -/
def appendConditionMaps : List (List (String × Attr)) → List ViewCondition →
    List (List (String × Attr))
  | acc, [] => acc
  | acc, v :: rest =>
    appendConditionMaps
      (acc ++ [[("field", Attr.string v.Field), ("operator", Attr.string v.Operator),
                ("value", Attr.string v.Value)]]) rest

def marshalViews (field : View) (d : identifiableMapGetterSetter) :
    Except Fault identifiableMapGetterSetter :=
  let fields : mapGetterSetter :=
    [ ("url", Attr.string field.URL),
      ("title", Attr.string field.Title),
      ("description", Attr.string field.Description),
      ("position", Attr.int field.Position),
      ("active", Attr.bool field.Active),
      ("group_by", Attr.string field.Execution.GroupBy),
      ("sort_by", Attr.string field.Execution.SortBy),
      ("group_order", Attr.string field.Execution.GroupOrder),
      ("sort_order", Attr.string field.Execution.SortOrder) ]
  let fields :=
    match field.Restriction with
    | none => fields.assign "restrictions" Attr.nil
    | some r => fields.assign "restrictions" (Attr.ints (appendRestrictionIDs [] r.IDs))
  match appendColumnStrings [] field.Execution.Columns with
  | Except.error err => Except.error err
  | Except.ok columns =>
    let fields := fields.assign "columns" (Attr.strings columns)
    let fields := fields.assign "all" (Attr.maps (appendConditionMaps [] field.Conditions.All))
    let fields := fields.assign "any" (Attr.maps (appendConditionMaps [] field.Conditions.Any))
    setSchemaFields d fields

/-- The two requests of `UpdateView id view`, in the order they are sent. -/
def updateViewRequests (id : Int) (view : View) : List Request :=
  [ { method := Method.PUT, path := "/views/update_many",
      data := Payload.views [{ ID := id, Position := view.Position }] },
    { method := Method.PUT, path := String.mk ("/views/".data ++ formatInt id ++ ".json".data),
      data := Payload.view (mapViewToViewCreateOrUpdate view) } ]

/-! ## resource_zendesk_macro.go -/

/-- Modelled from the spec: `models.MacroAction` is declared in models/macro.go,
which is not among the listed sources; the fields and their types are those
that resource_zendesk_macro.go reads and assigns. -/
structure MacroAction where
  Field : String
  Value : Iface

/-- Modelled from the spec: `models.Macro` is declared in models/macro.go, which
is not among the listed sources; the fields and their types are those that
resource_zendesk_macro.go reads and assigns (`Restriction` and the action
`Value` are `interface{}`). -/
structure Macro where
  ID : Int
  URL : String
  Title : String
  Description : String
  Position : Int
  Active : Bool
  Restriction : Iface
  Actions : List MacroAction

/-- The index expression `mapi[k]` on a `map[string]interface{}`: nil when
the key is absent. -/
def indexIface : List (String × Iface) → String → Iface
  | [], _ => Iface.nil
  | (k1, v1) :: rest, k => if k1 = k then v1 else indexIface rest k

/-- The loop `restrictions = append(restrictions, int(col.(float64)))`. -/
def appendRestrictionInts : List Int → List Iface → Except Fault (List Int)
  | restrictions, [] => Except.ok restrictions
  | restrictions, col :: rest =>
    match col with
    | Iface.float64 x => appendRestrictionInts (restrictions ++ [x.toInt]) rest
    | _ => Except.error (Fault.panic "interface conversion: interface {} is not float64")

/-- The type switch on an action value: a list is marshalled to a string, a
string is left as it is, anything else leaves the zero string. -/
def macroActionString (value : Iface) : Except Fault String :=
  match value with
  | Iface.slice _ =>
    match jsonMarshal value with
    | Except.error _ => Except.error (Fault.error "error decoding macro action value")
    | Except.ok tmp => Except.ok (String.mk tmp)
  | Iface.string s => Except.ok s
  | _ => Except.ok ""

/-- The loop over the actions, one map per action. -/
def appendActionMaps : List (List (String × Attr)) → List MacroAction →
    Except Fault (List (List (String × Attr)))
  | actions, [] => Except.ok actions
  | actions, action :: rest =>
    match macroActionString action.Value with
    | Except.error err => Except.error err
    | Except.ok stringVal =>
      appendActionMaps
        (actions ++ [[("field", Attr.string action.Field), ("value", Attr.string stringVal)]]) rest

/-- The value stored under "restrictions" (lines 98 to 115). -/
def macroRestrictions (restriction : Iface) : Except Fault Attr :=
  match restriction with
  | Iface.nil => Except.ok Attr.nil
  | Iface.map mapi =>
    match indexIface mapi "ids" with
    | Iface.nil => Except.ok Attr.nil
    | Iface.slice ids =>
      match appendRestrictionInts [] ids with
      | Except.error err => Except.error err
      | Except.ok restrictions => Except.ok (Attr.ints restrictions)
    | _ => Except.error (Fault.panic "interface conversion: interface {} is not []interface {}")
  | _ =>
    Except.error (Fault.panic "interface conversion: interface {} is not map[string]interface {}")

def marshalMacros (field : Macro) (d : identifiableMapGetterSetter) :
    Except Fault identifiableMapGetterSetter :=
  let fields : mapGetterSetter :=
    [ ("url", Attr.string field.URL),
      ("title", Attr.string field.Title),
      ("description", Attr.string field.Description),
      ("position", Attr.int field.Position),
      ("active", Attr.bool field.Active) ]
  match macroRestrictions field.Restriction with
  | Except.error err => Except.error err
  | Except.ok restrictions =>
    let fields := fields.assign "restrictions" restrictions
    match appendActionMaps [] field.Actions with
    | Except.error err => Except.error err
    | Except.ok actions =>
      let fields := fields.assign "action" (Attr.maps actions)
      setSchemaFields d fields

/-- The call `strconv.ParseInt(s, 10, 64)`: an optional sign and decimal
digits, within the int64 range. -/
def ParseInt (s : String) : Except Fault Int :=
  let syntaxError : Except Fault Int := Except.error (Fault.error "strconv.ParseInt: invalid syntax")
  match s.data with
  | [] => syntaxError
  | c :: rest =>
    let neg := c = '-'
    let digits := if c = '+' ∨ c = '-' then rest else c :: rest
    if digits = [] ∨ ¬ digits.all Char.isDigit then syntaxError
    else
      let n := digits.foldl (fun a ch => a * 10 + (ch.toNat - '0'.toNat)) 0
      if neg then
        if 2 ^ 63 < n then Except.error (Fault.error "strconv.ParseInt: value out of range")
        else Except.ok (-(n : Int))
      else
        if 2 ^ 63 ≤ n then Except.error (Fault.error "strconv.ParseInt: value out of range")
        else Except.ok (n : Int)

/-- The call `strings.HasPrefix(s, prefix)`. -/
def HasPrefix (s pre : String) : Bool := pre.data.isPrefixOf s.data

/-- The type assertion `v.(string)`. -/
def assertString : Attr → Except Fault String
  | Attr.string s => Except.ok s
  | _ => Except.error (Fault.panic "interface conversion: interface {} is not string")

/-- The type assertion `v.(int)`. -/
def assertInt : Attr → Except Fault Int
  | Attr.int n => Except.ok n
  | _ => Except.error (Fault.panic "interface conversion: interface {} is not int")

/-- The type assertion `v.(bool)`. -/
def assertBool : Attr → Except Fault Bool
  | Attr.bool b => Except.ok b
  | _ => Except.error (Fault.panic "interface conversion: interface {} is not bool")

/-- The call `v.(*schema.Set).List()`. -/
def assertSetList : Attr → Except Fault (List Attr)
  | Attr.set xs => Except.ok xs
  | _ => Except.error (Fault.panic "interface conversion: interface {} is not *schema.Set")

/-- The index expression `action[k]` on a `map[string]interface{}` of resource
data: nil when the key is absent. -/
def indexAttr : List (String × Attr) → String → Attr
  | [], _ => Attr.nil
  | (k1, v1) :: rest, k => if k1 = k then v1 else indexAttr rest k

/-- The loop `restrictions = append(restrictions, ids.(int))`. -/
def appendSetInts : List Int → List Attr → Except Fault (List Int)
  | restrictions, [] => Except.ok restrictions
  | restrictions, ids :: rest =>
    match assertInt ids with
    | Except.error err => Except.error err
    | Except.ok n => appendSetInts (restrictions ++ [n]) rest

/-- The value of one action (lines 205 to 214): text that starts with "[" is
unmarshalled, any other text is the value itself. -/
def macroActionValue (value : Attr) : Except Fault Iface :=
  match assertString value with
  | Except.error err => Except.error err
  | Except.ok s =>
    if HasPrefix s "[" then
      match jsonUnmarshal s.data with
      | Except.error err =>
        Except.error (Fault.error (String.mk
          ("error unmarshalling macro action value: ".data ++ err.message.data)))
      | Except.ok actionValue => Except.ok actionValue
    else Except.ok (Iface.string s)

/-- The loop over the actions of the state. -/
def appendMacroActions : List MacroAction → List Attr → Except Fault (List MacroAction)
  | actions, [] => Except.ok actions
  | actions, a :: rest =>
    match a with
    | Attr.map action =>
      match macroActionValue (indexAttr action "value") with
      | Except.error err => Except.error err
      | Except.ok actionValue =>
        match assertString (indexAttr action "field") with
        | Except.error err => Except.error err
        | Except.ok field =>
          appendMacroActions (actions ++ [{ Field := field, Value := actionValue }]) rest
    | _ => Except.error (Fault.error "could not parse actions for macro")

/-- The part of `unmarshalMacros` before the actions (lines 152 to 194). -/
def unmarshalMacroFields (d : identifiableMapGetterSetter) : Except Fault Macro := do
  let mut tf : Macro :=
    { ID := 0, URL := "", Title := "", Description := "", Position := 0, Active := false,
      Restriction := Iface.nil, Actions := [] }
  if d.Id ≠ "" then
    match ParseInt d.Id with
    | Except.error err =>
      throw (Fault.error (String.mk ("could not parse user field id ".data ++ d.Id.data
        ++ ": ".data ++ err.message.data)))
    | Except.ok id => tf := { tf with ID := id }
  if (d.GetOk "url").2 then
    tf := { tf with URL := ← assertString (d.GetOk "url").1 }
  if (d.GetOk "title").2 then
    tf := { tf with Title := ← assertString (d.GetOk "title").1 }
  if (d.GetOk "description").2 then
    tf := { tf with Description := ← assertString (d.GetOk "description").1 }
  if (d.GetOk "position").2 then
    tf := { tf with Position := ← assertInt (d.GetOk "position").1 }
  if (d.GetOk "active").2 then
    tf := { tf with Active := ← assertBool (d.GetOk "active").1 }
  if (d.GetOk "restrictions").2 then
    let ids ← assertSetList (d.GetOk "restrictions").1
    let restrictions ← appendSetInts [] ids
    tf := { tf with Restriction := Iface.macroRestriction restrictions "Group" }
  else
    tf := { tf with Restriction := Iface.nil }
  return tf

def unmarshalMacros (d : identifiableMapGetterSetter) : Except Fault Macro :=
  match unmarshalMacroFields d with
  | Except.error err => Except.error err
  | Except.ok tf =>
    if (d.GetOk "action").2 then
      match assertSetList (d.GetOk "action").1 with
      | Except.error err => Except.error err
      | Except.ok macroActions =>
        match appendMacroActions [] macroActions with
        | Except.error err => Except.error err
        | Except.ok actions => Except.ok { tf with Actions := actions }
    else Except.ok tf

/-! ## diag: diagnostics -/

inductive Severity where
  | Error
  | Warning
deriving DecidableEq

structure Diagnostic where
  Severity : Severity
  Summary : String
  Detail : String
deriving DecidableEq

abbrev Diagnostics := List Diagnostic

/-- The call `diag.FromErr(err)` on a non-nil error: one diagnostic of severity
Error whose summary is the text of the error. -/
def FromErr (err : Fault) : Diagnostics :=
  [{ Severity := Severity.Error, Summary := err.message, Detail := "" }]

/-- The method `diags.HasError()`. -/
def Diagnostics.HasError (diags : Diagnostics) : Bool :=
  diags.any (fun dg => dg.Severity = Severity.Error)

/-- How a resource operation ends: with the diagnostics it returns, or in a
panic (`Except.error`); the resource data and the client with its server as
the operation leaves them. -/
structure Outcome where
  result : Except Fault Diagnostics
  d : identifiableMapGetterSetter
  z : Client

/-! ## client/queue.go -/

/-- The use of `json.Unmarshal(body, &result)` in the queue client, where
`result` is `struct{ Queue Queue }` with the key "queue": the record decoded
from under that key, or the error; decoding into a struct is left to the
library, so it is a parameter. -/
structure QueueCodec where
  unmarshalQueue : String → Except Fault Queue

def GetQueue (codec : QueueCodec) (z : Client) (id : Int) : (Queue × Option Fault) × Client :=
  let got := z.Get (String.mk ("/queues/".data ++ formatInt id ++ ".json".data))
  match got.1 with
  | Except.error err => ((Queue.zero, some err), got.2)
  | Except.ok body =>
    match codec.unmarshalQueue body with
    | Except.error err => ((Queue.zero, some err), got.2)
    | Except.ok result => ((result, none), got.2)

def CreateQueue (codec : QueueCodec) (z : Client) (queue : Queue) :
    (Queue × Option Fault) × Client :=
  let sent := z.Post "/queues.json" (Payload.queue queue)
  match sent.1 with
  | Except.error err => ((Queue.zero, some err), sent.2)
  | Except.ok body =>
    match codec.unmarshalQueue body with
    | Except.error err => ((Queue.zero, some err), sent.2)
    | Except.ok result => ((result, none), sent.2)

def UpdateQueue (codec : QueueCodec) (z : Client) (id : Int) (queue : Queue) :
    (Queue × Option Fault) × Client :=
  let sent := z.Put (String.mk ("/queues/".data ++ formatInt id ++ ".json".data))
    (Payload.queue queue)
  match sent.1 with
  | Except.error err => ((Queue.zero, some err), sent.2)
  | Except.ok body =>
    match codec.unmarshalQueue body with
    | Except.error err => ((Queue.zero, some err), sent.2)
    | Except.ok result => ((result, none), sent.2)

def DeleteQueue (z : Client) (id : Int) : Option Fault × Client :=
  let sent := z.Delete (String.mk ("/queues/".data ++ formatInt id ++ ".json".data))
  match sent.1 with
  | some err => (some err, sent.2)
  | none => (none, sent.2)

/-! ## resource_zendesk_queues.go -/

/-- `atoi64`: `strconv.ParseInt(anum, 10, 64)`. -/
def atoi64 (anum : String) : Except Fault Int := ParseInt anum

/-- The type assertion `v.(map[string]interface{})`. -/
def assertMap : Attr → Except Fault (List (String × Attr))
  | Attr.map kvs => Except.ok kvs
  | _ => Except.error (Fault.panic "interface conversion: interface {} is not map[string]interface {}")

/-- The loop `for k, val := range configMap { m[k] = val }`. -/
def copyMap : List (String × Attr) → List (String × Attr) → List (String × Attr)
  | m, [] => m
  | m, (k, val) :: rest => copyMap (mapGetterSetter.assign m k val) rest

def marshalQueue (queue : Queue) (d : identifiableMapGetterSetter) :
    Except Fault identifiableMapGetterSetter :=
  let fields : mapGetterSetter :=
    [ ("url", Attr.string queue.URL),
      ("name", Attr.string queue.Name),
      ("description", Attr.string queue.Description),
      ("created_at", Attr.string queue.CreatedAt),
      ("updated_at", Attr.string queue.UpdatedAt) ]
  let fields :=
    match queue.Definition with
    | some definition => fields.assign "definition" (Attr.map definition)
    | none => fields
  setSchemaFields d fields

def unmarshalQueue (d : identifiableMapGetterSetter) : Except Fault Queue := do
  let mut queue : Queue := Queue.zero
  if d.Id ≠ "" then
    match atoi64 d.Id with
    | Except.error err =>
      throw (Fault.error (String.mk ("could not parse queue id ".data ++ d.Id.data ++ ": ".data
        ++ err.message.data)))
    | Except.ok id => queue := { queue with ID := id }
  if (d.GetOk "url").2 then
    queue := { queue with URL := ← assertString (d.GetOk "url").1 }
  if (d.GetOk "name").2 then
    queue := { queue with Name := ← assertString (d.GetOk "name").1 }
  if (d.GetOk "description").2 then
    queue := { queue with Description := ← assertString (d.GetOk "description").1 }
  if (d.GetOk "definition").2 then
    let configMap ← assertMap (d.GetOk "definition").1
    queue := { queue with Definition := some (copyMap [] configMap) }
  return queue

/-- A call that returned an error: the diagnostics of `diag.FromErr(err)`; a
panic goes on as a panic. -/
def failed (err : Fault) (d : identifiableMapGetterSetter) (z : Client) : Outcome :=
  match err with
  | Fault.panic msg => { result := Except.error (Fault.panic msg), d := d, z := z }
  | Fault.error msg => { result := Except.ok (FromErr (Fault.error msg)), d := d, z := z }

def createQueue (codec : QueueCodec) (d : identifiableMapGetterSetter) (zd : Client) : Outcome :=
  match unmarshalQueue d with
  | Except.error err => failed err d zd
  | Except.ok queue =>
    let created := CreateQueue codec zd queue
    match created.1.2 with
    | some err => { result := Except.ok (FromErr err), d := d, z := created.2 }
    | none =>
      let d1 := d.SetId (String.mk (formatInt created.1.1.ID))
      match marshalQueue created.1.1 d1 with
      | Except.error err => failed err d1 created.2
      | Except.ok d2 => { result := Except.ok [], d := d2, z := created.2 }

def readQueue (codec : QueueCodec) (d : identifiableMapGetterSetter) (zd : Client) : Outcome :=
  match atoi64 d.Id with
  | Except.error err => failed err d zd
  | Except.ok id =>
    let got := GetQueue codec zd id
    match got.1.2 with
    | some err => { result := Except.ok (FromErr err), d := d, z := got.2 }
    | none =>
      match marshalQueue got.1.1 d with
      | Except.error err => failed err d got.2
      | Except.ok d2 => { result := Except.ok [], d := d2, z := got.2 }

def updateQueue (codec : QueueCodec) (d : identifiableMapGetterSetter) (zd : Client) : Outcome :=
  match unmarshalQueue d with
  | Except.error err => failed err d zd
  | Except.ok queue =>
    match atoi64 d.Id with
    | Except.error err => failed err d zd
    | Except.ok id =>
      let updated := UpdateQueue codec zd id queue
      match updated.1.2 with
      | some err => { result := Except.ok (FromErr err), d := d, z := updated.2 }
      | none =>
        match marshalQueue updated.1.1 d with
        | Except.error err => failed err d updated.2
        | Except.ok d2 => { result := Except.ok [], d := d2, z := updated.2 }

def deleteQueue (d : identifiableMapGetterSetter) (zd : Client) : Outcome :=
  match atoi64 d.Id with
  | Except.error err => failed err d zd
  | Except.ok id =>
    let deleted := DeleteQueue zd id
    match deleted.1 with
    | some err => { result := Except.ok (FromErr err), d := d, z := deleted.2 }
    | none => { result := Except.ok [], d := d, z := deleted.2 }

/-! ## client/custom_status.go, resource_zendesk_custom_statuses.go -/

/-- The use of `json.Unmarshal(body, &result)` in the custom status client,
where `result` is `struct{ CustomStatus CustomStatus }` with the key
"custom_status"; a parameter, as for the queue. -/
structure CustomStatusCodec where
  unmarshalCustomStatus : String → Except Fault CustomStatus

def GetCustomStatus (codec : CustomStatusCodec) (z : Client) (id : Int) :
    (CustomStatus × Option Fault) × Client :=
  let got := z.Get (String.mk ("/custom_statuses/".data ++ formatInt id ++ ".json".data))
  match got.1 with
  | Except.error err => ((CustomStatus.zero, some err), got.2)
  | Except.ok body =>
    match codec.unmarshalCustomStatus body with
    | Except.error err => ((CustomStatus.zero, some err), got.2)
    | Except.ok result => ((result, none), got.2)

def CreateCustomStatus (codec : CustomStatusCodec) (z : Client) (status : CustomStatus) :
    (CustomStatus × Option Fault) × Client :=
  let sent := z.Post "/custom_statuses.json" (Payload.customStatus status)
  match sent.1 with
  | Except.error err => ((CustomStatus.zero, some err), sent.2)
  | Except.ok body =>
    match codec.unmarshalCustomStatus body with
    | Except.error err => ((CustomStatus.zero, some err), sent.2)
    | Except.ok result => ((result, none), sent.2)

def UpdateCustomStatus (codec : CustomStatusCodec) (z : Client) (id : Int)
    (status : CustomStatus) : (CustomStatus × Option Fault) × Client :=
  let sent := z.Put (String.mk ("/custom_statuses/".data ++ formatInt id ++ ".json".data))
    (Payload.customStatus status)
  match sent.1 with
  | Except.error err => ((CustomStatus.zero, some err), sent.2)
  | Except.ok body =>
    match codec.unmarshalCustomStatus body with
    | Except.error err => ((CustomStatus.zero, some err), sent.2)
    | Except.ok result => ((result, none), sent.2)

def marshalCustomStatus (status : CustomStatus) (d : identifiableMapGetterSetter) :
    Except Fault identifiableMapGetterSetter :=
  let fields : mapGetterSetter :=
    [ ("url", Attr.string status.URL),
      ("status_category", Attr.string status.StatusCategory),
      ("agent_label", Attr.string status.AgentLabel),
      ("end_user_label", Attr.string status.EndUserLabel),
      ("description", Attr.string status.Description),
      ("default", Attr.bool status.Default),
      ("active", Attr.bool status.Active),
      ("end_user_hidden", Attr.bool status.EndUserHidden),
      ("created_at", Attr.string status.CreatedAt),
      ("updated_at", Attr.string status.UpdatedAt) ]
  setSchemaFields d fields

def unmarshalCustomStatus (d : identifiableMapGetterSetter) : Except Fault CustomStatus := do
  let mut status : CustomStatus := CustomStatus.zero
  if d.Id ≠ "" then
    match atoi64 d.Id with
    | Except.error err =>
      throw (Fault.error (String.mk ("could not parse custom status id ".data ++ d.Id.data
        ++ ": ".data ++ err.message.data)))
    | Except.ok id => status := { status with ID := id }
  if (d.GetOk "url").2 then
    status := { status with URL := ← assertString (d.GetOk "url").1 }
  if (d.GetOk "status_category").2 then
    status := { status with StatusCategory := ← assertString (d.GetOk "status_category").1 }
  if (d.GetOk "agent_label").2 then
    status := { status with AgentLabel := ← assertString (d.GetOk "agent_label").1 }
  if (d.GetOk "end_user_label").2 then
    status := { status with EndUserLabel := ← assertString (d.GetOk "end_user_label").1 }
  if (d.GetOk "description").2 then
    status := { status with Description := ← assertString (d.GetOk "description").1 }
  if (d.GetOk "default").2 then
    status := { status with Default := ← assertBool (d.GetOk "default").1 }
  if (d.GetOk "active").2 then
    status := { status with Active := ← assertBool (d.GetOk "active").1 }
  if (d.GetOk "end_user_hidden").2 then
    status := { status with EndUserHidden := ← assertBool (d.GetOk "end_user_hidden").1 }
  return status

def createCustomStatus (codec : CustomStatusCodec) (d : identifiableMapGetterSetter)
    (zd : Client) : Outcome :=
  match unmarshalCustomStatus d with
  | Except.error err => failed err d zd
  | Except.ok status =>
    let created := CreateCustomStatus codec zd status
    match created.1.2 with
    | some err => { result := Except.ok (FromErr err), d := d, z := created.2 }
    | none =>
      let d1 := d.SetId (String.mk (formatInt created.1.1.ID))
      match marshalCustomStatus created.1.1 d1 with
      | Except.error err => failed err d1 created.2
      | Except.ok d2 => { result := Except.ok [], d := d2, z := created.2 }

def readCustomStatus (codec : CustomStatusCodec) (d : identifiableMapGetterSetter)
    (zd : Client) : Outcome :=
  match atoi64 d.Id with
  | Except.error err => failed err d zd
  | Except.ok id =>
    let got := GetCustomStatus codec zd id
    match got.1.2 with
    | some err => { result := Except.ok (FromErr err), d := d, z := got.2 }
    | none =>
      match marshalCustomStatus got.1.1 d with
      | Except.error err => failed err d got.2
      | Except.ok d2 => { result := Except.ok [], d := d2, z := got.2 }

def updateCustomStatus (codec : CustomStatusCodec) (d : identifiableMapGetterSetter)
    (zd : Client) : Outcome :=
  match unmarshalCustomStatus d with
  | Except.error err => failed err d zd
  | Except.ok status =>
    match atoi64 d.Id with
    | Except.error err => failed err d zd
    | Except.ok id =>
      let updated := UpdateCustomStatus codec zd id status
      match updated.1.2 with
      | some err => { result := Except.ok (FromErr err), d := d, z := updated.2 }
      | none =>
        match marshalCustomStatus updated.1.1 d with
        | Except.error err => failed err d updated.2
        | Except.ok d2 => { result := Except.ok [], d := d2, z := updated.2 }

/-- The four operations of a `schema.Resource`, each on the resource data and
on `meta`, the client the provider was configured with. -/
structure Resource where
  CreateContext : identifiableMapGetterSetter → Client → Outcome
  ReadContext : identifiableMapGetterSetter → Client → Outcome
  UpdateContext : identifiableMapGetterSetter → Client → Outcome
  DeleteContext : identifiableMapGetterSetter → Client → Outcome

def resourceZendeskCustomStatuses (codec : CustomStatusCodec) : Resource :=
  { CreateContext := fun d zd => createCustomStatus codec d zd
    ReadContext := fun d zd => readCustomStatus codec d zd
    UpdateContext := fun d zd => updateCustomStatus codec d zd
    DeleteContext := fun d zd =>
      { result := Except.ok
          [{ Severity := Severity.Warning,
             Summary := "Custom statuses cannot be deleted via API",
             Detail := "The custom status will remain in Zendesk but will be removed from Terraform state." }],
        d := d, z := zd } }

/-! ## client/membership.go, resource_zendesk_group_memberships.go,
resource_zendesk_organization_memberships.go -/

/-- The uses of `json.Unmarshal(body, &result)` in the membership client, with
the keys "group_membership" and "organization_membership"; parameters, as for
the queue. -/
structure MembershipCodec where
  unmarshalGroupMembership : String → Except Fault GroupMembership
  unmarshalOrganizationMembership : String → Except Fault OrganizationMembership

def GetGroupMembership (codec : MembershipCodec) (z : Client) (id : Int) :
    (GroupMembership × Option Fault) × Client :=
  let got := z.Get (String.mk ("/group_memberships/".data ++ formatInt id ++ ".json".data))
  match got.1 with
  | Except.error err => ((GroupMembership.zero, some err), got.2)
  | Except.ok body =>
    match codec.unmarshalGroupMembership body with
    | Except.error err => ((GroupMembership.zero, some err), got.2)
    | Except.ok result => ((result, none), got.2)

def CreateGroupMembership (codec : MembershipCodec) (z : Client) (membership : GroupMembership) :
    (GroupMembership × Option Fault) × Client :=
  let sent := z.Post "/group_memberships.json" (Payload.groupMembership membership)
  match sent.1 with
  | Except.error err => ((GroupMembership.zero, some err), sent.2)
  | Except.ok body =>
    match codec.unmarshalGroupMembership body with
    | Except.error err => ((GroupMembership.zero, some err), sent.2)
    | Except.ok result => ((result, none), sent.2)

def DeleteGroupMembership (z : Client) (id : Int) : Option Fault × Client :=
  let sent := z.Delete (String.mk ("/group_memberships/".data ++ formatInt id ++ ".json".data))
  match sent.1 with
  | some err => (some err, sent.2)
  | none => (none, sent.2)

def GetOrganizationMembership (codec : MembershipCodec) (z : Client) (id : Int) :
    (OrganizationMembership × Option Fault) × Client :=
  let got := z.Get
    (String.mk ("/organization_memberships/".data ++ formatInt id ++ ".json".data))
  match got.1 with
  | Except.error err => ((OrganizationMembership.zero, some err), got.2)
  | Except.ok body =>
    match codec.unmarshalOrganizationMembership body with
    | Except.error err => ((OrganizationMembership.zero, some err), got.2)
    | Except.ok result => ((result, none), got.2)

def CreateOrganizationMembership (codec : MembershipCodec) (z : Client)
    (membership : OrganizationMembership) : (OrganizationMembership × Option Fault) × Client :=
  let sent := z.Post "/organization_memberships.json" (Payload.organizationMembership membership)
  match sent.1 with
  | Except.error err => ((OrganizationMembership.zero, some err), sent.2)
  | Except.ok body =>
    match codec.unmarshalOrganizationMembership body with
    | Except.error err => ((OrganizationMembership.zero, some err), sent.2)
    | Except.ok result => ((result, none), sent.2)

def DeleteOrganizationMembership (z : Client) (id : Int) : Option Fault × Client :=
  let sent := z.Delete
    (String.mk ("/organization_memberships/".data ++ formatInt id ++ ".json".data))
  match sent.1 with
  | some err => (some err, sent.2)
  | none => (none, sent.2)

/-- The conversions `int(x)` of an int64 and `int64(v)` of an int: both types
are 64 bits wide, so the number is kept. -/
def intOfInt64 (x : Int) : Int := x

def marshalGroupMembership (membership : GroupMembership) (d : identifiableMapGetterSetter) :
    Except Fault identifiableMapGetterSetter :=
  let fields : mapGetterSetter :=
    [ ("url", Attr.string membership.URL),
      ("user_id", Attr.int (intOfInt64 membership.UserID)),
      ("group_id", Attr.int (intOfInt64 membership.GroupID)),
      ("default", Attr.bool membership.Default),
      ("created_at", Attr.string membership.CreatedAt),
      ("updated_at", Attr.string membership.UpdatedAt) ]
  setSchemaFields d fields

def unmarshalGroupMembership (d : identifiableMapGetterSetter) :
    Except Fault GroupMembership := do
  let mut membership : GroupMembership := GroupMembership.zero
  if d.Id ≠ "" then
    match atoi64 d.Id with
    | Except.error err =>
      throw (Fault.error (String.mk ("could not parse group membership id ".data ++ d.Id.data
        ++ ": ".data ++ err.message.data)))
    | Except.ok id => membership := { membership with ID := id }
  if (d.GetOk "url").2 then
    membership := { membership with URL := ← assertString (d.GetOk "url").1 }
  if (d.GetOk "user_id").2 then
    membership := { membership with UserID := intOfInt64 (← assertInt (d.GetOk "user_id").1) }
  if (d.GetOk "group_id").2 then
    membership := { membership with GroupID := intOfInt64 (← assertInt (d.GetOk "group_id").1) }
  if (d.GetOk "default").2 then
    membership := { membership with Default := ← assertBool (d.GetOk "default").1 }
  return membership

def createGroupMembership (codec : MembershipCodec) (d : identifiableMapGetterSetter)
    (zd : Client) : Outcome :=
  match unmarshalGroupMembership d with
  | Except.error err => failed err d zd
  | Except.ok membership =>
    let created := CreateGroupMembership codec zd membership
    match created.1.2 with
    | some err => { result := Except.ok (FromErr err), d := d, z := created.2 }
    | none =>
      let d1 := d.SetId (String.mk (formatInt created.1.1.ID))
      match marshalGroupMembership created.1.1 d1 with
      | Except.error err => failed err d1 created.2
      | Except.ok d2 => { result := Except.ok [], d := d2, z := created.2 }

def readGroupMembership (codec : MembershipCodec) (d : identifiableMapGetterSetter)
    (zd : Client) : Outcome :=
  match atoi64 d.Id with
  | Except.error err => failed err d zd
  | Except.ok id =>
    let got := GetGroupMembership codec zd id
    match got.1.2 with
    | some err => { result := Except.ok (FromErr err), d := d, z := got.2 }
    | none =>
      match marshalGroupMembership got.1.1 d with
      | Except.error err => failed err d got.2
      | Except.ok d2 => { result := Except.ok [], d := d2, z := got.2 }

def deleteGroupMembership (d : identifiableMapGetterSetter) (zd : Client) : Outcome :=
  match atoi64 d.Id with
  | Except.error err => failed err d zd
  | Except.ok id =>
    let deleted := DeleteGroupMembership zd id
    match deleted.1 with
    | some err => { result := Except.ok (FromErr err), d := d, z := deleted.2 }
    | none => { result := Except.ok [], d := d, z := deleted.2 }

def resourceZendeskGroupMemberships (codec : MembershipCodec) : Resource :=
  { CreateContext := fun d zd => createGroupMembership codec d zd
    ReadContext := fun d zd => readGroupMembership codec d zd
    UpdateContext := fun d meta => readGroupMembership codec d meta
    DeleteContext := fun d zd => deleteGroupMembership d zd }

def marshalOrganizationMembership (membership : OrganizationMembership)
    (d : identifiableMapGetterSetter) : Except Fault identifiableMapGetterSetter :=
  let fields : mapGetterSetter :=
    [ ("url", Attr.string membership.URL),
      ("user_id", Attr.int (intOfInt64 membership.UserID)),
      ("organization_id", Attr.int (intOfInt64 membership.OrganizationID)),
      ("default", Attr.bool membership.Default),
      ("created_at", Attr.string membership.CreatedAt),
      ("updated_at", Attr.string membership.UpdatedAt) ]
  setSchemaFields d fields

def unmarshalOrganizationMembership (d : identifiableMapGetterSetter) :
    Except Fault OrganizationMembership := do
  let mut membership : OrganizationMembership := OrganizationMembership.zero
  if d.Id ≠ "" then
    match atoi64 d.Id with
    | Except.error err =>
      throw (Fault.error (String.mk ("could not parse organization membership id ".data
        ++ d.Id.data ++ ": ".data ++ err.message.data)))
    | Except.ok id => membership := { membership with ID := id }
  if (d.GetOk "url").2 then
    membership := { membership with URL := ← assertString (d.GetOk "url").1 }
  if (d.GetOk "user_id").2 then
    membership := { membership with UserID := intOfInt64 (← assertInt (d.GetOk "user_id").1) }
  if (d.GetOk "organization_id").2 then
    membership :=
      { membership with
        OrganizationID := intOfInt64 (← assertInt (d.GetOk "organization_id").1) }
  if (d.GetOk "default").2 then
    membership := { membership with Default := ← assertBool (d.GetOk "default").1 }
  return membership

def createOrganizationMembership (codec : MembershipCodec) (d : identifiableMapGetterSetter)
    (zd : Client) : Outcome :=
  match unmarshalOrganizationMembership d with
  | Except.error err => failed err d zd
  | Except.ok membership =>
    let created := CreateOrganizationMembership codec zd membership
    match created.1.2 with
    | some err => { result := Except.ok (FromErr err), d := d, z := created.2 }
    | none =>
      let d1 := d.SetId (String.mk (formatInt created.1.1.ID))
      match marshalOrganizationMembership created.1.1 d1 with
      | Except.error err => failed err d1 created.2
      | Except.ok d2 => { result := Except.ok [], d := d2, z := created.2 }

def readOrganizationMembership (codec : MembershipCodec) (d : identifiableMapGetterSetter)
    (zd : Client) : Outcome :=
  match atoi64 d.Id with
  | Except.error err => failed err d zd
  | Except.ok id =>
    let got := GetOrganizationMembership codec zd id
    match got.1.2 with
    | some err => { result := Except.ok (FromErr err), d := d, z := got.2 }
    | none =>
      match marshalOrganizationMembership got.1.1 d with
      | Except.error err => failed err d got.2
      | Except.ok d2 => { result := Except.ok [], d := d2, z := got.2 }

def deleteOrganizationMembership (d : identifiableMapGetterSetter) (zd : Client) : Outcome :=
  match atoi64 d.Id with
  | Except.error err => failed err d zd
  | Except.ok id =>
    let deleted := DeleteOrganizationMembership zd id
    match deleted.1 with
    | some err => { result := Except.ok (FromErr err), d := d, z := deleted.2 }
    | none => { result := Except.ok [], d := d, z := deleted.2 }

def resourceZendeskOrganizationMemberships (codec : MembershipCodec) : Resource :=
  { CreateContext := fun d zd => createOrganizationMembership codec d zd
    ReadContext := fun d zd => readOrganizationMembership codec d zd
    UpdateContext := fun d meta => readOrganizationMembership codec d meta
    DeleteContext := fun d zd => deleteOrganizationMembership d zd }

/-! ## resource_zendesk_users.go, resource_zendesk_tickets.go: unmarshalUser,
unmarshalTicket -/

/-- The loop `for i, tag := range tagsSet.List() { tags[i] = tag.(string) }`
into the slice made with the length of the set: the strings, in the order of
the list. -/
def assignTags : List String → List Attr → Except Fault (List String)
  | tags, [] => Except.ok tags
  | tags, tag :: rest =>
    match assertString tag with
    | Except.error err => Except.error err
    | Except.ok s => assignTags (tags ++ [s]) rest

def unmarshalUser (d : identifiableMapGetterSetter) : Except Fault User := do
  let mut user : User := User.zero
  if d.Id ≠ "" then
    match atoi64 d.Id with
    | Except.error err =>
      throw (Fault.error (String.mk ("could not parse user id ".data ++ d.Id.data ++ ": ".data
        ++ err.message.data)))
    | Except.ok id => user := { user with ID := id }
  if (d.GetOk "name").2 then
    user := { user with Name := ← assertString (d.GetOk "name").1 }
  if (d.GetOk "email").2 then
    user := { user with Email := ← assertString (d.GetOk "email").1 }
  if (d.GetOk "role").2 then
    user := { user with Role := ← assertString (d.GetOk "role").1 }
  if (d.GetOk "active").2 then
    user := { user with Active := ← assertBool (d.GetOk "active").1 }
  if (d.GetOk "phone").2 then
    user := { user with Phone := ← assertString (d.GetOk "phone").1 }
  if (d.GetOk "organization_id").2 then
    user := { user with
      OrganizationID := intOfInt64 (← assertInt (d.GetOk "organization_id").1) }
  if (d.GetOk "tags").2 then
    let tagsSet ← assertSetList (d.GetOk "tags").1
    let tags ← assignTags [] tagsSet
    user := { user with Tags := some tags }
  return user

def unmarshalTicket (d : identifiableMapGetterSetter) : Except Fault Ticket := do
  let mut ticket : Ticket := Ticket.zero
  if d.Id ≠ "" then
    match atoi64 d.Id with
    | Except.error err =>
      throw (Fault.error (String.mk ("could not parse ticket id ".data ++ d.Id.data ++ ": ".data
        ++ err.message.data)))
    | Except.ok id => ticket := { ticket with ID := id }
  if (d.GetOk "subject").2 then
    ticket := { ticket with Subject := ← assertString (d.GetOk "subject").1 }
  if (d.GetOk "description").2 then
    ticket := { ticket with Description := ← assertString (d.GetOk "description").1 }
  if (d.GetOk "type").2 then
    ticket := { ticket with Type_ := ← assertString (d.GetOk "type").1 }
  if (d.GetOk "priority").2 then
    ticket := { ticket with Priority := ← assertString (d.GetOk "priority").1 }
  if (d.GetOk "status").2 then
    ticket := { ticket with Status := ← assertString (d.GetOk "status").1 }
  if (d.GetOk "requester_id").2 then
    ticket := { ticket with
      RequesterID := intOfInt64 (← assertInt (d.GetOk "requester_id").1) }
  if (d.GetOk "assignee_id").2 then
    ticket := { ticket with
      AssigneeID := intOfInt64 (← assertInt (d.GetOk "assignee_id").1) }
  if (d.GetOk "organization_id").2 then
    ticket := { ticket with
      OrganizationID := intOfInt64 (← assertInt (d.GetOk "organization_id").1) }
  if (d.GetOk "group_id").2 then
    ticket := { ticket with GroupID := intOfInt64 (← assertInt (d.GetOk "group_id").1) }
  if (d.GetOk "tags").2 then
    let tagsSet ← assertSetList (d.GetOk "tags").1
    let tags ← assignTags [] tagsSet
    ticket := { ticket with Tags := some tags }
  return ticket

/-! ## util.go: isValidFile -/

/-- A step of a `cty.Path`: an attribute name, or an index. -/
inductive PathStep where
  | GetAttrStep (Name : String)
  | IndexStep (Key : Attr)

/-- `pathString`: the name of the last step when it is an attribute step,
"value" otherwise. -/
def pathString (path : List PathStep) : String :=
  if path.length = 0 then "value"
  else
    match path.getLast? with
    | some (PathStep.GetAttrStep name) => name
    | _ => "value"

/-- What `os.Stat` tells about a file. -/
structure FileInfo where
  IsDir : Bool
deriving DecidableEq

/-- The validator returned by `isValidFile()`.  The file system is a
parameter: `stat name` is what `os.Stat(name)` returns. -/
def isValidFile (stat : String → Except Fault FileInfo) (i : Attr) (path : List PathStep) :
    Diagnostics :=
  match i with
  | Attr.string v =>
    match stat v with
    | Except.error err =>
      [{ Severity := Severity.Error, Summary := "File not found", Detail := err.message }]
    | Except.ok f =>
      if f.IsDir then
        [{ Severity := Severity.Error, Summary := "Invalid file path",
           Detail := String.mk ((pathString path).data ++ ": ".data ++ v.data
             ++ " is a directory".data) }]
      else []
  | _ =>
    [{ Severity := Severity.Error, Summary := "Invalid value type",
       Detail := String.mk ("expected type of ".data ++ (pathString path).data
         ++ " to be string".data) }]

/-! ## resource_zendesk_view.go: unmarshalViews, createViews -/

/-- The zero value `models.View{}`; the zero `time.Time` is written
"0001-01-01T00:00:00Z". -/
def View.zero : View :=
  { ID := 0, Active := false, Description := "", Position := 0, Title := "",
    CreatedAt := { text := "0001-01-01T00:00:00Z" },
    UpdatedAt := { text := "0001-01-01T00:00:00Z" },
    Restriction := none, Conditions := { All := [], Any := [] }, URL := "",
    Execution := { Columns := [], GroupBy := "", SortBy := "", GroupOrder := "",
                   SortOrder := "" } }

/-- The type assertion `v.([]interface{})`. -/
def assertSlice : Attr → Except Fault (List Attr)
  | Attr.slice xs => Except.ok xs
  | _ => Except.error (Fault.panic "interface conversion: interface {} is not []interface {}")

/-- The loop over the columns of the state: a float64 stays a float64,
anything else is asserted to be a string. -/
def appendStateColumns : List Column → List Attr → Except Fault (List Column)
  | c, [] => Except.ok c
  | c, col :: rest =>
    match col with
    | Attr.float64 x => appendStateColumns (c ++ [{ ID := Iface.float64 x, Title := "" }]) rest
    | Attr.string s => appendStateColumns (c ++ [{ ID := Iface.string s, Title := "" }]) rest
    | _ => Except.error (Fault.panic "interface conversion: interface {} is not string")

/-- The loop over the conditions of "all" or "any": an element that is not a
map is an error, a member that is not a string a panic. -/
def appendStateConditions (which : String) : List ViewCondition → List Attr →
    Except Fault (List ViewCondition)
  | conditions, [] => Except.ok conditions
  | conditions, c :: rest =>
    match c with
    | Attr.map condition =>
      match assertString (indexAttr condition "field") with
      | Except.error err => Except.error err
      | Except.ok field =>
        match assertString (indexAttr condition "operator") with
        | Except.error err => Except.error err
        | Except.ok operator =>
          match assertString (indexAttr condition "value") with
          | Except.error err => Except.error err
          | Except.ok value =>
            appendStateConditions which
              (conditions ++ [{ Field := field, Operator := operator, Value := value }]) rest
    | _ =>
      Except.error (Fault.error (String.mk ("could not parse '".data ++ which.data
        ++ "' conditions for view".data)))

def unmarshalViews (d : identifiableMapGetterSetter) : Except Fault View := do
  let mut tf : View := View.zero
  if d.Id ≠ "" then
    match ParseInt d.Id with
    | Except.error err =>
      throw (Fault.error (String.mk ("could not parse user field id ".data ++ d.Id.data
        ++ ": ".data ++ err.message.data)))
    | Except.ok id => tf := { tf with ID := id }
  if (d.GetOk "url").2 then
    tf := { tf with URL := ← assertString (d.GetOk "url").1 }
  if (d.GetOk "group_by").2 then
    tf := { tf with Execution := { tf.Execution with
      GroupBy := ← assertString (d.GetOk "group_by").1 } }
  if (d.GetOk "sort_by").2 then
    tf := { tf with Execution := { tf.Execution with
      SortBy := ← assertString (d.GetOk "sort_by").1 } }
  if (d.GetOk "group_order").2 then
    tf := { tf with Execution := { tf.Execution with
      GroupOrder := ← assertString (d.GetOk "group_order").1 } }
  if (d.GetOk "restrictions").2 then
    let ids ← assertSetList (d.GetOk "restrictions").1
    let restrictions ← appendSetInts [] ids
    tf := { tf with Restriction := some { IDs := restrictions, Type_ := "Group" } }
  else
    tf := { tf with Restriction := none }
  if (d.GetOk "sort_order").2 then
    tf := { tf with Execution := { tf.Execution with
      SortOrder := ← assertString (d.GetOk "sort_order").1 } }
  if (d.GetOk "columns").2 then
    let columns ← assertSlice (d.GetOk "columns").1
    let c ← appendStateColumns [] columns
    tf := { tf with Execution := { tf.Execution with Columns := c } }
  if (d.GetOk "all").2 then
    let allConditions ← assertSetList (d.GetOk "all").1
    let conditions ← appendStateConditions "all" [] allConditions
    tf := { tf with Conditions := { tf.Conditions with All := conditions } }
  if (d.GetOk "any").2 then
    let anyConditions ← assertSetList (d.GetOk "any").1
    let conditions ← appendStateConditions "any" [] anyConditions
    tf := { tf with Conditions := { tf.Conditions with Any := conditions } }
  if (d.GetOk "title").2 then
    tf := { tf with Title := ← assertString (d.GetOk "title").1 }
  if (d.GetOk "description").2 then
    tf := { tf with Description := ← assertString (d.GetOk "description").1 }
  if (d.GetOk "position").2 then
    tf := { tf with Position := ← assertInt (d.GetOk "position").1 }
  if (d.GetOk "active").2 then
    tf := { tf with Active := ← assertBool (d.GetOk "active").1 }
  return tf

def createViews (codec : ViewCodec) (d : identifiableMapGetterSetter) (zd : Client) : Outcome :=
  match unmarshalViews d with
  | Except.error err => failed err d zd
  | Except.ok tf =>
    let created := CreateView codec zd tf
    match created.1 with
    | Except.error err => { result := Except.ok (FromErr err), d := d, z := created.2 }
    | Except.ok tf1 =>
      let d1 := d.SetId (String.mk (formatInt tf1.ID))
      match marshalViews tf1 d1 with
      | Except.error err => failed err d1 created.2
      | Except.ok d2 => { result := Except.ok [], d := d2, z := created.2 }

/-! ## Statements about marshalViews -/

/-- A column whose ID is a number (float64) or a string. -/
def Column.numberOrString (c : Column) : Bool :=
  match c.ID with
  | Iface.float64 _ => true
  | Iface.string _ => true
  | _ => false

/-- The state string of a column whose ID is a number or a string. -/
def Column.stateString (c : Column) : String :=
  match c.ID with
  | Iface.float64 x => String.mk (Float64.FormatFloat x)
  | Iface.string s => s
  | _ => ""

/-- The float64 `x` is the whole number `z`; negative zero is not one. -/
def Float64.IsWhole (x : Float64) (z : Int) : Prop :=
  x.scaled = z.natAbs * 2 ^ 1074 ∧ x.sign = decide (z < 0)

/-- What C5 asks of the state string `s` of the column `c`. -/
def ColumnStringOk (c : Column) (s : String) : Prop :=
  (∀ t, c.ID = Iface.string t → s = t)
  ∧ (∀ x z, c.ID = Iface.float64 x → x.IsWhole z → s = String.mk (formatInt z))

/-- The same, for whole numbers of magnitude below 2^53 only. -/
def ColumnStringOkBelow (c : Column) (s : String) : Prop :=
  (∀ t, c.ID = Iface.string t → s = t)
  ∧ (∀ x z, c.ID = Iface.float64 x → x.IsWhole z → z.natAbs < 2 ^ 53 →
      s = String.mk (formatInt z))

/-! ## Statements about the macro resource -/

/-- The state map of one action: its field, and its value as a string. -/
def actionAttr (field value : String) : Attr :=
  Attr.map [("field", Attr.string field), ("value", Attr.string value)]

/-- The state string of an action value: a string as it is, a list by its
JSON text, anything else the empty string. -/
def actionStateString (value : Iface) : String :=
  match value with
  | Iface.slice xs => String.mk (Iface.toJSON (Iface.slice xs)).render
  | Iface.string s => s
  | _ => ""

/-- A JSON number. -/
def Iface.isFloat64 : Iface → Bool
  | Iface.float64 _ => true
  | _ => false

/-- A restriction on which lines 98 to 115 do not panic: nil, or an object
whose "ids" is absent, null or an array of numbers. -/
def restrictionUnwraps (restriction : Iface) : Bool :=
  match restriction with
  | Iface.nil => true
  | Iface.map mapi =>
    match indexIface mapi "ids" with
    | Iface.nil => true
    | Iface.slice ids => ids.all Iface.isFloat64
    | _ => false
  | _ => false

/-- What C8 asks of the state map `m` of the macro action `a`. -/
def ActionStateOk (a : MacroAction) (m : List (String × Attr)) : Prop :=
  ∃ sv : String, m = [("field", Attr.string a.Field), ("value", Attr.string sv)]
    ∧ (∀ s, a.Value = Iface.string s → sv = s)
    ∧ (∀ xs, a.Value = Iface.slice xs → jsonMarshal (Iface.slice xs) = Except.ok sv.data)

/-- The integer `z` is the number `x` with its fraction discarded, and it is
within the int64 range. -/
def Float64.TruncatesTo (x : Float64) (z : Int) : Prop :=
  z.natAbs * 2 ^ 1074 ≤ x.scaled ∧ x.scaled < (z.natAbs + 1) * 2 ^ 1074
  ∧ (z < 0 → x.sign = true) ∧ (0 < z → x.sign = false)
  ∧ -(2 : Int) ^ 63 ≤ z ∧ z < (2 : Int) ^ 63

/-- The state string `marshalMacros` produces for a list of strings. -/
def listStateString (L : List String) : String :=
  String.mk (Iface.toJSON (Iface.slice (L.map Iface.string))).render

/-! ## Statements about the clients -/

/-- The request of the position update of `UpdateView id view`. -/
def positionRequest (id : Int) (view : View) : Request :=
  { method := Method.PUT, path := "/views/update_many",
    data := Payload.views [{ ID := id, Position := view.Position }] }

/-- The result of a client operation of the template, from the answer to its
HTTP call: the error of the call or of the decoding with the zero record, else
the decoded record. -/
def decoded {α : Type} (decode : String → Except Fault α) (zero : α)
    (answer : Except Fault String) : α × Option Fault :=
  match answer with
  | Except.error err => (zero, some err)
  | Except.ok body =>
    match decode body with
    | Except.error err => (zero, some err)
    | Except.ok result => (result, none)

/-- Error propagation, for the result `out` of a client operation whose HTTP call was
answered by `answer`, for a record type with the decoder `decode` and the zero
value `zero`: an error exactly when the call failed or the body does not
decode, that very error with the zero record; else the decoded record with a
nil error. -/
def Propagates {α : Type} (decode : String → Except Fault α) (zero : α)
    (answer : Except Fault String) (out : α × Option Fault) : Prop :=
  (out.2 ≠ none ↔
      ((∃ err, answer = Except.error err)
        ∨ ∃ body err, answer = Except.ok body ∧ decode body = Except.error err))
  ∧ (∀ err, answer = Except.error err → out = (zero, some err))
  ∧ (∀ body err, answer = Except.ok body → decode body = Except.error err →
      out = (zero, some err))
  ∧ (∀ body rec, answer = Except.ok body → decode body = Except.ok rec → out = (rec, none))

/-! ## Sample values -/

/-- The whole number 360012345678 as a float64 (bits 0x4254F49A1C538000). -/
def sampleFieldID : Float64 :=
  { sign := false, biased := 1061, frac := 1394842644217856,
    biased_lt := by decide, frac_lt := by decide }

/-- The whole number 2^62 as a float64. -/
def twoPow62 : Float64 :=
  { sign := false, biased := 1085, frac := 0, biased_lt := by decide, frac_lt := by decide }

/-- A view with one restriction group, a standard column and a custom-field column. -/
def sampleView : View :=
  { ID := 7, Active := true, Description := "open tickets", Position := 3, Title := "Open",
    CreatedAt := { text := "2024-01-01T00:00:00Z" }, UpdatedAt := { text := "2024-01-02T00:00:00Z" },
    Restriction := some { IDs := [11, 12], Type_ := "Group" },
    Conditions := { All := [{ Field := "status", Operator := "is", Value := "open" }], Any := [] },
    URL := "https://example.zendesk.com/api/v2/views/7.json",
    Execution := { Columns := [{ ID := Iface.string "status", Title := "Status" },
                               { ID := Iface.float64 sampleFieldID, Title := "Plan" }],
                   GroupBy := "status", SortBy := "id",
                   GroupOrder := "asc", SortOrder := "desc" } }

/-- A codec that decodes every body. -/
def sampleCodec : ViewCodec :=
  { unmarshalView := fun _ => Except.ok sampleView
    unmarshalViewPositions := fun _ => Except.ok [] }

/-- A server on which the position update fails and every other request succeeds. -/
def positionFailingClient : Client :=
  { roundTrip := fun _ r =>
      if r.path = "/views/update_many" then Except.error (Fault.error "500 Internal Server Error")
      else Except.ok "body"
    sent := [] }

/-- The sample view with a single column, whose ID is the number 2^62. -/
def bigColumnView : View :=
  { sampleView with
    Execution := { sampleView.Execution with Columns := [{ ID := Iface.float64 twoPow62, Title := "t" }] } }

/-- The sample view with a column whose ID is a JSON boolean. -/
def boolColumnView : View :=
  { sampleView with
    Execution := { sampleView.Execution with Columns := [{ ID := Iface.bool true, Title := "t" }] } }

/-- The whole number 7 as a float64. -/
def floatSeven : Float64 :=
  { sign := false, biased := 1025, frac := 3 * 2 ^ 50, biased_lt := by decide, frac_lt := by decide }

/-- A macro restricted to group 7, with a string-valued and a list-valued action. -/
def sampleMacro : Macro :=
  { ID := 21, URL := "https://example.zendesk.com/api/v2/macros/21.json", Title := "Close",
    Description := "close and tag", Position := 2, Active := true,
    Restriction := Iface.map [("type", Iface.string "Group"),
                              ("ids", Iface.slice [Iface.float64 floatSeven])],
    Actions := [{ Field := "status", Value := Iface.string "solved" },
                { Field := "current_tags", Value := Iface.slice [Iface.string "a", Iface.string "b"] }] }

/-- The sample macro without a restriction. -/
def unrestrictedMacro : Macro := { sampleMacro with Restriction := Iface.nil }

/-- The sample macro with a restriction whose "ids" is a string. -/
def badRestrictionMacro : Macro :=
  { sampleMacro with Restriction := Iface.map [("ids", Iface.string "all")] }

/-- Resource data of a macro with two string-valued actions. -/
def stringActionState : identifiableMapGetterSetter :=
  { id := "21",
    mapGetterSetter :=
      [ ("title", Attr.string "Close"), ("active", Attr.bool true),
        ("action", Attr.set [actionAttr "status" "solved", actionAttr "comment_value" "Thanks"]) ] }

/-- Resource data of a macro with an action whose string value starts with "[". -/
def bracketActionState : identifiableMapGetterSetter :=
  { id := "21",
    mapGetterSetter :=
      [ ("title", Attr.string "Close"), ("active", Attr.bool true),
        ("action", Attr.set [actionAttr "comment_value" "[urgent] call back"]) ] }

/-- Resource data of a macro with a list-valued action, as `marshalMacros` writes it. -/
def listActionState : identifiableMapGetterSetter :=
  { id := "21",
    mapGetterSetter :=
      [ ("title", Attr.string "Close"), ("active", Attr.bool true),
        ("action", Attr.set [actionAttr "current_tags" (listStateString ["a", "b<c"])]) ] }

/-- The macro the fields of the three sample states unmarshal to. -/
def sampleStateMacro : Macro :=
  { ID := 21, URL := "", Title := "Close", Description := "", Position := 0, Active := true,
    Restriction := Iface.nil, Actions := [] }

/-- A queue state as the tests build it: Id "12345", with url, name and
description. -/
def queueState : identifiableMapGetterSetter :=
  { mapGetterSetter :=
      [ ("url", Attr.string "https://example.zendesk.com/api/v2/queues/12345.json"),
        ("name", Attr.string "Support"),
        ("description", Attr.string "first line") ],
    id := "12345" }

/-- A custom status state with Id "12345" and every attribute set. -/
def statusState : identifiableMapGetterSetter :=
  { mapGetterSetter :=
      [ ("url", Attr.string "https://example.zendesk.com/api/v2/custom_statuses/12345.json"),
        ("status_category", Attr.string "open"),
        ("agent_label", Attr.string "In review"),
        ("end_user_label", Attr.string "Being looked at"),
        ("description", Attr.string "a colleague is reviewing"),
        ("default", Attr.bool false),
        ("active", Attr.bool true),
        ("end_user_hidden", Attr.bool false) ],
    id := "12345" }

/-- The queue the sample server answers with. -/
def sampleQueue : Queue :=
  { ID := 47, URL := "https://example.zendesk.com/api/v2/queues/47.json", Name := "Support",
    Description := "first line", Definition := none,
    CreatedAt := "2024-01-01T00:00:00Z", UpdatedAt := "2024-01-02T00:00:00Z" }

/-- The custom status the sample server answers with. -/
def sampleStatus : CustomStatus :=
  { ID := 48, URL := "https://example.zendesk.com/api/v2/custom_statuses/48.json",
    StatusCategory := "open", AgentLabel := "In review", EndUserLabel := "Being looked at",
    Description := "a colleague is reviewing", Default := false, Active := true,
    EndUserHidden := false,
    CreatedAt := "2024-01-01T00:00:00Z", UpdatedAt := "2024-01-02T00:00:00Z" }

def sampleQueueCodec : QueueCodec :=
  { unmarshalQueue := fun _ => Except.ok sampleQueue }

def sampleStatusCodec : CustomStatusCodec :=
  { unmarshalCustomStatus := fun _ => Except.ok sampleStatus }

def sampleMembershipCodec : MembershipCodec :=
  { unmarshalGroupMembership := fun _ => Except.ok GroupMembership.zero
    unmarshalOrganizationMembership := fun _ => Except.ok OrganizationMembership.zero }

/-- A server that answers every request with a body. -/
def acceptingClient : Client :=
  { roundTrip := fun _ _ => Except.ok "body", sent := [] }

/-- A server on which every request fails. -/
def failingClient : Client :=
  { roundTrip := fun _ _ => Except.error (Fault.error "500 Internal Server Error"), sent := [] }

/-- A new view with a title and neither "all" nor "any". -/
def noConditionsState : identifiableMapGetterSetter :=
  { mapGetterSetter := [("title", Attr.string "Open")], id := "" }

/-- A file system with the file "testdata/file.txt" and the directory
"testdata", and nothing else. -/
def sampleStat (name : String) : Except Fault FileInfo :=
  if name = "testdata/file.txt" then Except.ok { IsDir := false }
  else if name = "testdata" then Except.ok { IsDir := true }
  else Except.error (Fault.error "stat: no such file or directory")

/-! ## Statements about the resource Id -/

/-- The empty Id is skipped by the five unmarshal functions: the ID of the
record returned is 0, and the run on the same attributes under an Id `s` that
parses to `n` returns the same, error or record, with the ID `n`. -/
def EmptyIdSkipped (d : identifiableMapGetterSetter) : Prop :=
  ((∀ tf, unmarshalViews d = Except.ok tf → tf.ID = 0)
    ∧ ∀ s n, s ≠ "" → ParseInt s = Except.ok n →
        unmarshalViews (d.SetId s) = Except.map (fun tf => { tf with ID := n }) (unmarshalViews d)) ∧
  ((∀ tf, unmarshalQueue d = Except.ok tf → tf.ID = 0)
    ∧ ∀ s n, s ≠ "" → atoi64 s = Except.ok n →
        unmarshalQueue (d.SetId s) = Except.map (fun tf => { tf with ID := n }) (unmarshalQueue d)) ∧
  ((∀ tf, unmarshalCustomStatus d = Except.ok tf → tf.ID = 0)
    ∧ ∀ s n, s ≠ "" → atoi64 s = Except.ok n →
        unmarshalCustomStatus (d.SetId s) = Except.map (fun tf => { tf with ID := n }) (unmarshalCustomStatus d)) ∧
  ((∀ tf, unmarshalGroupMembership d = Except.ok tf → tf.ID = 0)
    ∧ ∀ s n, s ≠ "" → atoi64 s = Except.ok n →
        unmarshalGroupMembership (d.SetId s) = Except.map (fun tf => { tf with ID := n }) (unmarshalGroupMembership d)) ∧
  ((∀ tf, unmarshalOrganizationMembership d = Except.ok tf → tf.ID = 0)
    ∧ ∀ s n, s ≠ "" → atoi64 s = Except.ok n →
        unmarshalOrganizationMembership (d.SetId s) = Except.map (fun tf => { tf with ID := n }) (unmarshalOrganizationMembership d))

/-- The five unmarshal functions return an error, not a panic. -/
def IdRejected (d : identifiableMapGetterSetter) : Prop :=
  (∃ msg, unmarshalViews d = Except.error (Fault.error msg)) ∧
  (∃ msg, unmarshalQueue d = Except.error (Fault.error msg)) ∧
  (∃ msg, unmarshalCustomStatus d = Except.error (Fault.error msg)) ∧
  (∃ msg, unmarshalGroupMembership d = Except.error (Fault.error msg)) ∧
  (∃ msg, unmarshalOrganizationMembership d = Except.error (Fault.error msg))

/-! ## Sample states of a view -/

/-- A new view whose Id has a letter in it. -/
def badIdState : identifiableMapGetterSetter :=
  { mapGetterSetter := [("title", Attr.string "Open")], id := "12a45" }

/-- A new view whose Id is the numeral of 2^63. -/
def hugeIdState : identifiableMapGetterSetter :=
  { mapGetterSetter := [("title", Attr.string "Open")], id := "9223372036854775808" }

/-- A view with the Id "7", a title and the restriction groups 11 and 12. -/
def restrictedViewState : identifiableMapGetterSetter :=
  { mapGetterSetter :=
      [ ("title", Attr.string "Open"),
        ("restrictions", Attr.set [Attr.int 11, Attr.int 12]) ],
    id := "7" }

/-- The view that `unmarshalViews` returns on `restrictedViewState`. -/
def restrictedView : View :=
  { View.zero with
    ID := 7
    Title := "Open"
    Restriction := some { IDs := [11, 12], Type_ := "Group" } }

/-- The view that `unmarshalViews` returns on `noConditionsState`. -/
def openView : View := { View.zero with Title := "Open" }

/-- The sample view with two standard columns. -/
def stringColumnView : View :=
  { sampleView with
    Execution := { sampleView.Execution with
      Columns := [{ ID := Iface.string "status", Title := "Status" },
                  { ID := Iface.string "priority", Title := "Priority" }] } }

/-! ## Sample states of a user and of a ticket -/

/-- A user state with the Id "12345", a url and every attribute that
`unmarshalUser` reads. -/
def userState : identifiableMapGetterSetter :=
  { mapGetterSetter :=
      [ ("url", Attr.string "https://example.zendesk.com/api/v2/users/12345.json"),
        ("name", Attr.string "Ann"),
        ("email", Attr.string "ann@example.com"),
        ("role", Attr.string "agent"),
        ("active", Attr.bool true),
        ("phone", Attr.string "+1 555 0100"),
        ("organization_id", Attr.int 9),
        ("tags", Attr.set [Attr.string "vip"]) ],
    id := "12345" }

/-- A ticket state with the Id "12345", a url and every attribute that
`unmarshalTicket` reads. -/
def ticketState : identifiableMapGetterSetter :=
  { mapGetterSetter :=
      [ ("url", Attr.string "https://example.zendesk.com/api/v2/tickets/12345.json"),
        ("subject", Attr.string "Printer"),
        ("description", Attr.string "The printer is on fire"),
        ("type", Attr.string "incident"),
        ("priority", Attr.string "urgent"),
        ("status", Attr.string "open"),
        ("requester_id", Attr.int 3),
        ("assignee_id", Attr.int 4),
        ("organization_id", Attr.int 9),
        ("group_id", Attr.int 5),
        ("tags", Attr.set [Attr.string "hardware"]) ],
    id := "12345" }

/-! ## Theorems -/

/-! ### Decimal numerals -/

theorem natDigits_eq (fuel : Nat) : ∀ n acc, n < fuel →
    natDigits fuel n acc = formatNat n ++ acc := by
  induction fuel using Nat.strong_induction_on with
  | _ fuel ih =>
    intro n acc hn
    cases fuel with
    | zero => omega
    | succ f =>
      by_cases h10 : n < 10
      · simp [natDigits, formatNat, h10]
      · have hdiv : n / 10 < n := Nat.div_lt_self (by omega) (by decide)
        have e1 : natDigits (f + 1) n acc = natDigits f (n / 10) (digitChar (n % 10) :: acc) := by
          simp [natDigits, h10]
        have e2 : formatNat n = natDigits n (n / 10) [digitChar (n % 10)] := by
          simp [formatNat, natDigits, h10]
        rw [e1, e2]
        by_cases hf : n = f
        · subst hf
          rw [ih n (by omega) _ _ hdiv, ih n (by omega) _ _ hdiv]
          simp
        · rw [ih f (by omega) _ _ (by omega), ih n (by omega) _ _ hdiv]
          simp

theorem formatNat_small (n : Nat) (h : n < 10) : formatNat n = [digitChar n] := by
  simp [formatNat, natDigits, h]

theorem formatNat_step (n : Nat) (h : 10 ≤ n) :
    formatNat n = formatNat (n / 10) ++ [digitChar (n % 10)] := by
  have hdiv : n / 10 < n := Nat.div_lt_self (by omega) (by decide)
  have e2 : formatNat n = natDigits n (n / 10) [digitChar (n % 10)] := by
    simp [formatNat, natDigits, show ¬ n < 10 by omega]
  rw [e2, natDigits_eq n _ _ hdiv]

theorem formatNat_mul_ten (m : Nat) (h : 0 < m) : formatNat (m * 10) = formatNat m ++ ['0'] := by
  rw [formatNat_step (m * 10) (by omega)]
  have h1 : m * 10 / 10 = m := by omega
  have h2 : m * 10 % 10 = 0 := by omega
  rw [h1, h2]
  rfl

theorem formatNat_mul_pow (m k : Nat) (h : 0 < m) :
    formatNat (m * 10 ^ k) = formatNat m ++ List.replicate k '0' := by
  induction k with
  | zero => simp
  | succ k ih =>
    have e : m * 10 ^ (k + 1) = (m * 10 ^ k) * 10 := by ring
    rw [e, formatNat_mul_ten _ (Nat.mul_pos h (by positivity)), ih]
    simp [List.replicate_succ']

theorem formatNat_length_pos (n : Nat) : 0 < (formatNat n).length := by
  by_cases h : n < 10
  · simp [formatNat_small n h]
  · rw [formatNat_step n (by omega)]
    simp

theorem formatNat_length_le (d : Nat) : ∀ n, n < 10 ^ (d + 1) → (formatNat n).length ≤ d + 1 := by
  induction d with
  | zero =>
    intro n hn
    simp [formatNat_small n (by simpa using hn)]
  | succ d ih =>
    intro n hn
    by_cases h : n < 10
    · simp [formatNat_small n h]
    · rw [formatNat_step n (by omega)]
      have : n / 10 < 10 ^ (d + 1) := by
        rw [Nat.div_lt_iff_lt_mul (by decide)]
        calc n < 10 ^ (d + 1 + 1) := hn
          _ = 10 ^ (d + 1) * 10 := by ring
      have := ih (n / 10) this
      simp
      omega

/-! ### Binary64 whole numbers -/
theorem two_pow_add_two (a : Nat) : (2:Nat) ^ (a + 2) = 4 * 2 ^ a := by
  rw [pow_add]; ring

theorem whole_shift_le (x : Float64) (n : Nat) (hlt : n < 2 ^ 53)
    (hx : x.scaled = n * 2 ^ 1074) : x.shift ≤ 1074 := by
  by_contra hc
  have hs : 1075 ≤ x.shift := by omega
  have hb : x.biased ≠ 0 := by
    intro h0
    simp [Float64.shift, h0] at hs
  have hm : 2 ^ 52 ≤ x.mant := by
    simp [Float64.mant, hb]
  have h1 : 2 ^ 52 * 2 ^ 1075 ≤ x.mant * 2 ^ x.shift :=
    Nat.mul_le_mul hm (Nat.pow_le_pow_right (by decide) hs)
  have h2 : x.mant * 2 ^ x.shift < 2 ^ 53 * 2 ^ 1074 := by
    have : x.mant * 2 ^ x.shift = n * 2 ^ 1074 := hx
    rw [this]
    exact Nat.mul_lt_mul_of_pos_right hlt (by positivity)
  have h3 : (2:Nat) ^ 52 * 2 ^ 1075 = 2 ^ 53 * 2 ^ 1074 := by
    rw [← pow_add, ← pow_add]
  omega

theorem halfUp_pos (x : Float64) : 0 < x.halfUp := by
  unfold Float64.halfUp; positivity

theorem halfDown_pos (x : Float64) : 0 < x.halfDown := by
  unfold Float64.halfDown; split <;> positivity

theorem halfUp_le (x : Float64) (h : x.shift ≤ 1074) : 2 * x.halfUp ≤ 2 ^ 1076 := by
  unfold Float64.halfUp
  have h1 : 2 ^ x.shift ≤ 2 ^ 1074 := Nat.pow_le_pow_right (by decide) h
  have h2 : (2:Nat) ^ 1076 = 4 * 2 ^ 1074 := two_pow_add_two 1074
  omega

theorem halfDown_le (x : Float64) (h : x.shift ≤ 1074) : 2 * x.halfDown ≤ 2 ^ 1076 := by
  unfold Float64.halfDown
  have h1 : 2 ^ x.shift ≤ 2 ^ 1074 := Nat.pow_le_pow_right (by decide) h
  have h2 : (2:Nat) ^ 1076 = 4 * 2 ^ 1074 := two_pow_add_two 1074
  split <;> omega

/-- For a whole number `n` below 2^53, the multiple `c * 10^k` of a power of ten
reads back as the float exactly when it is `n`. -/
theorem readsBack_whole (x : Float64) (n : Nat) (hpos : 0 < n) (hlt : n < 2 ^ 53)
    (hx : x.scaled = n * 2 ^ 1074) (c k : Nat) :
    x.readsBack c (k : Int) = decide (c * 10 ^ k = n) := by
  have hs := whole_shift_le x n hlt hx
  have hu := halfUp_le x hs
  have hd := halfDown_le x hs
  have hup := halfUp_pos x
  have hdp := halfDown_pos x
  have h2 : (2:Nat) ^ 1076 = 4 * 2 ^ 1074 := two_pow_add_two 1074
  have hP : 0 < (2:Nat) ^ 1074 := by positivity
  unfold Float64.readsBack
  simp only [Int.toNat_ofNat, Int.toNat_neg_nat, pow_zero, mul_one, hx, h2]
  generalize (2:Nat) ^ 1074 = P at *
  generalize x.halfUp = U at *
  generalize x.halfDown = D at *
  generalize c * 10 ^ k = w
  by_cases hw : w = n
  · subst hw
    have e : 4 * (w * P) = w * (4 * P) := by ring
    have e1 : P ≤ w * P := Nat.le_mul_of_pos_left _ hpos
    simp only [decide_True, e]
    split <;> simp <;> omega
  · simp only [hw, decide_False]
    have e : 4 * (n * P) = n * (4 * P) := by ring
    rw [e]
    rcases Nat.lt_or_gt_of_ne hw with hlt2 | hgt
    · have : (w + 1) * (4 * P) ≤ n * (4 * P) := Nat.mul_le_mul_right _ hlt2
      have e3 : (w + 1) * (4 * P) = w * (4 * P) + 4 * P := by ring
      split <;> simp <;> omega
    · have : (n + 1) * (4 * P) ≤ w * (4 * P) := Nat.mul_le_mul_right _ hgt
      have e3 : (n + 1) * (4 * P) = n * (4 * P) + 4 * P := by ring
      split <;> simp <;> omega

theorem floorScale_whole (x : Float64) (n : Nat) (hx : x.scaled = n * 2 ^ 1074) (k : Nat) :
    x.floorScale (k : Int) = n / 10 ^ k := by
  unfold Float64.floorScale
  simp only [Int.toNat_ofNat, Int.toNat_neg_nat, pow_zero, mul_one, hx]
  rw [Nat.mul_comm n, Nat.mul_div_mul_left _ _ (by positivity)]



theorem succ_div_mul_ne (n p : Nat) (hp : 0 < p) : (n / p + 1) * p ≠ n := by
  have h1 := Nat.div_add_mod n p
  have h2 := Nat.mod_lt n hp
  have h3 : (n / p + 1) * p = p * (n / p) + p := by ring
  omega

theorem div_mul_eq_iff_dvd (n p : Nat) : n / p * p = n ↔ p ∣ n := by
  constructor
  · intro h
    exact ⟨n / p, by rw [Nat.mul_comm]; exact h.symm⟩
  · intro h
    exact Nat.div_mul_cancel h

/-- On a whole number `n` below 2^53 the search for the shortest decimal stops
at a scale `j` with 10^j dividing `n`, with the digits `n / 10^j`. -/
theorem shortestFrom_whole (x : Float64) (n : Nat) (hpos : 0 < n) (hlt : n < 2 ^ 53)
    (hx : x.scaled = n * 2 ^ 1074) :
    ∀ (k fuel : Nat), k < fuel →
      ∃ j : Nat, 10 ^ j ∣ n ∧ x.shortestFrom fuel (k : Int) = (n / 10 ^ j, (j : Int)) := by
  intro k
  induction k with
  | zero =>
    intro fuel hf
    obtain ⟨f, rfl⟩ : ∃ f, fuel = f + 1 := ⟨fuel - 1, by omega⟩
    refine ⟨0, by simp, ?_⟩
    have hfl := floorScale_whole x n hx 0
    have r1 := readsBack_whole x n hpos hlt hx n 0
    have r2 := readsBack_whole x n hpos hlt hx (n + 1) 0
    simp only [pow_zero, mul_one, Nat.div_one, decide_True] at hfl r1 r2
    have r2f : x.readsBack (n + 1) ((0 : Nat) : Int) = false := by
      rw [r2]; simp
    simp only [Float64.shortestFrom, hfl, r1, r2f, pow_zero, Nat.div_one]
  | succ k ih =>
    intro fuel hf
    obtain ⟨f, rfl⟩ : ∃ f, fuel = f + 1 := ⟨fuel - 1, by omega⟩
    have hfl := floorScale_whole x n hx (k + 1)
    have r1 := readsBack_whole x n hpos hlt hx (n / 10 ^ (k + 1)) (k + 1)
    have r2 := readsBack_whole x n hpos hlt hx (n / 10 ^ (k + 1) + 1) (k + 1)
    have r2f : x.readsBack (n / 10 ^ (k + 1) + 1) ((k + 1 : Nat) : Int) = false := by
      rw [r2]
      simp [succ_div_mul_ne n (10 ^ (k + 1)) (by positivity)]
    by_cases hd : 10 ^ (k + 1) ∣ n
    · refine ⟨k + 1, hd, ?_⟩
      have r1t : x.readsBack (n / 10 ^ (k + 1)) ((k + 1 : Nat) : Int) = true := by
        rw [r1]
        simp [(div_mul_eq_iff_dvd n (10 ^ (k + 1))).2 hd]
      simp only [Float64.shortestFrom, hfl, r1t, r2f]
    · have r1f : x.readsBack (n / 10 ^ (k + 1)) ((k + 1 : Nat) : Int) = false := by
        rw [r1]
        simp [div_mul_eq_iff_dvd, hd]
      obtain ⟨j, hj, he⟩ := ih f (by omega)
      refine ⟨j, hj, ?_⟩
      have hk : (((k + 1 : Nat) : Int) - 1) = (k : Int) := by push_cast; ring
      simp only [Float64.shortestFrom, hfl, r1f, r2f, hk, he]

/-- Stripping trailing zeros keeps the value of `c * 10^k`. -/
theorem stripZeros_value (fuel : Nat) : ∀ (c k : Nat), 0 < c →
    ∃ c2 k2 : Nat, 0 < c2 ∧ Float64.stripZeros fuel c (k : Int) = (c2, (k2 : Int))
      ∧ c2 * 10 ^ k2 = c * 10 ^ k := by
  induction fuel with
  | zero =>
    intro c k hc
    exact ⟨c, k, hc, by simp [Float64.stripZeros], rfl⟩
  | succ f ih =>
    intro c k hc
    by_cases h : c % 10 = 0
    · have hc2 : 0 < c / 10 := by omega
      obtain ⟨c2, k2, h1, h2, h3⟩ := ih (c / 10) (k + 1) hc2
      refine ⟨c2, k2, h1, ?_, ?_⟩
      · have hne : c ≠ 0 := by omega
        simp only [Float64.stripZeros, hne, h, ne_eq, not_false_eq_true, and_self, if_true]
        exact_mod_cast h2
      · rw [h3, pow_succ]
        have : c / 10 * 10 = c := by omega
        calc c / 10 * (10 ^ k * 10) = (c / 10 * 10) * 10 ^ k := by ring
          _ = c * 10 ^ k := by rw [this]
    · exact ⟨c, k, hc, by simp [Float64.stripZeros, h], rfl⟩

/-- `FormatFloat` on a float that is a nonzero whole number of magnitude `n`
below 2^53: the plain decimal numeral of `n`, with a minus sign when negative. -/
theorem FormatFloat_whole (x : Float64) (n : Nat) (hpos : 0 < n) (hlt : n < 2 ^ 53)
    (hx : x.scaled = n * 2 ^ 1074) :
    x.FormatFloat = if x.sign then '-' :: formatNat n else formatNat n := by
  have hP : 0 < (2:Nat) ^ 1074 := by positivity
  have hne : x.scaled ≠ 0 := by
    rw [hx]; exact Nat.mul_ne_zero (by omega) (by omega)
  have hq : x.scaled / 2 ^ 1074 = n := by
    rw [hx]; exact Nat.mul_div_cancel _ hP
  have hlen := formatNat_length_pos n
  have hlen2 : (formatNat n).length ≤ 16 :=
    formatNat_length_le 15 n (lt_trans hlt (by norm_num))
  have hlead : x.leadingScale = (((formatNat n).length - 1 : Nat) : Int) := by
    unfold Float64.leadingScale
    simp only [hq]
    rw [if_neg (by omega)]
    omega
  obtain ⟨j, hj, hs⟩ := shortestFrom_whole x n hpos hlt hx ((formatNat n).length - 1) 17 (by omega)
  have hcj : 0 < n / 10 ^ j := Nat.div_pos (Nat.le_of_dvd hpos hj) (by positivity)
  obtain ⟨c2, k2, hc2, hst, hval⟩ := stripZeros_value 17 (n / 10 ^ j) j hcj
  have hval2 : c2 * 10 ^ k2 = n := by rw [hval]; exact Nat.div_mul_cancel hj
  have hbody : Float64.fmtF c2 (k2 : Int) = formatNat n := by
    unfold Float64.fmtF
    simp only [Int.natCast_nonneg, if_true, Int.toNat_ofNat]
    rw [if_neg (by omega), ← formatNat_mul_pow c2 k2 hc2, hval2]
  unfold Float64.FormatFloat Float64.shortest
  simp only [hne, if_false, hlead, hs, hst, hbody]


theorem appendColumnIDs_eq (acc : List Iface) (cols : List Column) :
    appendColumnIDs acc cols = acc ++ cols.map Column.ID := by
  induction cols generalizing acc with
  | nil => simp [appendColumnIDs]
  | cons c rest ih => simp [appendColumnIDs, ih]

theorem UpdateViewPosition_client (codec : ViewCodec) (z : Client) (id : Int) (p : ViewPosition) :
    (UpdateViewPosition codec z id p).2
      = (z.Put "/views/update_many" (Payload.views [p])).2 := by
  unfold UpdateViewPosition
  simp only [List.nil_append]
  split
  · rfl
  · split <;> rfl

/-- C1: for every server behaviour, id and view, `UpdateView` sends exactly two
requests after those already sent: first PUT /views/update_many with the single
entry (id, view.Position), then PUT /views/<id>.json with the mapped view; this
holds whatever the first request returned. -/
theorem UpdateView_two_phase (codec : ViewCodec) (z : Client) (id : Int) (view : View) :
    (UpdateView codec z id view).2.sent = z.sent ++ updateViewRequests id view := by
  have h1 := UpdateViewPosition_client codec z id { ID := id, Position := view.Position }
  unfold UpdateView
  simp only [h1]
  split
  · simp [Client.Put, updateViewRequests]
  · split <;> simp [Client.Put, updateViewRequests]

/-- C4: the payload's Output.Columns is the list of the IDs of the view's
columns, same length, same order, each ID the very value the column held. -/
theorem mapView_columns (v : View) :
    (mapViewToViewCreateOrUpdate v).Output.Columns = v.Execution.Columns.map Column.ID
    ∧ (mapViewToViewCreateOrUpdate v).Output.Columns.length = v.Execution.Columns.length := by
  simp [mapViewToViewCreateOrUpdate, appendColumnIDs_eq]

/-- C2, the code at the failing input: the position update returns an error
(the server answers PUT /views/update_many with an error), and `UpdateView`
still returns the view with a nil error. -/
theorem UpdateView_drops_position_error :
    (UpdateViewPosition sampleCodec positionFailingClient 7 { ID := 7, Position := 3 }).1
        = Except.error (Fault.error "500 Internal Server Error")
    ∧ (UpdateView sampleCodec positionFailingClient 7 sampleView).1 = Except.ok sampleView := by
  constructor <;> rfl

theorem output_member (v : ViewCreateOrUpdate) :
    v.toJSON.member "output" = some v.Output.toJSON
    ∧ v.toJSON.member "execution" = none := by
  constructor
  · unfold ViewCreateOrUpdate.toJSON JSON.member omitEmptyString
    split_ifs <;> simp [lookupMember]
  · unfold ViewCreateOrUpdate.toJSON JSON.member omitEmptyString
    split_ifs <;> simp [lookupMember]

theorem Output_members (o : Output) :
    o.toJSON.member "columns" = some (sliceJSON (Iface.toJSONs o.Columns))
    ∧ o.toJSON.member "group_by" = (if o.GroupBy = "" then none else some (JSON.string o.GroupBy))
    ∧ o.toJSON.member "sort_by" = (if o.SortBy = "" then none else some (JSON.string o.SortBy))
    ∧ o.toJSON.member "group_order"
        = (if o.GroupOrder = "" then none else some (JSON.string o.GroupOrder))
    ∧ o.toJSON.member "sort_order"
        = (if o.SortOrder = "" then none else some (JSON.string o.SortOrder)) := by
  unfold Output.toJSON JSON.member omitEmptyString
  refine ⟨?_, ?_, ?_, ?_, ?_⟩
  · simp [lookupMember]
  · by_cases h1 : o.GroupBy = "" <;> by_cases h2 : o.SortBy = "" <;>
      by_cases h3 : o.GroupOrder = "" <;> by_cases h4 : o.SortOrder = "" <;>
      simp [lookupMember, h1, h2, h3, h4]
  · by_cases h1 : o.GroupBy = "" <;> by_cases h2 : o.SortBy = "" <;>
      by_cases h3 : o.GroupOrder = "" <;> by_cases h4 : o.SortOrder = "" <;>
      simp [lookupMember, h1, h2, h3, h4]
  · by_cases h1 : o.GroupBy = "" <;> by_cases h2 : o.SortBy = "" <;>
      by_cases h3 : o.GroupOrder = "" <;> by_cases h4 : o.SortOrder = "" <;>
      simp [lookupMember, h1, h2, h3, h4]
  · by_cases h1 : o.GroupBy = "" <;> by_cases h2 : o.SortBy = "" <;>
      by_cases h3 : o.GroupOrder = "" <;> by_cases h4 : o.SortOrder = "" <;>
      simp [lookupMember, h1, h2, h3, h4]

/-- C3: for every view, the payload's Output carries the GroupBy, SortBy,
GroupOrder and SortOrder of the view's Execution; the payload's JSON object
has no key "execution" and has, under the key "output", an object in which
"group_by", "sort_by", "group_order" and "sort_order" hold those four strings
of the view's Execution (each left out when empty) and "columns" holds the
column IDs. -/
theorem mapView_renames_execution (v : View) :
    (mapViewToViewCreateOrUpdate v).Output.GroupBy = v.Execution.GroupBy
    ∧ (mapViewToViewCreateOrUpdate v).Output.SortBy = v.Execution.SortBy
    ∧ (mapViewToViewCreateOrUpdate v).Output.GroupOrder = v.Execution.GroupOrder
    ∧ (mapViewToViewCreateOrUpdate v).Output.SortOrder = v.Execution.SortOrder
    ∧ (mapViewToViewCreateOrUpdate v).toJSON.member "output"
        = some (mapViewToViewCreateOrUpdate v).Output.toJSON
    ∧ (mapViewToViewCreateOrUpdate v).toJSON.member "execution" = none
    ∧ ((mapViewToViewCreateOrUpdate v).toJSON.member "output").bind
          (fun out => out.member "group_by")
        = (if v.Execution.GroupBy = "" then none else some (JSON.string v.Execution.GroupBy))
    ∧ ((mapViewToViewCreateOrUpdate v).toJSON.member "output").bind
          (fun out => out.member "sort_by")
        = (if v.Execution.SortBy = "" then none else some (JSON.string v.Execution.SortBy))
    ∧ ((mapViewToViewCreateOrUpdate v).toJSON.member "output").bind
          (fun out => out.member "group_order")
        = (if v.Execution.GroupOrder = "" then none
           else some (JSON.string v.Execution.GroupOrder))
    ∧ ((mapViewToViewCreateOrUpdate v).toJSON.member "output").bind
          (fun out => out.member "sort_order")
        = (if v.Execution.SortOrder = "" then none
           else some (JSON.string v.Execution.SortOrder))
    ∧ ((mapViewToViewCreateOrUpdate v).toJSON.member "output").bind
          (fun out => out.member "columns")
        = some (sliceJSON (Iface.toJSONs (v.Execution.Columns.map Column.ID))) := by
  have ho := output_member (mapViewToViewCreateOrUpdate v)
  have hm := Output_members (mapViewToViewCreateOrUpdate v).Output
  refine ⟨rfl, rfl, rfl, rfl, ho.1, ho.2, ?_, ?_, ?_, ?_, ?_⟩
  · rw [ho.1]
    exact hm.2.1
  · rw [ho.1]
    exact hm.2.2.1
  · rw [ho.1]
    exact hm.2.2.2.1
  · rw [ho.1]
    exact hm.2.2.2.2
  · rw [ho.1, Option.some_bind, hm.1]
    have hc : (mapViewToViewCreateOrUpdate v).Output.Columns
        = v.Execution.Columns.map Column.ID := by
      show appendColumnIDs [] v.Execution.Columns = _
      rw [appendColumnIDs_eq]
      rfl
    rw [hc]

/-- C3 on the sample view with two standard columns: the member "output" of
the payload, and on the sample view its "group_by". -/
theorem mapView_renames_execution_witness :
    (mapViewToViewCreateOrUpdate stringColumnView).toJSON.member "output"
        = some (JSON.object
            [("columns", JSON.array [JSON.string "status", JSON.string "priority"]),
             ("group_by", JSON.string "status"), ("sort_by", JSON.string "id"),
             ("group_order", JSON.string "asc"), ("sort_order", JSON.string "desc")])
    ∧ ((mapViewToViewCreateOrUpdate sampleView).toJSON.member "output").bind
          (fun out => out.member "group_by") = some (JSON.string "status") :=
  ⟨(mapView_renames_execution stringColumnView).2.2.2.2.1,
   (mapView_renames_execution sampleView).2.2.2.2.2.2.1⟩

/-! ### Resource data -/

theorem GetOk_assign_same (m : mapGetterSetter) (k : String) (v : Attr) :
    (m.assign k v).GetOk k = (v, true) := by
  induction m with
  | nil => simp [mapGetterSetter.assign, mapGetterSetter.GetOk]
  | cons e rest ih =>
    obtain ⟨k1, v1⟩ := e
    by_cases h : k1 = k
    · simp [mapGetterSetter.assign, mapGetterSetter.GetOk, h]
    · simp [mapGetterSetter.assign, mapGetterSetter.GetOk, h, ih]

theorem GetOk_assign_other (m : mapGetterSetter) (k k2 : String) (v : Attr) (hk : k ≠ k2) :
    (m.assign k v).GetOk k2 = m.GetOk k2 := by
  induction m with
  | nil => simp [mapGetterSetter.assign, mapGetterSetter.GetOk, hk]
  | cons e rest ih =>
    obtain ⟨k1, v1⟩ := e
    by_cases h : k1 = k
    · subst h
      simp [mapGetterSetter.assign, mapGetterSetter.GetOk, hk]
    · by_cases h2 : k1 = k2
      · subst h2
        simp [mapGetterSetter.assign, mapGetterSetter.GetOk, h]
      · simp [mapGetterSetter.assign, mapGetterSetter.GetOk, h, h2, ih]

/-- On this resource data `setSchemaFields` never fails: it assigns the entries
one after the other. -/
theorem setSchemaFields_eq (d : identifiableMapGetterSetter) (fields : mapGetterSetter) :
    setSchemaFields d fields
      = Except.ok ⟨fields.foldl (fun m e => mapGetterSetter.assign m e.1 e.2) d.mapGetterSetter,
          d.id⟩ := by
  induction fields generalizing d with
  | nil => rfl
  | cons e rest ih =>
    obtain ⟨k, v⟩ := e
    simp [setSchemaFields, identifiableMapGetterSetter.Set, ih]

theorem appendRestrictionIDs_eq (acc ids : List Int) :
    appendRestrictionIDs acc ids = acc ++ ids := by
  induction ids generalizing acc with
  | nil => simp [appendRestrictionIDs]
  | cons c rest ih => simp [appendRestrictionIDs, ih]

theorem appendColumnStrings_eq (acc : List String) (cols : List Column)
    (h : ∀ c ∈ cols, c.numberOrString = true) :
    appendColumnStrings acc cols = Except.ok (acc ++ cols.map Column.stateString) := by
  induction cols generalizing acc with
  | nil => simp [appendColumnStrings]
  | cons c rest ih =>
    have hc := h c (List.mem_cons_self _ _)
    have hr : ∀ c2 ∈ rest, c2.numberOrString = true :=
      fun c2 h2 => h c2 (List.mem_cons_of_mem _ h2)
    unfold appendColumnStrings
    cases hid : c.ID <;>
      simp_all [Column.numberOrString, Column.stateString]

/-- What `marshalViews` returns on a view whose column IDs are numbers or strings. -/
theorem marshalViews_eq (v : View) (d : identifiableMapGetterSetter)
    (h : ∀ c ∈ v.Execution.Columns, c.numberOrString = true) :
    ∃ d2, marshalViews v d = Except.ok d2
      ∧ d2.GetOk "restrictions"
          = (match v.Restriction with
             | none => (Attr.nil, true)
             | some r => (Attr.ints r.IDs, true))
      ∧ d2.GetOk "columns" = (Attr.strings (v.Execution.Columns.map Column.stateString), true) := by
  unfold marshalViews
  simp only [appendColumnStrings_eq [] _ h, setSchemaFields_eq, List.nil_append]
  refine ⟨_, rfl, ?_, ?_⟩
  · cases v.Restriction <;>
      simp [identifiableMapGetterSetter.GetOk, mapGetterSetter.assign, GetOk_assign_same,
        GetOk_assign_other, appendRestrictionIDs_eq]
  · cases v.Restriction <;>
      simp [identifiableMapGetterSetter.GetOk, mapGetterSetter.assign, GetOk_assign_same,
        GetOk_assign_other]

/-- C6 (as amended): for every view whose column IDs are each a number or a
string, `marshalViews` returns normally and the attribute "restrictions" is set
to nil when Restriction is nil, and otherwise to exactly the list
Restriction.IDs (same order, same length; the Type is dropped). -/
theorem marshalViews_restrictions (v : View) (d : identifiableMapGetterSetter)
    (h : ∀ c ∈ v.Execution.Columns, c.numberOrString = true) :
    ∃ d2, marshalViews v d = Except.ok d2
      ∧ d2.GetOk "restrictions"
          = (match v.Restriction with
             | none => (Attr.nil, true)
             | some r => (Attr.ints r.IDs, true)) := by
  obtain ⟨d2, h1, h2, _⟩ := marshalViews_eq v d h
  exact ⟨d2, h1, h2⟩

/-- C6 (as amended) on the sample view, whose columns are a string and a number. -/
theorem marshalViews_restrictions_witness :
    ∃ d2, marshalViews sampleView newIdentifiableGetterSetter = Except.ok d2
      ∧ d2.GetOk "restrictions" = (Attr.ints [11, 12], true) :=
  marshalViews_restrictions sampleView newIdentifiableGetterSetter
    (by intro c hc; simp [sampleView] at hc; rcases hc with rfl | rfl <;> rfl)

/-- C6 as stated fails: on a view with a restriction and a column whose ID is
a JSON boolean, `marshalViews` panics in the column loop, before any attribute
is set, so "restrictions" is not set to Restriction.IDs. -/
theorem marshalViews_restrictions_fails :
    boolColumnView.Restriction = some { IDs := [11, 12], Type_ := "Group" }
    ∧ marshalViews boolColumnView newIdentifiableGetterSetter
        = Except.error (Fault.panic "interface conversion: interface {} is not string")
    ∧ ¬ ∃ d2, marshalViews boolColumnView newIdentifiableGetterSetter = Except.ok d2 := by
  refine ⟨rfl, rfl, ?_⟩
  rintro ⟨d2, h⟩
  have h2 : marshalViews boolColumnView newIdentifiableGetterSetter
      = Except.error (Fault.panic "interface conversion: interface {} is not string") := rfl
  rw [h2] at h
  cases h

/-- `FormatFloat` on a float that is a whole number `z` of magnitude below
2^53: the plain decimal numeral of `z`. -/
theorem FormatFloat_isWhole (x : Float64) (z : Int) (h : x.IsWhole z)
    (hb : z.natAbs < 2 ^ 53) : x.FormatFloat = formatInt z := by
  obtain ⟨hs, hsign⟩ := h
  cases z with
  | ofNat n =>
    have hn : (Int.ofNat n).natAbs = n := rfl
    rw [hn] at hs hb
    have hsg : x.sign = false := by
      rw [hsign]; simp
    by_cases h0 : n = 0
    · subst h0
      have : x.scaled = 0 := by rw [hs, Nat.zero_mul]
      unfold Float64.FormatFloat
      simp only [this, hsg, if_true]
      rfl
    · rw [FormatFloat_whole x n (by omega) hb hs, hsg]
      rfl
  | negSucc m =>
    have hn : (Int.negSucc m).natAbs = m + 1 := rfl
    rw [hn] at hs hb
    have hsg : x.sign = true := by
      rw [hsign]; simp [Int.negSucc_lt_zero]
    rw [FormatFloat_whole x (m + 1) (by omega) hb hs, hsg]
    rfl

theorem stateString_ok (c : Column) : ColumnStringOkBelow c c.stateString := by
  constructor
  · intro t ht
    simp [Column.stateString, ht]
  · intro x z hx hw hb
    simp [Column.stateString, hx, FormatFloat_isWhole x z hw hb]

/-- C5 (as amended): for every view whose column IDs are each a number or a
string, `marshalViews` returns normally and sets "columns" to a list of strings
matching the view's columns one for one, in order: a string ID unchanged, and a
whole-number ID of magnitude below 2^53 as its plain decimal numeral. -/
theorem marshalViews_columns (v : View) (d : identifiableMapGetterSetter)
    (h : ∀ c ∈ v.Execution.Columns, c.numberOrString = true) :
    ∃ d2 cols, marshalViews v d = Except.ok d2
      ∧ d2.GetOk "columns" = (Attr.strings cols, true)
      ∧ List.Forall₂ ColumnStringOkBelow v.Execution.Columns cols := by
  obtain ⟨d2, h1, _, h3⟩ := marshalViews_eq v d h
  refine ⟨d2, _, h1, h3, ?_⟩
  rw [List.forall₂_map_right_iff]
  exact List.forall₂_same.2 (fun c _ => stateString_ok c)

/-- C5 (as amended) on the sample view, whose columns are a string and a number. -/
theorem marshalViews_columns_witness :
    ∃ d2 cols, marshalViews sampleView newIdentifiableGetterSetter = Except.ok d2
      ∧ d2.GetOk "columns" = (Attr.strings cols, true)
      ∧ List.Forall₂ ColumnStringOkBelow sampleView.Execution.Columns cols :=
  marshalViews_columns sampleView newIdentifiableGetterSetter
    (by intro c hc; simp [sampleView] at hc; rcases hc with rfl | rfl <;> rfl)

section
set_option exponentiation.threshold 4000
set_option maxRecDepth 100000

/-- C5 as stated fails: the column ID 2^62 is a whole number, and its state
string is "4611686018427388000", the shortest decimal that reads back as the
same float64, not the numeral "4611686018427387904" of 2^62. -/
theorem marshalViews_columns_fails :
    twoPow62.IsWhole (2 ^ 62)
    ∧ (∃ d2, marshalViews bigColumnView newIdentifiableGetterSetter = Except.ok d2
        ∧ d2.GetOk "columns" = (Attr.strings ["4611686018427388000"], true))
    ∧ String.mk (formatInt (2 ^ 62)) = "4611686018427387904"
    ∧ ¬ ColumnStringOk { ID := Iface.float64 twoPow62, Title := "t" } "4611686018427388000" := by
  have hw : twoPow62.IsWhole (2 ^ 62) := ⟨by decide, by decide⟩
  have hn : String.mk (formatInt (2 ^ 62)) = "4611686018427387904" := by decide
  refine ⟨hw, ⟨_, rfl, rfl⟩, hn, ?_⟩
  intro hok
  have := hok.2 twoPow62 (2 ^ 62) rfl hw
  rw [hn] at this
  exact absurd this (by decide)

end

/-! ### encoding/json: reading back what was written -/

theorem hexValue_hexDigit : ∀ d, d < 16 → hexValue (hexDigit d) = some d := by
  decide

theorem hex4_escape (u : Nat) (h : u < 65536) :
    hex4 (hexDigit (u / 4096 % 16)) (hexDigit (u / 256 % 16)) (hexDigit (u / 16 % 16))
      (hexDigit (u % 16)) = some u := by
  unfold hex4
  rw [hexValue_hexDigit _ (Nat.mod_lt _ (by decide)), hexValue_hexDigit _ (Nat.mod_lt _ (by decide)),
    hexValue_hexDigit _ (Nat.mod_lt _ (by decide)), hexValue_hexDigit _ (Nat.mod_lt _ (by decide))]
  simp only [Option.some.injEq]
  omega

/-- Reading one escaped `\u` code unit that is not a surrogate. -/
theorem parseString_escapeU (fuel : Nat) (u : Nat) (hu : u < 0xD800) (rest acc : List Char) :
    parseString (fuel + 1) (escapeU u ++ rest) acc = parseString fuel rest (acc ++ [Char.ofNat u]) := by
  have h4 := hex4_escape u (by omega)
  simp only [escapeU, List.cons_append, List.nil_append]
  rw [parseString]
  simp [h4]
  omega

theorem parseString_simple (fuel : Nat) (e ch : Char) (h : simpleEscape e = some ch)
    (hu : e ≠ 'u') (rest acc : List Char) :
    parseString (fuel + 1) ('\\' :: e :: rest) acc = parseString fuel rest (acc ++ [ch]) := by
  rw [parseString]
  · simp only [show ('\\' : Char) ≠ '"' by decide, if_false, if_true, h]
  · intro a b c1 d rest2 he _
    exact hu he

theorem parseString_plain (fuel : Nat) (c : Char) (h1 : c ≠ '"') (h2 : c ≠ '\\')
    (h3 : ¬ c.toNat < 32) (rest acc : List Char) :
    parseString (fuel + 1) (c :: rest) acc = parseString fuel rest (acc ++ [c]) := by
  simp only [parseString, h1, h2, h3, if_false]

/-- Reading back one written character. -/
theorem parseString_escapeChar (fuel : Nat) (c : Char) (rest acc : List Char) :
    parseString (fuel + 1) (escapeChar c ++ rest) acc = parseString fuel rest (acc ++ [c]) := by
  by_cases h1 : c = '"'
  · subst h1
    exact parseString_simple fuel '"' '"' (by decide) (by decide) rest acc
  by_cases h2 : c = '\\'
  · subst h2
    exact parseString_simple fuel '\\' '\\' (by decide) (by decide) rest acc
  by_cases h3 : c = '\n'
  · subst h3
    exact parseString_simple fuel 'n' '\n' (by decide) (by decide) rest acc
  by_cases h4 : c = '\r'
  · subst h4
    exact parseString_simple fuel 'r' '\r' (by decide) (by decide) rest acc
  by_cases h5 : c = '\t'
  · subst h5
    exact parseString_simple fuel 't' '\t' (by decide) (by decide) rest acc
  by_cases h6 : c = Char.ofNat 8
  · subst h6
    exact parseString_simple fuel 'b' (Char.ofNat 8) (by decide) (by decide) rest acc
  by_cases h7 : c = Char.ofNat 12
  · subst h7
    exact parseString_simple fuel 'f' (Char.ofNat 12) (by decide) (by decide) rest acc
  by_cases h8 : c.toNat < 32
  · have e : escapeChar c = escapeU c.toNat := by
      simp only [escapeChar, h1, h2, h3, h4, h5, h6, h7, h8, if_false, if_true]
    rw [e, parseString_escapeU fuel c.toNat (by omega), Char.ofNat_toNat]
  by_cases h9 : c = '<' ∨ c = '>' ∨ c = '&'
  · have e : escapeChar c = escapeU c.toNat := by
      simp only [escapeChar, h1, h2, h3, h4, h5, h6, h7, h8, h9, if_false, if_true]
    have hlt : c.toNat < 0xD800 := by
      rcases h9 with h | h | h <;> subst h <;> decide
    rw [e, parseString_escapeU fuel c.toNat hlt, Char.ofNat_toNat]
  by_cases h10 : c = Char.ofNat 0x2028 ∨ c = Char.ofNat 0x2029
  · have e : escapeChar c = escapeU c.toNat := by
      simp only [escapeChar, h1, h2, h3, h4, h5, h6, h7, h8, h9, h10, if_false, if_true]
    have hlt : c.toNat < 0xD800 := by
      rcases h10 with h | h <;> subst h <;> decide
    rw [e, parseString_escapeU fuel c.toNat hlt, Char.ofNat_toNat]
  have e : escapeChar c = [c] := by
    simp only [escapeChar, h1, h2, h3, h4, h5, h6, h7, h8, h9, h10, if_false]
  rw [e]
  exact parseString_plain fuel c h1 h2 h8 rest acc

/-- Reading back a written string: the characters, and the text after the
closing quote. -/
theorem parseString_escapeChars (cs : List Char) : ∀ (fuel : Nat) (rest acc : List Char),
    cs.length < fuel →
    parseString fuel (escapeChars cs ++ '"' :: rest) acc = Except.ok (acc ++ cs, rest) := by
  induction cs with
  | nil =>
    intro fuel rest acc hf
    obtain ⟨f, rfl⟩ : ∃ f, fuel = f + 1 := ⟨fuel - 1, by simp at hf; omega⟩
    simp [escapeChars, parseString]
  | cons c cs ih =>
    intro fuel rest acc hf
    obtain ⟨f, rfl⟩ : ∃ f, fuel = f + 1 := ⟨fuel - 1, by simp at hf; omega⟩
    simp only [escapeChars, List.append_assoc]
    rw [parseString_escapeChar, ih f rest _ (by simp at hf; omega)]
    simp

theorem escapeChar_length_pos (c : Char) : 0 < (escapeChar c).length := by
  have h : ∀ u, 0 < (escapeU u).length := fun u => by simp [escapeU]
  unfold escapeChar
  repeat' split
  all_goals first | exact h _ | simp

theorem escapeChars_length (cs : List Char) : cs.length ≤ (escapeChars cs).length := by
  induction cs with
  | nil => simp [escapeChars]
  | cons c cs ih =>
    have := escapeChar_length_pos c
    simp only [escapeChars, List.length_cons, List.length_append]
    omega

theorem quote_append (s : String) (rest : List Char) :
    quote s ++ rest = '"' :: (escapeChars s.data ++ '"' :: rest) := by
  simp [quote]

/-- Reading back a written string value. -/
theorem parseValue_quote (fuel depth : Nat) (s : String) (rest : List Char) :
    parseValue (fuel + 1) depth (quote s ++ rest) = Except.ok (Iface.string s, rest) := by
  rw [quote_append, parseValue]
  have hlen : s.data.length < (escapeChars s.data ++ '"' :: rest).length := by
    have := escapeChars_length s.data
    simp only [List.length_append, List.length_cons]
    omega
  rw [parseString_escapeChars s.data _ rest [] hlen]
  simp

theorem skipSpace_quote (s : String) (rest : List Char) :
    skipSpace (quote s ++ rest) = quote s ++ rest := by
  rw [quote_append]
  rfl

theorem renderElems_cons_string (s : String) (L : List String) :
    JSON.renderElems ((s :: L).map JSON.string)
      = quote s ++ (match L with
                    | [] => []
                    | t :: L2 => ',' :: JSON.renderElems ((t :: L2).map JSON.string)) := by
  cases L with
  | nil => simp [JSON.renderElems, JSON.render]
  | cons t L2 => simp [JSON.renderElems, JSON.render]

/-- Reading back the written elements of a non-empty array of strings. -/
theorem parseElems_strings (L : List String) : ∀ (s : String) (acc : List Iface)
    (fuel depth : Nat) (tail : List Char), L.length + 1 < fuel →
    parseElems fuel depth (JSON.renderElems ((s :: L).map JSON.string) ++ ']' :: tail) acc
      = Except.ok (Iface.slice (acc ++ (s :: L).map Iface.string), tail) := by
  induction L with
  | nil =>
    intro s acc fuel depth tail hf
    obtain ⟨f, rfl⟩ : ∃ f, fuel = f + 2 := ⟨fuel - 2, by simp at hf; omega⟩
    rw [renderElems_cons_string]
    simp only [List.append_nil]
    rw [parseElems, parseValue_quote]
    simp [skipSpace, isSpace]
  | cons t L2 ih =>
    intro s acc fuel depth tail hf
    obtain ⟨f, rfl⟩ : ∃ f, fuel = f + 2 := ⟨fuel - 2, by simp at hf; omega⟩
    rw [renderElems_cons_string]
    simp only [List.append_assoc, List.cons_append]
    rw [parseElems, parseValue_quote]
    have h1 : skipSpace (',' :: (JSON.renderElems ((t :: L2).map JSON.string) ++ ']' :: tail))
        = ',' :: (JSON.renderElems ((t :: L2).map JSON.string) ++ ']' :: tail) := rfl
    have h2 : skipSpace (JSON.renderElems ((t :: L2).map JSON.string) ++ ']' :: tail)
        = JSON.renderElems ((t :: L2).map JSON.string) ++ ']' :: tail := by
      rw [renderElems_cons_string, List.append_assoc, skipSpace_quote]
    simp only [h1, h2]
    rw [ih t (acc ++ [Iface.string s]) (f + 1) depth tail (by simp at hf; omega)]
    simp

theorem toJSONs_strings (L : List String) :
    Iface.toJSONs (L.map Iface.string) = L.map JSON.string := by
  induction L with
  | nil => simp [Iface.toJSONs]
  | cons s L ih => simp [Iface.toJSONs, Iface.toJSON, ih]

theorem renderElems_strings_length (L : List String) :
    L.length ≤ (JSON.renderElems (L.map JSON.string)).length := by
  induction L with
  | nil => simp
  | cons s L ih =>
    rw [renderElems_cons_string]
    cases L with
    | nil => simp [quote]
    | cons t L2 =>
      simp only [List.length_append, List.length_cons] at ih ⊢
      omega

/-- `json.Unmarshal` reads the text written for a list of strings back into
that list. -/
theorem jsonUnmarshal_strings (L : List String) :
    jsonUnmarshal (JSON.array (L.map JSON.string)).render
      = Except.ok (Iface.slice (L.map Iface.string)) := by
  cases L with
  | nil => rfl
  | cons s L2 =>
    have hlen := renderElems_strings_length (s :: L2)
    have hr : (JSON.array ((s :: L2).map JSON.string)).render
        = '[' :: (JSON.renderElems ((s :: L2).map JSON.string) ++ [']']) := by
      simp [JSON.render]
    have hsk : skipSpace (JSON.renderElems ((s :: L2).map JSON.string) ++ [']'])
        = JSON.renderElems ((s :: L2).map JSON.string) ++ [']'] := by
      rw [renderElems_cons_string, List.append_assoc, skipSpace_quote]
    have hq : ∃ Y, JSON.renderElems ((s :: L2).map JSON.string) ++ [']'] = '"' :: Y := by
      rw [renderElems_cons_string, List.append_assoc, quote_append]
      exact ⟨_, rfl⟩
    obtain ⟨Y, hY⟩ := hq
    have hp := parseElems_strings L2 s []
      (('[' :: (JSON.renderElems ((s :: L2).map JSON.string) ++ [']'])).length) 9999 []
      (by simp only [List.length_cons, List.length_append, List.length_nil] at hlen ⊢; omega)
    unfold jsonUnmarshal
    rw [hr]
    have hsk0 : skipSpace ('[' :: (JSON.renderElems ((s :: L2).map JSON.string) ++ [']']))
        = '[' :: (JSON.renderElems ((s :: L2).map JSON.string) ++ [']']) := rfl
    rw [hsk0, parseValue, hsk]
    rw [hY] at hp ⊢
    change (match parseElems ('[' :: '"' :: Y).length 9999 ('"' :: Y) [] with
      | Except.error err => Except.error err
      | Except.ok (v, rest) =>
        match skipSpace rest with
        | [] => Except.ok v
        | _ => Except.error (Fault.error "invalid character after top-level value")) = _
    rw [hp]
    simp [skipSpace]

/-! ### The macro resource -/

theorem macroActionString_eq (value : Iface) :
    macroActionString value = Except.ok (actionStateString value) := by
  cases value <;> simp [macroActionString, actionStateString, jsonMarshal]

theorem appendActionMaps_eq (acc : List (List (String × Attr))) (actions : List MacroAction) :
    appendActionMaps acc actions
      = Except.ok (acc ++ actions.map (fun a =>
          [("field", Attr.string a.Field), ("value", Attr.string (actionStateString a.Value))])) := by
  induction actions generalizing acc with
  | nil => simp [appendActionMaps]
  | cons a rest ih => simp [appendActionMaps, macroActionString_eq, ih]

theorem appendRestrictionInts_eq (acc : List Int) (xs : List Float64) :
    appendRestrictionInts acc (xs.map Iface.float64) = Except.ok (acc ++ xs.map Float64.toInt) := by
  induction xs generalizing acc with
  | nil => simp [appendRestrictionInts]
  | cons x rest ih => simp [appendRestrictionInts, ih]

theorem appendRestrictionInts_ok (ids : List Iface) (h : ids.all Iface.isFloat64 = true) :
    ∀ acc, ∃ r, appendRestrictionInts acc ids = Except.ok r := by
  induction ids with
  | nil => intro acc; exact ⟨acc, rfl⟩
  | cons c rest ih =>
    intro acc
    rw [List.all_cons, Bool.and_eq_true] at h
    obtain ⟨hc, hr⟩ := h
    cases c <;> simp [Iface.isFloat64] at hc
    simp only [appendRestrictionInts]
    exact ih hr _

theorem macroRestrictions_ok (r : Iface) (h : restrictionUnwraps r = true) :
    ∃ a, macroRestrictions r = Except.ok a := by
  cases r <;> simp [restrictionUnwraps] at h
  · exact ⟨_, rfl⟩
  · next mapi =>
    simp only [macroRestrictions]
    cases hi : indexIface mapi "ids" <;> simp [hi] at h
    · exact ⟨_, rfl⟩
    · next ids =>
      obtain ⟨r, hr⟩ := appendRestrictionInts_ok ids (List.all_eq_true.2 h) []
      simp [hr]

/-- What `marshalMacros` returns when the restriction unwraps to `a`. -/
theorem marshalMacros_eq (field : Macro) (d : identifiableMapGetterSetter) (a : Attr)
    (h : macroRestrictions field.Restriction = Except.ok a) :
    ∃ d2, marshalMacros field d = Except.ok d2
      ∧ d2.GetOk "restrictions" = (a, true)
      ∧ d2.GetOk "action" = (Attr.maps (field.Actions.map (fun a =>
          [("field", Attr.string a.Field), ("value", Attr.string (actionStateString a.Value))])),
          true) := by
  unfold marshalMacros
  simp only [h, appendActionMaps_eq, setSchemaFields_eq, List.nil_append]
  refine ⟨_, rfl, ?_, ?_⟩
  · simp [identifiableMapGetterSetter.GetOk, mapGetterSetter.assign, GetOk_assign_same,
      GetOk_assign_other]
  · simp [identifiableMapGetterSetter.GetOk, mapGetterSetter.assign, GetOk_assign_same,
      GetOk_assign_other]

/-- `int(x)` discards the fraction. -/
theorem toInt_truncates (x : Float64) (z : Int) (h : x.TruncatesTo z) : x.toInt = z := by
  obtain ⟨h1, h2, hneg, hpos, hlo, hhi⟩ := h
  have hq : x.scaled / 2 ^ 1074 = z.natAbs := Nat.div_eq_of_lt_le h1 h2
  unfold Float64.toInt
  simp only [hq]
  rcases lt_trichotomy z 0 with hz | hz | hz
  · have hs := hneg hz
    have hv : -((z.natAbs : Nat) : Int) = z := by omega
    simp only [hs, if_true, hv]
    rw [if_pos ⟨hlo, hhi⟩]
  · subst hz
    cases x.sign <;> simp
  · have hs := hpos hz
    have hv : ((z.natAbs : Nat) : Int) = z := by omega
    simp only [hs, hv, Bool.false_eq_true, if_false]
    rw [if_pos ⟨hlo, hhi⟩]

theorem map_toInt_truncates (xs : List Float64) (zs : List Int)
    (h : List.Forall₂ Float64.TruncatesTo xs zs) : xs.map Float64.toInt = zs := by
  induction h with
  | nil => rfl
  | cons hx _ ih => simp [toInt_truncates _ _ hx, ih]

/-- C7: for every macro whose Restriction is nil, or an object whose "ids" is
absent or null, `marshalMacros` returns normally with "restrictions" set to
nil; for every macro whose Restriction is an object whose "ids" is an array of
numbers, it returns normally with "restrictions" set to a list of integers of
the same length, in the same order, each the number at its place converted by
`int(...)`: the number with its fraction discarded, when that is within the
int64 range. -/
theorem marshalMacros_restrictions (field : Macro) (d : identifiableMapGetterSetter) :
    ((field.Restriction = Iface.nil
        ∨ ∃ m, field.Restriction = Iface.map m ∧ indexIface m "ids" = Iface.nil) →
      ∃ d2, marshalMacros field d = Except.ok d2 ∧ d2.GetOk "restrictions" = (Attr.nil, true))
    ∧ (∀ (m : List (String × Iface)) (xs : List Float64), field.Restriction = Iface.map m →
        indexIface m "ids" = Iface.slice (xs.map Iface.float64) →
      ∃ d2 ints, marshalMacros field d = Except.ok d2
        ∧ d2.GetOk "restrictions" = (Attr.ints ints, true)
        ∧ ints = xs.map Float64.toInt
        ∧ ints.length = xs.length
        ∧ ∀ zs, List.Forall₂ Float64.TruncatesTo xs zs → ints = zs) := by
  constructor
  · intro h
    have hr : macroRestrictions field.Restriction = Except.ok Attr.nil := by
      rcases h with h | ⟨m, h, hi⟩
      · rw [h]; rfl
      · rw [h]; simp [macroRestrictions, hi]
    obtain ⟨d2, h1, h2, _⟩ := marshalMacros_eq field d _ hr
    exact ⟨d2, h1, h2⟩
  · intro m xs h hi
    have hr : macroRestrictions field.Restriction
        = Except.ok (Attr.ints (xs.map Float64.toInt)) := by
      rw [h]; simp [macroRestrictions, hi, appendRestrictionInts_eq]
    obtain ⟨d2, h1, h2, _⟩ := marshalMacros_eq field d _ hr
    exact ⟨d2, _, h1, h2, rfl, by simp, fun zs hz => map_toInt_truncates xs zs hz⟩

section
set_option exponentiation.threshold 4000
set_option maxRecDepth 100000

/-- C7 on the sample macro without a restriction and on the one restricted to
group 7, whose "ids" is the array of the float64 7: "restrictions" is set to
nil, and to the list of the integer 7. -/
theorem marshalMacros_restrictions_witness :
    (∃ d2, marshalMacros unrestrictedMacro newIdentifiableGetterSetter = Except.ok d2
      ∧ d2.GetOk "restrictions" = (Attr.nil, true))
    ∧ (∃ d2, marshalMacros sampleMacro newIdentifiableGetterSetter = Except.ok d2
      ∧ d2.GetOk "restrictions" = (Attr.ints [7], true)) := by
  refine ⟨(marshalMacros_restrictions unrestrictedMacro newIdentifiableGetterSetter).1
    (Or.inl rfl), ?_⟩
  obtain ⟨d2, ints, h1, h2, _, _, h3⟩ :=
    (marshalMacros_restrictions sampleMacro newIdentifiableGetterSetter).2 _ [floatSeven] rfl rfl
  have h7 : ints = [7] :=
    h3 [7] (List.Forall₂.cons
      ⟨by decide, by decide, by decide, by decide, by decide, by decide⟩ List.Forall₂.nil)
  rw [h7] at h2
  exact ⟨d2, h1, h2⟩

end

theorem actionState_ok (a : MacroAction) :
    ActionStateOk a
      [("field", Attr.string a.Field), ("value", Attr.string (actionStateString a.Value))] := by
  refine ⟨_, rfl, ?_, ?_⟩
  · intro s hs
    simp [actionStateString, hs]
  · intro xs hs
    simp [actionStateString, hs, jsonMarshal]

/-- C8 (as amended): for every macro whose restriction unwraps without a
panic, `marshalMacros` returns normally and "action" holds one map per macro
action, in order, with the same field; a string value is kept unchanged and a
list value is stored as its JSON encoding. -/
theorem marshalMacros_actions (field : Macro) (d : identifiableMapGetterSetter)
    (h : restrictionUnwraps field.Restriction = true) :
    ∃ d2 maps, marshalMacros field d = Except.ok d2
      ∧ d2.GetOk "action" = (Attr.maps maps, true)
      ∧ List.Forall₂ ActionStateOk field.Actions maps := by
  obtain ⟨a, ha⟩ := macroRestrictions_ok _ h
  obtain ⟨d2, h1, _, h3⟩ := marshalMacros_eq field d a ha
  refine ⟨d2, _, h1, h3, ?_⟩
  rw [List.forall₂_map_right_iff]
  exact List.forall₂_same.2 (fun a _ => actionState_ok a)

/-- C8 (as amended) on the sample macro. -/
theorem marshalMacros_actions_witness :
    ∃ d2 maps, marshalMacros sampleMacro newIdentifiableGetterSetter = Except.ok d2
      ∧ d2.GetOk "action" = (Attr.maps maps, true)
      ∧ List.Forall₂ ActionStateOk sampleMacro.Actions maps :=
  marshalMacros_actions sampleMacro newIdentifiableGetterSetter rfl

/-- C8 as stated fails: on a macro with two actions whose restriction has a
string under "ids", `marshalMacros` panics while unwrapping the restriction,
before the actions are looked at, and no state action is kept. -/
theorem marshalMacros_actions_fails :
    badRestrictionMacro.Actions.length = 2
    ∧ marshalMacros badRestrictionMacro newIdentifiableGetterSetter
        = Except.error (Fault.panic "interface conversion: interface {} is not []interface {}")
    ∧ ¬ ∃ d2, marshalMacros badRestrictionMacro newIdentifiableGetterSetter = Except.ok d2 := by
  refine ⟨rfl, rfl, ?_⟩
  rintro ⟨d2, h⟩
  have h2 : marshalMacros badRestrictionMacro newIdentifiableGetterSetter
      = Except.error (Fault.panic "interface conversion: interface {} is not []interface {}") :=
    rfl
  rw [h2] at h
  cases h

/-- The loop over state actions whose value strings each decode. -/
theorem appendMacroActions_eq (items : List (String × String × Iface))
    (h : ∀ it ∈ items, macroActionValue (Attr.string it.2.1) = Except.ok it.2.2) :
    ∀ acc, appendMacroActions acc (items.map (fun it => actionAttr it.1 it.2.1))
      = Except.ok (acc ++ items.map (fun it => { Field := it.1, Value := it.2.2 })) := by
  induction items with
  | nil => intro acc; simp [appendMacroActions]
  | cons it rest ih =>
    intro acc
    have h1 := h it (List.mem_cons_self _ _)
    have h2 : ∀ it2 ∈ rest, macroActionValue (Attr.string it2.2.1) = Except.ok it2.2.2 :=
      fun it2 hm => h it2 (List.mem_cons_of_mem _ hm)
    have e1 : indexAttr [("field", Attr.string it.1), ("value", Attr.string it.2.1)] "value"
        = Attr.string it.2.1 := by
      simp [indexAttr]
    have e2 : indexAttr [("field", Attr.string it.1), ("value", Attr.string it.2.1)] "field"
        = Attr.string it.1 := by
      simp [indexAttr]
    simp only [List.map_cons, actionAttr, appendMacroActions, e1, e2, h1, assertString]
    have := ih h2 (acc ++ [{ Field := it.1, Value := it.2.2 }])
    simp only [actionAttr] at this
    rw [this]
    simp

/-- What `unmarshalMacros` returns when the fields before the actions
unmarshal to `tf` and every action value string decodes. -/
theorem unmarshalMacros_eq (d : identifiableMapGetterSetter) (tf : Macro)
    (items : List (String × String × Iface))
    (hf : unmarshalMacroFields d = Except.ok tf)
    (ha : d.GetOk "action" = (Attr.set (items.map (fun it => actionAttr it.1 it.2.1)), true))
    (h : ∀ it ∈ items, macroActionValue (Attr.string it.2.1) = Except.ok it.2.2) :
    unmarshalMacros d
      = Except.ok { tf with Actions := items.map (fun it => { Field := it.1, Value := it.2.2 }) } := by
  unfold unmarshalMacros
  simp only [hf, ha, assertSetList, if_true, appendMacroActions_eq items h, List.nil_append]

theorem macroActionValue_plain (s : String) (h : HasPrefix s "[" = false) :
    macroActionValue (Attr.string s) = Except.ok (Iface.string s) := by
  simp [macroActionValue, assertString, h]

theorem listStateString_data (L : List String) :
    (listStateString L).data = (JSON.array (L.map JSON.string)).render := by
  simp [listStateString, Iface.toJSON, toJSONs_strings]

theorem macroActionValue_list (L : List String) :
    macroActionValue (Attr.string (listStateString L))
      = Except.ok (Iface.slice (L.map Iface.string)) := by
  have hp : HasPrefix (listStateString L) "[" = true := by
    simp [HasPrefix, listStateString_data, JSON.render]
  simp only [macroActionValue, assertString, hp, if_true, listStateString_data,
    jsonUnmarshal_strings]

/-- When the attributes before the actions unmarshal, and
every action of the state has a string value that does not start with "[",
`unmarshalMacros` succeeds and each action of the macro has the field and,
unchanged, the string value of the state action, in order. -/
theorem unmarshalMacros_string_values (d : identifiableMapGetterSetter) (tf : Macro)
    (acts : List (String × String))
    (hf : unmarshalMacroFields d = Except.ok tf)
    (ha : d.GetOk "action" = (Attr.set (acts.map (fun a => actionAttr a.1 a.2)), true))
    (hp : ∀ a ∈ acts, HasPrefix a.2 "[" = false) :
    unmarshalMacros d
      = Except.ok { tf with
          Actions := acts.map (fun a => { Field := a.1, Value := Iface.string a.2 }) } := by
  have := unmarshalMacros_eq d tf (acts.map (fun a => (a.1, a.2, Iface.string a.2))) hf
    (by simpa [List.map_map, Function.comp] using ha)
    (by
      intro it hit
      obtain ⟨a, hm, rfl⟩ := List.mem_map.1 hit
      exact macroActionValue_plain a.2 (hp a hm))
  simpa [List.map_map, Function.comp] using this

/-- C10: the string `marshalMacros` produces for an action whose value is a
list `L` of strings is `listStateString L`; and when the fields before the
actions unmarshal and the actions of the state hold such strings,
`unmarshalMacros` succeeds and each action of the macro has the list `L` back
as its value, same elements, same order. -/
theorem unmarshalMacros_list_values (d : identifiableMapGetterSetter) (tf : Macro)
    (acts : List (String × List String))
    (hf : unmarshalMacroFields d = Except.ok tf)
    (ha : d.GetOk "action"
      = (Attr.set (acts.map (fun a => actionAttr a.1 (listStateString a.2))), true)) :
    (∀ a ∈ acts, macroActionString (Iface.slice (a.2.map Iface.string))
        = Except.ok (listStateString a.2))
    ∧ unmarshalMacros d
      = Except.ok { tf with
          Actions := acts.map (fun a =>
            { Field := a.1, Value := Iface.slice (a.2.map Iface.string) }) } := by
  constructor
  · intro a _
    rfl
  · have := unmarshalMacros_eq d tf
      (acts.map (fun a => (a.1, listStateString a.2, Iface.slice (a.2.map Iface.string)))) hf
      (by simpa [List.map_map, Function.comp] using ha)
      (by
        intro it hit
        obtain ⟨a, hm, rfl⟩ := List.mem_map.1 hit
        exact macroActionValue_list a.2)
    simpa [List.map_map, Function.comp] using this

/-- The run of `unmarshalMacros` on resource data with two string-valued actions. -/
theorem unmarshalMacros_string_values_witness :
    unmarshalMacros stringActionState
      = Except.ok { sampleStateMacro with
          Actions := [("status", "solved"), ("comment_value", "Thanks")].map
            (fun a => { Field := a.1, Value := Iface.string a.2 }) } :=
  unmarshalMacros_string_values stringActionState sampleStateMacro
    [("status", "solved"), ("comment_value", "Thanks")] rfl rfl
    (by intro a ha; simp at ha; rcases ha with rfl | rfl <;> rfl)

/-- C9, the code at the failing input: the action value "[urgent] call back"
is a single string, not the JSON text of a list, and `marshalMacros` keeps
such a string as it is in the state; on the state with that action value
`unmarshalMacros` returns an error, "error unmarshalling macro action value:
..." with the error of `json.Unmarshal`, because the value starts with "[". -/
theorem unmarshalMacros_string_values_fails :
    (∀ v, jsonUnmarshal "[urgent] call back".data ≠ Except.ok v)
    ∧ macroActionString (Iface.string "[urgent] call back") = Except.ok "[urgent] call back"
    ∧ (∃ msg, unmarshalMacros bracketActionState = Except.error (Fault.error msg)
        ∧ HasPrefix msg "error unmarshalling macro action value: " = true) := by
  have h : jsonUnmarshal "[urgent] call back".data
      = Except.error (Fault.error "invalid character looking for beginning of value") := rfl
  refine ⟨?_, rfl, ⟨_, rfl, rfl⟩⟩
  intro v hv
  rw [h] at hv
  cases hv

/-- C10 on resource data with a list-valued action. -/
theorem unmarshalMacros_list_values_witness :
    (∀ a ∈ [("current_tags", ["a", "b<c"])],
        macroActionString (Iface.slice (a.2.map Iface.string)) = Except.ok (listStateString a.2))
    ∧ unmarshalMacros listActionState
      = Except.ok { sampleStateMacro with
          Actions := [("current_tags", ["a", "b<c"])].map (fun a =>
            { Field := a.1, Value := Iface.slice (a.2.map Iface.string) }) } :=
  unmarshalMacros_list_values listActionState sampleStateMacro
    [("current_tags", ["a", "b<c"])] rfl rfl

/-! ### strconv.ParseInt reads back a decimal numeral -/

theorem digitChar_facts : ∀ d, d < 10 →
    (digitChar d).isDigit = true ∧ (digitChar d).toNat - '0'.toNat = d
      ∧ digitChar d ≠ '+' ∧ digitChar d ≠ '-' := by
  decide

/-- The number a string of decimal digits stands for, as `ParseInt` adds it up. -/
theorem formatNat_digits (n : Nat) :
    (∀ c ∈ formatNat n, ∃ d, d < 10 ∧ c = digitChar d)
    ∧ (formatNat n).foldl (fun a ch => a * 10 + (ch.toNat - '0'.toNat)) 0 = n := by
  induction n using Nat.strong_induction_on with
  | _ n ih =>
    by_cases h : n < 10
    · rw [formatNat_small n h]
      refine ⟨?_, ?_⟩
      · intro c hc
        simp at hc
        exact ⟨n, h, hc⟩
      · have := (digitChar_facts n h).2.1
        simp only [List.foldl_cons, List.foldl_nil, this]
        omega
    · rw [formatNat_step n (by omega)]
      have hlt : n / 10 < n := Nat.div_lt_self (by omega) (by decide)
      obtain ⟨h1, h2⟩ := ih (n / 10) hlt
      have hm : n % 10 < 10 := Nat.mod_lt _ (by decide)
      refine ⟨?_, ?_⟩
      · intro c hc
        rcases List.mem_append.1 hc with hc | hc
        · exact h1 c hc
        · simp at hc
          exact ⟨n % 10, hm, hc⟩
      · rw [List.foldl_append, h2]
        simp only [List.foldl_cons, List.foldl_nil, (digitChar_facts _ hm).2.1]
        omega

theorem formatNat_all_digits (n : Nat) : (formatNat n).all Char.isDigit = true := by
  rw [List.all_eq_true]
  intro c hc
  obtain ⟨d, hd, rfl⟩ := (formatNat_digits n).1 c hc
  exact (digitChar_facts d hd).1

theorem formatNat_cons (n : Nat) :
    ∃ d rest, d < 10 ∧ formatNat n = digitChar d :: rest := by
  have hpos := formatNat_length_pos n
  cases h : formatNat n with
  | nil => simp [h] at hpos
  | cons c rest =>
    obtain ⟨d, hd, rfl⟩ := (formatNat_digits n).1 c (by simp [h])
    exact ⟨d, rest, hd, rfl⟩

/-- `ParseInt` reads the decimal numeral of an int64 back as that number. -/
theorem ParseInt_formatInt (n : Int) (hlo : -(2 : Int) ^ 63 ≤ n) (hhi : n < (2 : Int) ^ 63) :
    ParseInt (String.mk (formatInt n)) = Except.ok n := by
  cases n with
  | ofNat k =>
    have hk : k < 2 ^ 63 := by
      have : ((k : Nat) : Int) < (2 : Int) ^ 63 := hhi
      exact_mod_cast this
    obtain ⟨d, rest, hd, hf⟩ := formatNat_cons k
    have hall := formatNat_all_digits k
    have hval := (formatNat_digits k).2
    have hfacts := digitChar_facts d hd
    unfold ParseInt
    simp only [formatInt, hf]
    rw [hf] at hall hval
    simp only [hfacts.2.2.1, hfacts.2.2.2, false_or, if_false, hall, hval]
    simp
    omega
  | negSucc m =>
    have hm : m + 1 ≤ 2 ^ 63 := by
      have h : -(2 : Int) ^ 63 ≤ Int.negSucc m := hlo
      rw [Int.negSucc_eq] at h
      have h2 : ((m : Int) + 1) ≤ (2 : Int) ^ 63 := by omega
      exact_mod_cast h2
    obtain ⟨d, rest, hd, hf⟩ := formatNat_cons (m + 1)
    have hall := formatNat_all_digits (m + 1)
    have hval := (formatNat_digits (m + 1)).2
    unfold ParseInt
    simp only [formatInt]
    simp only [or_true, if_true, hall, hval]
    simp [hf]
    rw [if_neg (by omega), Int.negSucc_eq]
    congr 1
    omega

theorem formatInt_ne_nil (n : Int) : String.mk (formatInt n) ≠ "" := by
  intro h
  have h2 : formatInt n = [] := by
    have := congrArg String.data h
    simpa using this
  cases n with
  | ofNat k =>
    have := formatNat_length_pos k
    simp [formatInt] at h2
    simp [h2] at this
  | negSucc m => simp [formatInt] at h2

/-! ### The CRUD template: client operations -/

theorem propagates_template {α : Type} (decode : String → Except Fault α) (zero : α)
    (answer : Except Fault String) :
    Propagates decode zero answer (decoded decode zero answer) := by
  unfold Propagates decoded
  cases answer with
  | error e => simp
  | ok body =>
    cases hd : decode body with
    | error e =>
      simp only [hd]
      refine ⟨by simp [hd], by simp, ?_, ?_⟩
      · intro b err hb h
        cases hb
        rw [hd] at h
        cases h
        rfl
      · intro b rec hb h
        cases hb
        rw [hd] at h
        cases h
    | ok rec =>
      simp only [hd]
      refine ⟨by simp [hd], by simp, ?_, ?_⟩
      · intro b err hb h
        cases hb
        rw [hd] at h
        cases h
      · intro b rec2 hb h
        cases hb
        rw [hd] at h
        cases h
        rfl

theorem GetQueue_eq (codec : QueueCodec) (z : Client) (id : Int) :
    GetQueue codec z id
      = (decoded codec.unmarshalQueue Queue.zero
          (z.Get (String.mk ("/queues/".data ++ formatInt id ++ ".json".data))).1,
         (z.Get (String.mk ("/queues/".data ++ formatInt id ++ ".json".data))).2) := by
  unfold GetQueue decoded Client.Get
  simp only
  generalize z.roundTrip z.sent _ = answer
  cases answer with
  | error e => rfl
  | ok body => cases h : codec.unmarshalQueue body <;> simp [h]

theorem CreateQueue_eq (codec : QueueCodec) (z : Client) (queue : Queue) :
    CreateQueue codec z queue
      = (decoded codec.unmarshalQueue Queue.zero
          (z.Post "/queues.json" (Payload.queue queue)).1,
         (z.Post "/queues.json" (Payload.queue queue)).2) := by
  unfold CreateQueue decoded Client.Post
  simp only
  generalize z.roundTrip z.sent _ = answer
  cases answer with
  | error e => rfl
  | ok body => cases h : codec.unmarshalQueue body <;> simp [h]

theorem UpdateQueue_eq (codec : QueueCodec) (z : Client) (id : Int) (queue : Queue) :
    UpdateQueue codec z id queue
      = (decoded codec.unmarshalQueue Queue.zero
          (z.Put (String.mk ("/queues/".data ++ formatInt id ++ ".json".data)) (Payload.queue queue)).1,
         (z.Put (String.mk ("/queues/".data ++ formatInt id ++ ".json".data)) (Payload.queue queue)).2) := by
  unfold UpdateQueue decoded Client.Put
  simp only
  generalize z.roundTrip z.sent _ = answer
  cases answer with
  | error e => rfl
  | ok body => cases h : codec.unmarshalQueue body <;> simp [h]

theorem GetCustomStatus_eq (codec : CustomStatusCodec) (z : Client) (id : Int) :
    GetCustomStatus codec z id
      = (decoded codec.unmarshalCustomStatus CustomStatus.zero
          (z.Get (String.mk ("/custom_statuses/".data ++ formatInt id ++ ".json".data))).1,
         (z.Get (String.mk ("/custom_statuses/".data ++ formatInt id ++ ".json".data))).2) := by
  unfold GetCustomStatus decoded Client.Get
  simp only
  generalize z.roundTrip z.sent _ = answer
  cases answer with
  | error e => rfl
  | ok body => cases h : codec.unmarshalCustomStatus body <;> simp [h]

theorem CreateCustomStatus_eq (codec : CustomStatusCodec) (z : Client) (status : CustomStatus) :
    CreateCustomStatus codec z status
      = (decoded codec.unmarshalCustomStatus CustomStatus.zero
          (z.Post "/custom_statuses.json" (Payload.customStatus status)).1,
         (z.Post "/custom_statuses.json" (Payload.customStatus status)).2) := by
  unfold CreateCustomStatus decoded Client.Post
  simp only
  generalize z.roundTrip z.sent _ = answer
  cases answer with
  | error e => rfl
  | ok body => cases h : codec.unmarshalCustomStatus body <;> simp [h]

theorem UpdateCustomStatus_eq (codec : CustomStatusCodec) (z : Client) (id : Int) (status : CustomStatus) :
    UpdateCustomStatus codec z id status
      = (decoded codec.unmarshalCustomStatus CustomStatus.zero
          (z.Put (String.mk ("/custom_statuses/".data ++ formatInt id ++ ".json".data))
          (Payload.customStatus status)).1,
         (z.Put (String.mk ("/custom_statuses/".data ++ formatInt id ++ ".json".data))
          (Payload.customStatus status)).2) := by
  unfold UpdateCustomStatus decoded Client.Put
  simp only
  generalize z.roundTrip z.sent _ = answer
  cases answer with
  | error e => rfl
  | ok body => cases h : codec.unmarshalCustomStatus body <;> simp [h]

theorem GetGroupMembership_eq (codec : MembershipCodec) (z : Client) (id : Int) :
    GetGroupMembership codec z id
      = (decoded codec.unmarshalGroupMembership GroupMembership.zero
          (z.Get (String.mk ("/group_memberships/".data ++ formatInt id ++ ".json".data))).1,
         (z.Get (String.mk ("/group_memberships/".data ++ formatInt id ++ ".json".data))).2) := by
  unfold GetGroupMembership decoded Client.Get
  simp only
  generalize z.roundTrip z.sent _ = answer
  cases answer with
  | error e => rfl
  | ok body => cases h : codec.unmarshalGroupMembership body <;> simp [h]

theorem CreateGroupMembership_eq (codec : MembershipCodec) (z : Client) (membership : GroupMembership) :
    CreateGroupMembership codec z membership
      = (decoded codec.unmarshalGroupMembership GroupMembership.zero
          (z.Post "/group_memberships.json" (Payload.groupMembership membership)).1,
         (z.Post "/group_memberships.json" (Payload.groupMembership membership)).2) := by
  unfold CreateGroupMembership decoded Client.Post
  simp only
  generalize z.roundTrip z.sent _ = answer
  cases answer with
  | error e => rfl
  | ok body => cases h : codec.unmarshalGroupMembership body <;> simp [h]

theorem GetOrganizationMembership_eq (codec : MembershipCodec) (z : Client) (id : Int) :
    GetOrganizationMembership codec z id
      = (decoded codec.unmarshalOrganizationMembership OrganizationMembership.zero
          (z.Get
          (String.mk ("/organization_memberships/".data ++ formatInt id ++ ".json".data))).1,
         (z.Get
          (String.mk ("/organization_memberships/".data ++ formatInt id ++ ".json".data))).2) := by
  unfold GetOrganizationMembership decoded Client.Get
  simp only
  generalize z.roundTrip z.sent _ = answer
  cases answer with
  | error e => rfl
  | ok body => cases h : codec.unmarshalOrganizationMembership body <;> simp [h]

theorem CreateOrganizationMembership_eq (codec : MembershipCodec) (z : Client) (membership : OrganizationMembership) :
    CreateOrganizationMembership codec z membership
      = (decoded codec.unmarshalOrganizationMembership OrganizationMembership.zero
          (z.Post "/organization_memberships.json"
          (Payload.organizationMembership membership)).1,
         (z.Post "/organization_memberships.json"
          (Payload.organizationMembership membership)).2) := by
  unfold CreateOrganizationMembership decoded Client.Post
  simp only
  generalize z.roundTrip z.sent _ = answer
  cases answer with
  | error e => rfl
  | ok body => cases h : codec.unmarshalOrganizationMembership body <;> simp [h]

theorem DeleteQueue_eq (z : Client) (id : Int) :
    DeleteQueue z id
      = z.Delete (String.mk ("/queues/".data ++ formatInt id ++ ".json".data)) := by
  unfold DeleteQueue Client.Delete
  simp only
  generalize z.roundTrip z.sent _ = answer
  cases answer <;> rfl

theorem DeleteGroupMembership_eq (z : Client) (id : Int) :
    DeleteGroupMembership z id
      = z.Delete (String.mk ("/group_memberships/".data ++ formatInt id ++ ".json".data)) := by
  unfold DeleteGroupMembership Client.Delete
  simp only
  generalize z.roundTrip z.sent _ = answer
  cases answer <;> rfl

theorem DeleteOrganizationMembership_eq (z : Client) (id : Int) :
    DeleteOrganizationMembership z id
      = z.Delete (String.mk ("/organization_memberships/".data ++ formatInt id ++ ".json".data)) := by
  unfold DeleteOrganizationMembership Client.Delete
  simp only
  generalize z.roundTrip z.sent _ = answer
  cases answer <;> rfl

/-! ### Memberships: update is read -/

theorem failed_d (err : Fault) (d : identifiableMapGetterSetter) (z : Client) :
    (failed err d z).d = d ∧ (failed err d z).z = z := by
  cases err <;> exact ⟨rfl, rfl⟩

theorem GetGroupMembership_client (codec : MembershipCodec) (z : Client) (id : Int) :
    (GetGroupMembership codec z id).2
      = (z.Get (String.mk ("/group_memberships/".data ++ formatInt id ++ ".json".data))).2 := by
  unfold GetGroupMembership
  simp only
  split
  · rfl
  · split <;> rfl

theorem GetOrganizationMembership_client (codec : MembershipCodec) (z : Client) (id : Int) :
    (GetOrganizationMembership codec z id).2
      = (z.Get
          (String.mk ("/organization_memberships/".data ++ formatInt id ++ ".json".data))).2 := by
  unfold GetOrganizationMembership
  simp only
  split
  · rfl
  · split <;> rfl

/-- The requests a read of a group membership adds: none when the Id does not
parse, else the one GET of the record. -/
theorem readGroupMembership_sent (codec : MembershipCodec) (d : identifiableMapGetterSetter)
    (zd : Client) :
    (readGroupMembership codec d zd).z.sent
      = zd.sent ++ (match atoi64 d.Id with
          | Except.error _ => []
          | Except.ok id =>
            [{ method := Method.GET,
               path := String.mk ("/group_memberships/".data ++ formatInt id ++ ".json".data),
               data := Payload.none }]) := by
  unfold readGroupMembership
  cases h : atoi64 d.Id with
  | error err => simp [(failed_d err d zd).2]
  | ok id =>
    have hc := GetGroupMembership_client codec zd id
    simp only
    split
    · simp [hc, Client.Get]
    · split
      · simp [(failed_d _ _ _).2, hc, Client.Get]
      · simp [hc, Client.Get]

theorem readOrganizationMembership_sent (codec : MembershipCodec)
    (d : identifiableMapGetterSetter) (zd : Client) :
    (readOrganizationMembership codec d zd).z.sent
      = zd.sent ++ (match atoi64 d.Id with
          | Except.error _ => []
          | Except.ok id =>
            [{ method := Method.GET,
               path := String.mk
                 ("/organization_memberships/".data ++ formatInt id ++ ".json".data),
               data := Payload.none }]) := by
  unfold readOrganizationMembership
  cases h : atoi64 d.Id with
  | error err => simp [(failed_d err d zd).2]
  | ok id =>
    have hc := GetOrganizationMembership_client codec zd id
    simp only
    split
    · simp [hc, Client.Get]
    · split
      · simp [(failed_d _ _ _).2, hc, Client.Get]
      · simp [hc, Client.Get]

/-- C18: for the group and the organization membership resources and every
resource data and client, the Update operation is the Read operation on the
same data (same requests, same resulting data, same diagnostics), and the
requests it adds are at most one, each a GET: no POST, PUT or DELETE; it is
exactly one GET when the Id parses. -/
theorem membership_update_is_read (codec : MembershipCodec) (d : identifiableMapGetterSetter)
    (zd : Client) :
    ((resourceZendeskGroupMemberships codec).UpdateContext d zd
        = (resourceZendeskGroupMemberships codec).ReadContext d zd
      ∧ ∃ added, ((resourceZendeskGroupMemberships codec).UpdateContext d zd).z.sent
            = zd.sent ++ added
          ∧ added.length ≤ 1 ∧ (∀ r ∈ added, r.method = Method.GET)
          ∧ ((∃ id, atoi64 d.Id = Except.ok id) → added.length = 1))
    ∧ ((resourceZendeskOrganizationMemberships codec).UpdateContext d zd
        = (resourceZendeskOrganizationMemberships codec).ReadContext d zd
      ∧ ∃ added, ((resourceZendeskOrganizationMemberships codec).UpdateContext d zd).z.sent
            = zd.sent ++ added
          ∧ added.length ≤ 1 ∧ (∀ r ∈ added, r.method = Method.GET)
          ∧ ((∃ id, atoi64 d.Id = Except.ok id) → added.length = 1)) := by
  constructor
  · refine ⟨rfl, _, readGroupMembership_sent codec d zd, ?_, ?_, ?_⟩
    · cases atoi64 d.Id <;> simp
    · cases atoi64 d.Id <;> simp
    · rintro ⟨id, h⟩
      simp [h]
  · refine ⟨rfl, _, readOrganizationMembership_sent codec d zd, ?_, ?_, ?_⟩
    · cases atoi64 d.Id <;> simp
    · cases atoi64 d.Id <;> simp
    · rintro ⟨id, h⟩
      simp [h]

/-! ### isValidFile -/

/-- C16: for every file system, value and path, the validator reports an error
exactly when the value is not a string, or `os.Stat` fails on it, or it names
a directory; on a string naming a file that is not a directory it returns no
diagnostics; and whenever it returns diagnostics, it returns exactly one, of
severity Error. -/
theorem isValidFile_spec (stat : String → Except Fault FileInfo) (i : Attr)
    (path : List PathStep) :
    ((isValidFile stat i path).HasError = true ↔
        ((∀ s, i ≠ Attr.string s)
          ∨ (∃ s err, i = Attr.string s ∧ stat s = Except.error err)
          ∨ (∃ s f, i = Attr.string s ∧ stat s = Except.ok f ∧ f.IsDir = true)))
    ∧ (∀ s f, i = Attr.string s → stat s = Except.ok f → f.IsDir = false →
        isValidFile stat i path = [])
    ∧ (isValidFile stat i path ≠ [] →
        ∃ dg, isValidFile stat i path = [dg] ∧ dg.Severity = Severity.Error) := by
  refine ⟨?_, ?_, ?_⟩
  · cases i with
    | string v =>
      cases hs : stat v with
      | error err => simp [isValidFile, hs, Diagnostics.HasError]
      | ok f =>
        cases hd : f.IsDir <;> simp [isValidFile, hs, hd, Diagnostics.HasError]
    | _ => simp [isValidFile, Diagnostics.HasError]
  · intro s f hi hs hd
    subst hi
    simp [isValidFile, hs, hd]
  · cases i with
    | string v =>
      cases hs : stat v with
      | error err => simp [isValidFile, hs]
      | ok f =>
        cases hd : f.IsDir <;> simp [isValidFile, hs, hd]
    | _ => simp [isValidFile]

theorem unmarshalQueue_eq (d : identifiableMapGetterSetter) (n : Int) (url name description : String)
    (hid : d.Id ≠ "") (hp : atoi64 d.Id = Except.ok n)
    (hurl : d.GetOk "url" = (Attr.string url, true))
    (hname : d.GetOk "name" = (Attr.string name, true))
    (hdesc : d.GetOk "description" = (Attr.string description, true)) :
    ((d.GetOk "definition").2 = false →
      unmarshalQueue d = Except.ok
        { ID := n, URL := url, Name := name, Description := description, Definition := none,
          CreatedAt := "", UpdatedAt := "" })
    ∧ (∀ m, d.GetOk "definition" = (Attr.map m, true) →
      unmarshalQueue d = Except.ok
        { ID := n, URL := url, Name := name, Description := description,
          Definition := some (copyMap [] m), CreatedAt := "", UpdatedAt := "" }) := by
  constructor
  · intro h
    simp [unmarshalQueue, hid, hp, hurl, hname, hdesc, h, assertString, bind, Except.bind, pure,
      Except.pure, Queue.zero]
  · intro m h
    simp [unmarshalQueue, hid, hp, hurl, hname, hdesc, h, assertString, assertMap, bind,
      Except.bind, pure, Except.pure, Queue.zero]

/-! ### The view client: create -/

/-- C20: for every view, the payload's ID, Active, Description, Position,
Title, CreatedAt, UpdatedAt, URL and Restriction are those of the view, and its
All and Any are the view's Conditions.All and Conditions.Any. -/
theorem mapView_other_fields (v : View) :
    (mapViewToViewCreateOrUpdate v).ID = v.ID
    ∧ (mapViewToViewCreateOrUpdate v).Active = v.Active
    ∧ (mapViewToViewCreateOrUpdate v).Description = v.Description
    ∧ (mapViewToViewCreateOrUpdate v).Position = v.Position
    ∧ (mapViewToViewCreateOrUpdate v).Title = v.Title
    ∧ (mapViewToViewCreateOrUpdate v).CreatedAt = v.CreatedAt
    ∧ (mapViewToViewCreateOrUpdate v).UpdatedAt = v.UpdatedAt
    ∧ (mapViewToViewCreateOrUpdate v).URL = v.URL
    ∧ (mapViewToViewCreateOrUpdate v).Restriction = v.Restriction
    ∧ (mapViewToViewCreateOrUpdate v).All = v.Conditions.All
    ∧ (mapViewToViewCreateOrUpdate v).Any = v.Conditions.Any :=
  ⟨rfl, rfl, rfl, rfl, rfl, rfl, rfl, rfl, rfl, rfl, rfl⟩

theorem CreateView_client (codec : ViewCodec) (z : Client) (view : View) :
    (CreateView codec z view).2
      = (z.Post "/views.json" (Payload.view (mapViewToViewCreateOrUpdate view))).2 := by
  unfold CreateView
  simp only
  split
  · rfl
  · split <;> rfl

/-- C11: for every server behaviour and view, `CreateView` sends exactly one
request after those already sent, the POST to /views.json with the mapped
view, so no PUT to /views/update_many; and for every id, `UpdateView` sends the
PUT to /views/update_many. -/
theorem CreateView_one_request (codec : ViewCodec) (z : Client) (id : Int) (view : View) :
    (CreateView codec z view).2.sent
        = z.sent ++ [{ method := Method.POST, path := "/views.json",
                       data := Payload.view (mapViewToViewCreateOrUpdate view) }]
    ∧ (∃ rest, (UpdateView codec z id view).2.sent = z.sent ++ positionRequest id view :: rest) := by
  constructor
  · rw [CreateView_client]
    rfl
  · have h1 := UpdateViewPosition_client codec z id { ID := id, Position := view.Position }
    refine ⟨[{ method := Method.PUT,
               path := String.mk ("/views/".data ++ formatInt id ++ ".json".data),
               data := Payload.view (mapViewToViewCreateOrUpdate view) }], ?_⟩
    unfold UpdateView
    simp only [h1]
    split
    · simp [Client.Put, positionRequest]
    · split <;> simp [Client.Put, positionRequest]

/-! ### Custom statuses: delete -/

/-- C17: for every resource data and client, the Delete operation of the
custom status resource sends no request and returns exactly one diagnostic,
of severity Warning (so not of severity Error), leaving the resource data as
it is. -/
theorem customStatus_delete_warns (codec : CustomStatusCodec) (d : identifiableMapGetterSetter)
    (zd : Client) :
    ((resourceZendeskCustomStatuses codec).DeleteContext d zd).z.sent = zd.sent
    ∧ (∃ dg, ((resourceZendeskCustomStatuses codec).DeleteContext d zd).result = Except.ok [dg]
        ∧ dg.Severity = Severity.Warning ∧ dg.Severity ≠ Severity.Error)
    ∧ ((resourceZendeskCustomStatuses codec).DeleteContext d zd).d.mapGetterSetter
        = d.mapGetterSetter
    ∧ ((resourceZendeskCustomStatuses codec).DeleteContext d zd).d.id = d.id := by
  refine ⟨rfl, ⟨_, rfl, rfl, ?_⟩, rfl, rfl⟩
  decide

/-! ### The CRUD template: errors -/

/-- C19: for every server behaviour, each client operation of the template
(get, create and update of a queue and of a custom status, get and create of a
group and of an organization membership) returns a non-nil error exactly when
its HTTP call fails or the body does not decode, with the zero record, and
else the decoded record with a nil error; and whenever the `UpdateQueue` call
of `updateQueue` returns an error, `updateQueue` returns the diagnostics of
that error, which contain an error. -/
theorem crud_errors_propagate (qc : QueueCodec) (sc : CustomStatusCodec) (mc : MembershipCodec)
    (z : Client) (id : Int) (queue : Queue) (status : CustomStatus)
    (gm : GroupMembership) (om : OrganizationMembership) (d : identifiableMapGetterSetter) :
    Propagates qc.unmarshalQueue Queue.zero
        (z.Get (String.mk ("/queues/".data ++ formatInt id ++ ".json".data))).1
        (GetQueue qc z id).1
    ∧ Propagates qc.unmarshalQueue Queue.zero
        (z.Post "/queues.json" (Payload.queue queue)).1
        (CreateQueue qc z queue).1
    ∧ Propagates qc.unmarshalQueue Queue.zero
        (z.Put (String.mk ("/queues/".data ++ formatInt id ++ ".json".data))
          (Payload.queue queue)).1
        (UpdateQueue qc z id queue).1
    ∧ Propagates sc.unmarshalCustomStatus CustomStatus.zero
        (z.Get (String.mk ("/custom_statuses/".data ++ formatInt id ++ ".json".data))).1
        (GetCustomStatus sc z id).1
    ∧ Propagates sc.unmarshalCustomStatus CustomStatus.zero
        (z.Post "/custom_statuses.json" (Payload.customStatus status)).1
        (CreateCustomStatus sc z status).1
    ∧ Propagates sc.unmarshalCustomStatus CustomStatus.zero
        (z.Put (String.mk ("/custom_statuses/".data ++ formatInt id ++ ".json".data))
          (Payload.customStatus status)).1
        (UpdateCustomStatus sc z id status).1
    ∧ Propagates mc.unmarshalGroupMembership GroupMembership.zero
        (z.Get (String.mk ("/group_memberships/".data ++ formatInt id ++ ".json".data))).1
        (GetGroupMembership mc z id).1
    ∧ Propagates mc.unmarshalGroupMembership GroupMembership.zero
        (z.Post "/group_memberships.json" (Payload.groupMembership gm)).1
        (CreateGroupMembership mc z gm).1
    ∧ Propagates mc.unmarshalOrganizationMembership OrganizationMembership.zero
        (z.Get
          (String.mk ("/organization_memberships/".data ++ formatInt id ++ ".json".data))).1
        (GetOrganizationMembership mc z id).1
    ∧ Propagates mc.unmarshalOrganizationMembership OrganizationMembership.zero
        (z.Post "/organization_memberships.json" (Payload.organizationMembership om)).1
        (CreateOrganizationMembership mc z om).1
    ∧ (∀ q n err, unmarshalQueue d = Except.ok q → atoi64 d.Id = Except.ok n →
        (UpdateQueue qc z n q).1.2 = some err →
        (updateQueue qc d z).result = Except.ok (FromErr err)
          ∧ (FromErr err).HasError = true) := by
  refine ⟨?_, ?_, ?_, ?_, ?_, ?_, ?_, ?_, ?_, ?_, ?_⟩
  · rw [GetQueue_eq]
    exact propagates_template qc.unmarshalQueue Queue.zero _
  · rw [CreateQueue_eq]
    exact propagates_template qc.unmarshalQueue Queue.zero _
  · rw [UpdateQueue_eq]
    exact propagates_template qc.unmarshalQueue Queue.zero _
  · rw [GetCustomStatus_eq]
    exact propagates_template sc.unmarshalCustomStatus CustomStatus.zero _
  · rw [CreateCustomStatus_eq]
    exact propagates_template sc.unmarshalCustomStatus CustomStatus.zero _
  · rw [UpdateCustomStatus_eq]
    exact propagates_template sc.unmarshalCustomStatus CustomStatus.zero _
  · rw [GetGroupMembership_eq]
    exact propagates_template mc.unmarshalGroupMembership GroupMembership.zero _
  · rw [CreateGroupMembership_eq]
    exact propagates_template mc.unmarshalGroupMembership GroupMembership.zero _
  · rw [GetOrganizationMembership_eq]
    exact propagates_template mc.unmarshalOrganizationMembership OrganizationMembership.zero _
  · rw [CreateOrganizationMembership_eq]
    exact propagates_template mc.unmarshalOrganizationMembership OrganizationMembership.zero _
  · intro q n err hq hn he
    refine ⟨?_, rfl⟩
    unfold updateQueue
    simp only [hq, hn, he]

/-! ### The CRUD template: read and delete -/

/-- C14 (as amended): for every resource data whose Id is the decimal numeral
of a signed 64-bit integer n, and every client, `readQueue` does the call
`GetQueue` with the id n and `deleteQueue` the call `DeleteQueue` with the id
n, each sending the one request that names n; so do the read of a custom
status and the read and delete of the memberships; `deleteQueue` returns no
diagnostics when the call returns a nil error; and the Delete operation of the
custom status resource sends no request. -/
theorem read_delete_address_id (qc : QueueCodec) (sc : CustomStatusCodec) (mc : MembershipCodec)
    (d : identifiableMapGetterSetter) (zd : Client) (n : Int)
    (hlo : -(2 : Int) ^ 63 ≤ n) (hhi : n < (2 : Int) ^ 63)
    (hid : d.Id = String.mk (formatInt n)) :
    (readQueue qc d zd).z = (GetQueue qc zd n).2
    ∧ (readQueue qc d zd).z.sent
        = zd.sent ++ [{ method := Method.GET,
                        path := String.mk ("/queues/".data ++ formatInt n ++ ".json".data),
                        data := Payload.none }]
    ∧ (deleteQueue d zd).z = (DeleteQueue zd n).2
    ∧ (deleteQueue d zd).z.sent
        = zd.sent ++ [{ method := Method.DELETE,
                        path := String.mk ("/queues/".data ++ formatInt n ++ ".json".data),
                        data := Payload.none }]
    ∧ ((DeleteQueue zd n).1 = none → (deleteQueue d zd).result = Except.ok [])
    ∧ (readCustomStatus sc d zd).z = (GetCustomStatus sc zd n).2
    ∧ (readGroupMembership mc d zd).z = (GetGroupMembership mc zd n).2
    ∧ (deleteGroupMembership d zd).z = (DeleteGroupMembership zd n).2
    ∧ (readOrganizationMembership mc d zd).z = (GetOrganizationMembership mc zd n).2
    ∧ (deleteOrganizationMembership d zd).z = (DeleteOrganizationMembership zd n).2
    ∧ ((resourceZendeskCustomStatuses sc).DeleteContext d zd).z.sent = zd.sent := by
  have hp : atoi64 d.Id = Except.ok n := by
    rw [hid]
    exact ParseInt_formatInt n hlo hhi
  have hrq : (readQueue qc d zd).z = (GetQueue qc zd n).2 := by
    unfold readQueue
    simp only [hp]
    split
    · rfl
    · split
      · exact (failed_d _ _ _).2
      · rfl
  have hdq : (deleteQueue d zd).z = (DeleteQueue zd n).2 := by
    unfold deleteQueue
    simp only [hp]
    split <;> rfl
  refine ⟨hrq, ?_, hdq, ?_, ?_, ?_, ?_, ?_, ?_, ?_, rfl⟩
  · rw [hrq, GetQueue_eq]
    rfl
  · rw [hdq, DeleteQueue_eq]
    rfl
  · intro h
    unfold deleteQueue
    simp only [hp, h]
  · unfold readCustomStatus
    simp only [hp]
    split
    · rfl
    · split
      · exact (failed_d _ _ _).2
      · rfl
  · unfold readGroupMembership
    simp only [hp]
    split
    · rfl
    · split
      · exact (failed_d _ _ _).2
      · rfl
  · unfold deleteGroupMembership
    simp only [hp]
    split <;> rfl
  · unfold readOrganizationMembership
    simp only [hp]
    split
    · rfl
    · split
      · exact (failed_d _ _ _).2
      · rfl
  · unfold deleteOrganizationMembership
    simp only [hp]
    split <;> rfl

/-! ### The CRUD template: create -/

/-- What `marshalQueue` stores. -/
theorem marshalQueue_eq (q : Queue) (d : identifiableMapGetterSetter) :
    ∃ d2, marshalQueue q d = Except.ok d2
      ∧ d2.id = d.id
      ∧ d2.GetOk "url" = (Attr.string q.URL, true)
      ∧ d2.GetOk "name" = (Attr.string q.Name, true)
      ∧ d2.GetOk "description" = (Attr.string q.Description, true)
      ∧ d2.GetOk "created_at" = (Attr.string q.CreatedAt, true)
      ∧ d2.GetOk "updated_at" = (Attr.string q.UpdatedAt, true) := by
  unfold marshalQueue
  simp only [setSchemaFields_eq]
  refine ⟨_, rfl, rfl, ?_, ?_, ?_, ?_, ?_⟩ <;>
    cases q.Definition <;>
      simp [identifiableMapGetterSetter.GetOk, mapGetterSetter.assign, GetOk_assign_same,
        GetOk_assign_other]

/-- What `marshalCustomStatus` stores. -/
theorem marshalCustomStatus_eq (s : CustomStatus) (d : identifiableMapGetterSetter) :
    ∃ d2, marshalCustomStatus s d = Except.ok d2
      ∧ d2.id = d.id
      ∧ d2.GetOk "url" = (Attr.string s.URL, true)
      ∧ d2.GetOk "status_category" = (Attr.string s.StatusCategory, true)
      ∧ d2.GetOk "agent_label" = (Attr.string s.AgentLabel, true)
      ∧ d2.GetOk "end_user_label" = (Attr.string s.EndUserLabel, true)
      ∧ d2.GetOk "description" = (Attr.string s.Description, true)
      ∧ d2.GetOk "default" = (Attr.bool s.Default, true)
      ∧ d2.GetOk "active" = (Attr.bool s.Active, true)
      ∧ d2.GetOk "end_user_hidden" = (Attr.bool s.EndUserHidden, true)
      ∧ d2.GetOk "created_at" = (Attr.string s.CreatedAt, true)
      ∧ d2.GetOk "updated_at" = (Attr.string s.UpdatedAt, true) := by
  unfold marshalCustomStatus
  simp only [setSchemaFields_eq]
  refine ⟨_, rfl, rfl, ?_, ?_, ?_, ?_, ?_, ?_, ?_, ?_, ?_, ?_⟩ <;>
    simp [identifiableMapGetterSetter.GetOk, mapGetterSetter.assign, GetOk_assign_same,
      GetOk_assign_other]

/-- C13: when `unmarshalQueue` succeeds and the call `CreateQueue` returns the
record `rec` with a nil error, `createQueue` returns no diagnostics, the Id is
the decimal numeral of `rec.ID`, and url, name, description, created_at and
updated_at hold the values of `rec`; likewise `createCustomStatus` with the
attributes of a custom status. -/
theorem create_stores_record (qc : QueueCodec) (sc : CustomStatusCodec)
    (d ds : identifiableMapGetterSetter) (zd : Client)
    (queue rec : Queue) (status srec : CustomStatus)
    (hu : unmarshalQueue d = Except.ok queue)
    (hc : (CreateQueue qc zd queue).1 = (rec, none))
    (hus : unmarshalCustomStatus ds = Except.ok status)
    (hcs : (CreateCustomStatus sc zd status).1 = (srec, none)) :
    ((createQueue qc d zd).result = Except.ok []
      ∧ (createQueue qc d zd).d.Id = String.mk (formatInt rec.ID)
      ∧ (createQueue qc d zd).d.GetOk "url" = (Attr.string rec.URL, true)
      ∧ (createQueue qc d zd).d.GetOk "name" = (Attr.string rec.Name, true)
      ∧ (createQueue qc d zd).d.GetOk "description" = (Attr.string rec.Description, true)
      ∧ (createQueue qc d zd).d.GetOk "created_at" = (Attr.string rec.CreatedAt, true)
      ∧ (createQueue qc d zd).d.GetOk "updated_at" = (Attr.string rec.UpdatedAt, true))
    ∧ ((createCustomStatus sc ds zd).result = Except.ok []
      ∧ (createCustomStatus sc ds zd).d.Id = String.mk (formatInt srec.ID)
      ∧ (createCustomStatus sc ds zd).d.GetOk "url" = (Attr.string srec.URL, true)
      ∧ (createCustomStatus sc ds zd).d.GetOk "status_category"
          = (Attr.string srec.StatusCategory, true)
      ∧ (createCustomStatus sc ds zd).d.GetOk "agent_label" = (Attr.string srec.AgentLabel, true)
      ∧ (createCustomStatus sc ds zd).d.GetOk "end_user_label"
          = (Attr.string srec.EndUserLabel, true)
      ∧ (createCustomStatus sc ds zd).d.GetOk "description"
          = (Attr.string srec.Description, true)
      ∧ (createCustomStatus sc ds zd).d.GetOk "default" = (Attr.bool srec.Default, true)
      ∧ (createCustomStatus sc ds zd).d.GetOk "active" = (Attr.bool srec.Active, true)
      ∧ (createCustomStatus sc ds zd).d.GetOk "end_user_hidden"
          = (Attr.bool srec.EndUserHidden, true)
      ∧ (createCustomStatus sc ds zd).d.GetOk "created_at" = (Attr.string srec.CreatedAt, true)
      ∧ (createCustomStatus sc ds zd).d.GetOk "updated_at"
          = (Attr.string srec.UpdatedAt, true)) := by
  constructor
  · obtain ⟨d2, hm, hi, h1, h2, h3, h4, h5⟩ :=
      marshalQueue_eq rec (d.SetId (String.mk (formatInt rec.ID)))
    have hout : createQueue qc d zd
        = { result := Except.ok [], d := d2, z := (CreateQueue qc zd queue).2 } := by
      unfold createQueue
      simp only [hu, hc, hm]
    rw [hout]
    exact ⟨rfl, hi, h1, h2, h3, h4, h5⟩
  · obtain ⟨d2, hm, hi, h1, h2, h3, h4, h5, h6, h7, h8, h9, h10⟩ :=
      marshalCustomStatus_eq srec (ds.SetId (String.mk (formatInt srec.ID)))
    have hout : createCustomStatus sc ds zd
        = { result := Except.ok [], d := d2, z := (CreateCustomStatus sc zd status).2 } := by
      unfold createCustomStatus
      simp only [hus, hcs, hm]
    rw [hout]
    exact ⟨rfl, hi, h1, h2, h3, h4, h5, h6, h7, h8, h9, h10⟩

/-- C13 on the sample states and a server that answers with the sample queue
(ID 47) and the sample custom status (ID 48). -/
theorem create_stores_record_witness :
    ((createQueue sampleQueueCodec queueState acceptingClient).result = Except.ok []
      ∧ (createQueue sampleQueueCodec queueState acceptingClient).d.Id = "47"
      ∧ (createQueue sampleQueueCodec queueState acceptingClient).d.GetOk "created_at"
          = (Attr.string "2024-01-01T00:00:00Z", true))
    ∧ ((createCustomStatus sampleStatusCodec statusState acceptingClient).result = Except.ok []
      ∧ (createCustomStatus sampleStatusCodec statusState acceptingClient).d.Id = "48"
      ∧ (createCustomStatus sampleStatusCodec statusState acceptingClient).d.GetOk "active"
          = (Attr.bool true, true)) :=
  have h := create_stores_record sampleQueueCodec sampleStatusCodec queueState statusState
    acceptingClient
    { ID := 12345, URL := "https://example.zendesk.com/api/v2/queues/12345.json",
      Name := "Support", Description := "first line", Definition := none,
      CreatedAt := "", UpdatedAt := "" }
    sampleQueue
    { ID := 12345, URL := "https://example.zendesk.com/api/v2/custom_statuses/12345.json",
      StatusCategory := "open", AgentLabel := "In review", EndUserLabel := "Being looked at",
      Description := "a colleague is reviewing", Default := false, Active := true,
      EndUserHidden := false, CreatedAt := "", UpdatedAt := "" }
    sampleStatus rfl rfl rfl rfl
  ⟨⟨h.1.1, h.1.2.1, h.1.2.2.2.2.2.1⟩, ⟨h.2.1, h.2.2.1, h.2.2.2.2.2.2.2.2.2.1⟩⟩

/-! ### The CRUD template: unmarshal -/

theorem assignTags_eq (tags : List String) : ∀ acc : List String,
    assignTags acc (tags.map Attr.string) = Except.ok (acc ++ tags) := by
  induction tags with
  | nil => intro acc; simp [assignTags]
  | cons t rest ih => intro acc; simp [assignTags, assertString, ih]

/-- C15 (as amended): for every queue state whose Id is the decimal numeral
of a signed 64-bit integer n, whose "url", "name" and "description" are set to
strings and whose "definition" is unset or a map, `unmarshalQueue` returns
without error a record with the ID n and the URL, Name and Description of the
state; for every custom status state of that kind `unmarshalCustomStatus`
returns without error a record with the ID n and the attributes of the state;
and for every user state and ticket state with that Id whose attributes are
set, `unmarshalUser` and `unmarshalTicket` return without error the record
with the ID n and the attributes they read (the name of the user, the
description of the ticket), in which the URL is empty: they do not read
"url". -/
theorem unmarshal_copies_state (d ds du dt : identifiableMapGetterSetter) (n : Int)
    (url name description : String)
    (surl category agent endUser sdescription : String) (dflt active hidden : Bool)
    (uname email role phone : String) (uactive : Bool) (uorg : Int) (utags : List String)
    (subject tdescription type priority status : String)
    (requester assignee torg group : Int) (ttags : List String)
    (hlo : -(2 : Int) ^ 63 ≤ n) (hhi : n < (2 : Int) ^ 63)
    (hid : d.Id = String.mk (formatInt n))
    (hurl : d.GetOk "url" = (Attr.string url, true))
    (hname : d.GetOk "name" = (Attr.string name, true))
    (hdesc : d.GetOk "description" = (Attr.string description, true))
    (hdef : (d.GetOk "definition").2 = false ∨ ∃ m, d.GetOk "definition" = (Attr.map m, true))
    (hsid : ds.Id = String.mk (formatInt n))
    (hsurl : ds.GetOk "url" = (Attr.string surl, true))
    (hcat : ds.GetOk "status_category" = (Attr.string category, true))
    (hagent : ds.GetOk "agent_label" = (Attr.string agent, true))
    (hend : ds.GetOk "end_user_label" = (Attr.string endUser, true))
    (hsdesc : ds.GetOk "description" = (Attr.string sdescription, true))
    (hdflt : ds.GetOk "default" = (Attr.bool dflt, true))
    (hactive : ds.GetOk "active" = (Attr.bool active, true))
    (hhidden : ds.GetOk "end_user_hidden" = (Attr.bool hidden, true))
    (huid : du.Id = String.mk (formatInt n))
    (huname : du.GetOk "name" = (Attr.string uname, true))
    (huemail : du.GetOk "email" = (Attr.string email, true))
    (hurole : du.GetOk "role" = (Attr.string role, true))
    (huactive : du.GetOk "active" = (Attr.bool uactive, true))
    (huphone : du.GetOk "phone" = (Attr.string phone, true))
    (huorg : du.GetOk "organization_id" = (Attr.int uorg, true))
    (hutags : du.GetOk "tags" = (Attr.set (utags.map Attr.string), true))
    (htid : dt.Id = String.mk (formatInt n))
    (htsubject : dt.GetOk "subject" = (Attr.string subject, true))
    (htdesc : dt.GetOk "description" = (Attr.string tdescription, true))
    (httype : dt.GetOk "type" = (Attr.string type, true))
    (htpriority : dt.GetOk "priority" = (Attr.string priority, true))
    (htstatus : dt.GetOk "status" = (Attr.string status, true))
    (htrequester : dt.GetOk "requester_id" = (Attr.int requester, true))
    (htassignee : dt.GetOk "assignee_id" = (Attr.int assignee, true))
    (htorg : dt.GetOk "organization_id" = (Attr.int torg, true))
    (htgroup : dt.GetOk "group_id" = (Attr.int group, true))
    (httags : dt.GetOk "tags" = (Attr.set (ttags.map Attr.string), true)) :
    (∃ q, unmarshalQueue d = Except.ok q
        ∧ q.ID = n ∧ q.Name = name ∧ q.URL = url ∧ q.Description = description)
    ∧ unmarshalCustomStatus ds = Except.ok
        { ID := n, URL := surl, StatusCategory := category, AgentLabel := agent,
          EndUserLabel := endUser, Description := sdescription, Default := dflt,
          Active := active, EndUserHidden := hidden, CreatedAt := "", UpdatedAt := "" }
    ∧ (unmarshalUser du = Except.ok
          { User.zero with
            ID := n, Name := uname, Email := email, Role := role, Active := uactive,
            Phone := phone, OrganizationID := uorg, Tags := some utags }
        ∧ ∀ u, unmarshalUser du = Except.ok u → u.ID = n ∧ u.Name = uname ∧ u.URL = "")
    ∧ (unmarshalTicket dt = Except.ok
          { Ticket.zero with
            ID := n, Subject := subject, Description := tdescription, Type_ := type,
            Priority := priority, Status := status, RequesterID := requester,
            AssigneeID := assignee, OrganizationID := torg, GroupID := group,
            Tags := some ttags }
        ∧ ∀ t, unmarshalTicket dt = Except.ok t →
            t.ID = n ∧ t.Description = tdescription ∧ t.URL = "") := by
  have hnum : ∀ s : String, s = String.mk (formatInt n) → s ≠ "" ∧ atoi64 s = Except.ok n := by
    intro s hs
    rw [hs]
    exact ⟨formatInt_ne_nil n, ParseInt_formatInt n hlo hhi⟩
  refine ⟨?_, ?_, ?_, ?_⟩
  · obtain ⟨hne, hp⟩ := hnum _ hid
    have h := unmarshalQueue_eq d n url name description hne hp hurl hname hdesc
    rcases hdef with h0 | ⟨m, hm⟩
    · exact ⟨_, h.1 h0, rfl, rfl, rfl, rfl⟩
    · exact ⟨_, h.2 m hm, rfl, rfl, rfl, rfl⟩
  · obtain ⟨hne, hp⟩ := hnum _ hsid
    simp [unmarshalCustomStatus, hne, hp, hsurl, hcat, hagent, hend, hsdesc, hdflt, hactive,
      hhidden, assertString, assertBool, bind, Except.bind, pure, Except.pure, CustomStatus.zero]
  · obtain ⟨hne, hp⟩ := hnum _ huid
    have he : unmarshalUser du = Except.ok
        { User.zero with
          ID := n, Name := uname, Email := email, Role := role, Active := uactive,
          Phone := phone, OrganizationID := uorg, Tags := some utags } := by
      simp [unmarshalUser, hne, hp, huname, huemail, hurole, huactive, huphone, huorg, hutags,
        assertString, assertBool, assertInt, assertSetList, assignTags_eq, intOfInt64, bind,
        Except.bind, pure, Except.pure, User.zero]
    refine ⟨he, ?_⟩
    intro u hu
    rw [he] at hu
    cases hu
    exact ⟨rfl, rfl, rfl⟩
  · obtain ⟨hne, hp⟩ := hnum _ htid
    have he : unmarshalTicket dt = Except.ok
        { Ticket.zero with
          ID := n, Subject := subject, Description := tdescription, Type_ := type,
          Priority := priority, Status := status, RequesterID := requester,
          AssigneeID := assignee, OrganizationID := torg, GroupID := group,
          Tags := some ttags } := by
      simp [unmarshalTicket, hne, hp, htsubject, htdesc, httype, htpriority, htstatus,
        htrequester, htassignee, htorg, htgroup, httags,
        assertString, assertInt, assertSetList, assignTags_eq, intOfInt64, bind,
        Except.bind, pure, Except.pure, Ticket.zero]
    refine ⟨he, ?_⟩
    intro t ht
    rw [he] at ht
    cases ht
    exact ⟨rfl, rfl, rfl⟩

/-- C15 (as amended) on the sample states, whose Id is "12345". -/
theorem unmarshal_copies_state_witness :
    (∃ q, unmarshalQueue queueState = Except.ok q
        ∧ q.ID = 12345 ∧ q.Name = "Support"
        ∧ q.URL = "https://example.zendesk.com/api/v2/queues/12345.json"
        ∧ q.Description = "first line")
    ∧ unmarshalCustomStatus statusState = Except.ok
        { ID := 12345, URL := "https://example.zendesk.com/api/v2/custom_statuses/12345.json",
          StatusCategory := "open", AgentLabel := "In review",
          EndUserLabel := "Being looked at", Description := "a colleague is reviewing",
          Default := false, Active := true, EndUserHidden := false,
          CreatedAt := "", UpdatedAt := "" }
    ∧ (unmarshalUser userState = Except.ok
          { User.zero with
            ID := 12345, Name := "Ann", Email := "ann@example.com", Role := "agent",
            Active := true, Phone := "+1 555 0100", OrganizationID := 9,
            Tags := some ["vip"] }
        ∧ ∀ u, unmarshalUser userState = Except.ok u →
            u.ID = 12345 ∧ u.Name = "Ann" ∧ u.URL = "")
    ∧ (unmarshalTicket ticketState = Except.ok
          { Ticket.zero with
            ID := 12345, Subject := "Printer", Description := "The printer is on fire",
            Type_ := "incident", Priority := "urgent", Status := "open", RequesterID := 3,
            AssigneeID := 4, OrganizationID := 9, GroupID := 5, Tags := some ["hardware"] }
        ∧ ∀ t, unmarshalTicket ticketState = Except.ok t →
            t.ID = 12345 ∧ t.Description = "The printer is on fire" ∧ t.URL = "") :=
  unmarshal_copies_state queueState statusState userState ticketState 12345
    "https://example.zendesk.com/api/v2/queues/12345.json" "Support" "first line"
    "https://example.zendesk.com/api/v2/custom_statuses/12345.json" "open" "In review"
    "Being looked at" "a colleague is reviewing" false true false
    "Ann" "ann@example.com" "agent" "+1 555 0100" true 9 ["vip"]
    "Printer" "The printer is on fire" "incident" "urgent" "open" 3 4 9 5 ["hardware"]
    (by decide) (by decide) rfl rfl rfl rfl (Or.inl rfl) rfl rfl rfl rfl rfl rfl rfl rfl rfl
    rfl rfl rfl rfl rfl rfl rfl rfl
    rfl rfl rfl rfl rfl rfl rfl rfl rfl rfl rfl

/-- C15 as stated fails: the sample user state and the sample ticket state
have the Id "12345" and a "url"; `unmarshalUser` and `unmarshalTicket` return
without error a record with the ID 12345 whose URL is empty, not the "url" of
the state. -/
theorem unmarshalUser_drops_url :
    userState.Id = String.mk (formatInt 12345)
    ∧ userState.GetOk "url"
        = (Attr.string "https://example.zendesk.com/api/v2/users/12345.json", true)
    ∧ (∃ u, unmarshalUser userState = Except.ok u ∧ u.ID = 12345 ∧ u.URL = ""
        ∧ Attr.string u.URL ≠ (userState.GetOk "url").1)
    ∧ (∃ t, unmarshalTicket ticketState = Except.ok t ∧ t.ID = 12345 ∧ t.URL = ""
        ∧ Attr.string t.URL ≠ (ticketState.GetOk "url").1) := by
  refine ⟨rfl, rfl, ⟨_, rfl, rfl, rfl, ?_⟩, ⟨_, rfl, rfl, rfl, ?_⟩⟩
  · intro h
    have h2 : Attr.string ""
        = Attr.string "https://example.zendesk.com/api/v2/users/12345.json" := h
    exact absurd (Attr.string.inj h2) (by decide)
  · intro h
    have h2 : Attr.string ""
        = Attr.string "https://example.zendesk.com/api/v2/tickets/12345.json" := h
    exact absurd (Attr.string.inj h2) (by decide)

/-- C14 as stated fails: the Id of the sample custom status state is the
numeral of 12345, and the Delete operation of the custom status resource sends
no request at all, so it does not call the API with the id 12345. -/
theorem customStatus_delete_ignores_id :
    statusState.Id = String.mk (formatInt 12345)
    ∧ ((resourceZendeskCustomStatuses sampleStatusCodec).DeleteContext statusState
          acceptingClient).z.sent = [] :=
  ⟨rfl, rfl⟩

/-- C14 (as amended) on the sample queue state, whose Id is "12345", and a
server that answers every request: the read sends GET /queues/12345.json, the
delete sends DELETE /queues/12345.json and returns no diagnostics, and the
Delete operation of the custom status resource sends nothing. -/
theorem read_delete_address_id_witness :
    (readQueue sampleQueueCodec queueState acceptingClient).z.sent
        = [{ method := Method.GET, path := "/queues/12345.json", data := Payload.none }]
    ∧ (deleteQueue queueState acceptingClient).z.sent
        = [{ method := Method.DELETE, path := "/queues/12345.json", data := Payload.none }]
    ∧ (deleteQueue queueState acceptingClient).result = Except.ok []
    ∧ ((resourceZendeskCustomStatuses sampleStatusCodec).DeleteContext queueState
          acceptingClient).z.sent = [] :=
  have h := read_delete_address_id sampleQueueCodec sampleStatusCodec sampleMembershipCodec
    queueState acceptingClient 12345 (by decide) (by decide) rfl
  ⟨h.2.1, h.2.2.2.1, h.2.2.2.2.1 rfl, h.2.2.2.2.2.2.2.2.2.2⟩

/-- C19 on the sample queue state and a server on which every request fails:
`UpdateQueue` returns the zero record with the error of the call, and
`updateQueue` returns the diagnostics of that error. -/
theorem crud_errors_propagate_witness :
    (UpdateQueue sampleQueueCodec failingClient 12345 sampleQueue).1
        = (Queue.zero, some (Fault.error "500 Internal Server Error"))
    ∧ (updateQueue sampleQueueCodec queueState failingClient).result
        = Except.ok [{ Severity := Severity.Error, Summary := "500 Internal Server Error",
                       Detail := "" }] :=
  have h := crud_errors_propagate sampleQueueCodec sampleStatusCodec sampleMembershipCodec
    failingClient 12345 sampleQueue sampleStatus GroupMembership.zero
    OrganizationMembership.zero queueState
  ⟨h.2.2.1.2.1 (Fault.error "500 Internal Server Error") rfl,
   (h.2.2.2.2.2.2.2.2.2.2
      { ID := 12345, URL := "https://example.zendesk.com/api/v2/queues/12345.json",
        Name := "Support", Description := "first line", Definition := none,
        CreatedAt := "", UpdatedAt := "" }
      12345 (Fault.error "500 Internal Server Error") rfl rfl rfl).1⟩

/-! ### Views: conditions -/

/-- C12, the failing input: on a new view with a title and neither "all" nor
"any", `unmarshalViews` returns without error a view whose conditions are
empty, and `createViews` sends the POST to /views.json and returns no
diagnostics; nothing rejects the configuration. -/
theorem createViews_accepts_no_conditions :
    (noConditionsState.GetOk "all").2 = false
    ∧ (noConditionsState.GetOk "any").2 = false
    ∧ unmarshalViews noConditionsState = Except.ok { View.zero with Title := "Open" }
    ∧ (createViews sampleCodec noConditionsState acceptingClient).result = Except.ok []
    ∧ (createViews sampleCodec noConditionsState acceptingClient).z.sent
        = [{ method := Method.POST, path := "/views.json",
             data := Payload.view
               (mapViewToViewCreateOrUpdate { View.zero with Title := "Open" }) }] :=
  ⟨rfl, rfl, rfl, rfl, rfl⟩

/-! ### Sample runs of the validator and of the membership update -/

/-- C16 on the sample file system: the file passes, the directory is an error. -/
theorem isValidFile_spec_witness :
    isValidFile sampleStat (Attr.string "testdata/file.txt") [] = []
    ∧ (isValidFile sampleStat (Attr.string "testdata") []).HasError = true :=
  ⟨(isValidFile_spec sampleStat (Attr.string "testdata/file.txt") []).2.1
      "testdata/file.txt" { IsDir := false } rfl rfl rfl,
   (isValidFile_spec sampleStat (Attr.string "testdata") []).1.2
      (Or.inr (Or.inr ⟨"testdata", { IsDir := true }, rfl, rfl, rfl⟩))⟩

/-- C18 on the sample state with Id "12345": the update of a group membership
is its read. -/
theorem membership_update_is_read_witness :
    (resourceZendeskGroupMemberships sampleMembershipCodec).UpdateContext queueState
        acceptingClient
      = (resourceZendeskGroupMemberships sampleMembershipCodec).ReadContext queueState
          acceptingClient :=
  (membership_update_is_read sampleMembershipCodec queueState acceptingClient).1.1

/-! ### strconv.ParseInt rejects -/

/-- `ParseInt` rejects a text with a character that is neither a decimal digit
nor a sign. -/
theorem ParseInt_non_digit (s : String)
    (h : ∃ c ∈ s.data, c.isDigit = false ∧ c ≠ '+' ∧ c ≠ '-') :
    ParseInt s = Except.error (Fault.error "strconv.ParseInt: invalid syntax") := by
  obtain ⟨c, hc, hd, hplus, hminus⟩ := h
  unfold ParseInt
  cases hs : s.data with
  | nil => rfl
  | cons c0 rest =>
    rw [hs] at hc
    have hall : (if c0 = '+' ∨ c0 = '-' then rest else c0 :: rest).all Char.isDigit = false := by
      rw [List.all_eq_false]
      refine ⟨c, ?_, by simp [hd]⟩
      rcases List.mem_cons.1 hc with h0 | h0
      · subst h0
        simp [hplus, hminus]
      · split
        · exact h0
        · exact List.mem_cons_of_mem _ h0
    simp only [hall]
    simp

/-- `ParseInt` rejects the decimal numeral of an integer outside the int64
range. -/
theorem ParseInt_out_of_range (n : Int) (h : n < -(2 : Int) ^ 63 ∨ (2 : Int) ^ 63 ≤ n) :
    ParseInt (String.mk (formatInt n))
      = Except.error (Fault.error "strconv.ParseInt: value out of range") := by
  cases n with
  | ofNat k =>
    have hk : 2 ^ 63 ≤ k := by
      rcases h with h | h
      · have h1 : (0 : Int) ≤ ((k : Nat) : Int) := Int.ofNat_nonneg k
        have h2 : ((k : Nat) : Int) < -(2 : Int) ^ 63 := h
        omega
      · have h2 : (2 : Int) ^ 63 ≤ ((k : Nat) : Int) := h
        exact_mod_cast h2
    obtain ⟨d, rest, hd, hf⟩ := formatNat_cons k
    have hall := formatNat_all_digits k
    have hval := (formatNat_digits k).2
    have hfacts := digitChar_facts d hd
    unfold ParseInt
    simp only [formatInt, hf]
    rw [hf] at hall hval
    simp only [hfacts.2.2.1, hfacts.2.2.2, false_or, if_false, hall, hval]
    simp
    omega
  | negSucc m =>
    have hm : 2 ^ 63 < m + 1 := by
      rcases h with h | h
      · have h1 : Int.negSucc m < -(2 : Int) ^ 63 := h
        rw [Int.negSucc_eq] at h1
        have h2 : (2 : Int) ^ 63 < (m : Int) + 1 := by omega
        exact_mod_cast h2
      · have h1 : (2 : Int) ^ 63 ≤ Int.negSucc m := h
        rw [Int.negSucc_eq] at h1
        have h3 : (0 : Int) ≤ (m : Int) := Int.ofNat_nonneg m
        omega
    obtain ⟨d, rest, hd, hf⟩ := formatNat_cons (m + 1)
    have hall := formatNat_all_digits (m + 1)
    have hval := (formatNat_digits (m + 1)).2
    unfold ParseInt
    simp only [formatInt]
    simp only [or_true, if_true, hall, hval]
    simp [hf]
    omega

theorem assertSetList_ok (v : Attr) (xs : List Attr) (h : assertSetList v = Except.ok xs) :
    v = Attr.set xs := by
  cases v <;> simp [assertSetList] at h
  rw [h]

theorem appendSetInts_acc (xs : List Attr) : ∀ (acc w : List Int),
    appendSetInts acc xs = Except.ok w → ∃ ids, xs = ids.map Attr.int ∧ w = acc ++ ids := by
  induction xs with
  | nil =>
    intro acc w h
    simp [appendSetInts] at h
    exact ⟨[], rfl, by simp [h]⟩
  | cons x rest ih =>
    intro acc w h
    cases x <;> simp [appendSetInts, assertInt] at h
    rename_i n
    obtain ⟨ids, h1, h2⟩ := ih _ _ h
    exact ⟨n :: ids, by simp [h1], by simp [h2]⟩

theorem appendSetInts_ok (xs : List Attr) (w : List Int)
    (h : appendSetInts [] xs = Except.ok w) : xs = w.map Attr.int := by
  obtain ⟨ids, h1, h2⟩ := appendSetInts_acc xs [] w h
  simp at h2
  rw [h2, h1]

/-! ### The unmarshal functions, step by step -/

section
set_option maxHeartbeats 4000000

/-- The runs of `unmarshalViews` on the same attributes with the Id `s` and
with the empty Id: the Id only decides the ID of the view, or the error; and
the Restriction of the view returned. -/
theorem unmarshalViews_run (m : mapGetterSetter) (s : String) :
    (∀ n, s ≠ "" → ParseInt s = Except.ok n →
        unmarshalViews { mapGetterSetter := m, id := s }
          = Except.map (fun tf => { tf with ID := n })
              (unmarshalViews { mapGetterSetter := m, id := "" }))
    ∧ (∀ tf, unmarshalViews { mapGetterSetter := m, id := "" } = Except.ok tf → tf.ID = 0)
    ∧ (∀ err, s ≠ "" → ParseInt s = Except.error err →
        unmarshalViews { mapGetterSetter := m, id := s }
          = Except.error (Fault.error (String.mk
              ("could not parse user field id ".data ++ s.data ++ ": ".data
                ++ err.message.data))))
    ∧ (∀ r, unmarshalViews { mapGetterSetter := m, id := s } = Except.ok r →
        ((identifiableMapGetterSetter.GetOk { mapGetterSetter := m, id := s } "restrictions").2
            = false → r.Restriction = none)
        ∧ ((identifiableMapGetterSetter.GetOk { mapGetterSetter := m, id := s } "restrictions").2
            = true →
          ∃ ids : List Int, (identifiableMapGetterSetter.GetOk { mapGetterSetter := m, id := s }
                "restrictions").1 = Attr.set (ids.map Attr.int)
            ∧ r.Restriction = some { IDs := ids, Type_ := "Group" })) := by
  unfold unmarshalViews
  generalize hg1 : identifiableMapGetterSetter.GetOk { mapGetterSetter := m, id := s } = g
  generalize hg2 : identifiableMapGetterSetter.GetOk { mapGetterSetter := m, id := "" } = g2
  have hg : g = g2 := by
    rw [← hg1, ← hg2]
    rfl
  subst hg
  lift_lets
  intro tf0 jp14 jp13 jp12 jp11 jp10 jp9 jp8 jp7 jp6 jp5 jp4 jp3 jp2 jp1
  have H14 : ∀ (tf : View) (n : Int) (y : PUnit),
      jp14 { tf with ID := n } y
        = Except.map (fun t => { t with ID := n }) (jp14 tf y) :=
    fun _ _ _ => rfl
  have P14 : ∀ (tf : View) (y : PUnit) (r : View),
      jp14 tf y = Except.ok r → r.Restriction = tf.Restriction := by
    intro tf y r h
    have h2 : tf = r := Except.ok.inj h
    rw [h2]
  clear_value jp14
  have H13 : ∀ (tf : View) (n : Int) (y : PUnit),
      jp13 { tf with ID := n } y
        = Except.map (fun t => { t with ID := n }) (jp13 tf y) := by
    intro tf n y
    by_cases hc : (g "active").2 = true
    · simp only [jp13, hc, if_true]
      cases assertBool (g "active").1 with
      | error e => rfl
      | ok v => exact H14 { tf with Active := v } n PUnit.unit
    · simp only [jp13, hc]
      exact H14 tf n PUnit.unit
  have P13 : ∀ (tf : View) (y : PUnit) (r : View),
      jp13 tf y = Except.ok r → r.Restriction = tf.Restriction := by
    intro tf y r h
    by_cases hc : (g "active").2 = true
    · simp only [jp13, hc, if_true] at h
      cases hv : assertBool (g "active").1 with
      | error e =>
        rw [hv] at h
        cases h
      | ok v =>
        rw [hv] at h
        have h2 := P14 _ PUnit.unit _ h
        exact h2
    · simp only [jp13, hc] at h
      have h2 := P14 _ PUnit.unit _ h
      exact h2
  clear_value jp13
  have H12 : ∀ (tf : View) (n : Int) (y : PUnit),
      jp12 { tf with ID := n } y
        = Except.map (fun t => { t with ID := n }) (jp12 tf y) := by
    intro tf n y
    by_cases hc : (g "position").2 = true
    · simp only [jp12, hc, if_true]
      cases assertInt (g "position").1 with
      | error e => rfl
      | ok v => exact H13 { tf with Position := v } n PUnit.unit
    · simp only [jp12, hc]
      exact H13 tf n PUnit.unit
  have P12 : ∀ (tf : View) (y : PUnit) (r : View),
      jp12 tf y = Except.ok r → r.Restriction = tf.Restriction := by
    intro tf y r h
    by_cases hc : (g "position").2 = true
    · simp only [jp12, hc, if_true] at h
      cases hv : assertInt (g "position").1 with
      | error e =>
        rw [hv] at h
        cases h
      | ok v =>
        rw [hv] at h
        have h2 := P13 _ PUnit.unit _ h
        exact h2
    · simp only [jp12, hc] at h
      have h2 := P13 _ PUnit.unit _ h
      exact h2
  clear_value jp12
  have H11 : ∀ (tf : View) (n : Int) (y : PUnit),
      jp11 { tf with ID := n } y
        = Except.map (fun t => { t with ID := n }) (jp11 tf y) := by
    intro tf n y
    by_cases hc : (g "description").2 = true
    · simp only [jp11, hc, if_true]
      cases assertString (g "description").1 with
      | error e => rfl
      | ok v => exact H12 { tf with Description := v } n PUnit.unit
    · simp only [jp11, hc]
      exact H12 tf n PUnit.unit
  have P11 : ∀ (tf : View) (y : PUnit) (r : View),
      jp11 tf y = Except.ok r → r.Restriction = tf.Restriction := by
    intro tf y r h
    by_cases hc : (g "description").2 = true
    · simp only [jp11, hc, if_true] at h
      cases hv : assertString (g "description").1 with
      | error e =>
        rw [hv] at h
        cases h
      | ok v =>
        rw [hv] at h
        have h2 := P12 _ PUnit.unit _ h
        exact h2
    · simp only [jp11, hc] at h
      have h2 := P12 _ PUnit.unit _ h
      exact h2
  clear_value jp11
  have H10 : ∀ (tf : View) (n : Int) (y : PUnit),
      jp10 { tf with ID := n } y
        = Except.map (fun t => { t with ID := n }) (jp10 tf y) := by
    intro tf n y
    by_cases hc : (g "title").2 = true
    · simp only [jp10, hc, if_true]
      cases assertString (g "title").1 with
      | error e => rfl
      | ok v => exact H11 { tf with Title := v } n PUnit.unit
    · simp only [jp10, hc]
      exact H11 tf n PUnit.unit
  have P10 : ∀ (tf : View) (y : PUnit) (r : View),
      jp10 tf y = Except.ok r → r.Restriction = tf.Restriction := by
    intro tf y r h
    by_cases hc : (g "title").2 = true
    · simp only [jp10, hc, if_true] at h
      cases hv : assertString (g "title").1 with
      | error e =>
        rw [hv] at h
        cases h
      | ok v =>
        rw [hv] at h
        have h2 := P11 _ PUnit.unit _ h
        exact h2
    · simp only [jp10, hc] at h
      have h2 := P11 _ PUnit.unit _ h
      exact h2
  clear_value jp10
  have H9 : ∀ (tf : View) (n : Int) (y : PUnit),
      jp9 { tf with ID := n } y
        = Except.map (fun t => { t with ID := n }) (jp9 tf y) := by
    intro tf n y
    by_cases hc : (g "any").2 = true
    · simp only [jp9, hc, if_true]
      cases assertSetList (g "any").1 with
      | error e => rfl
      | ok v =>
        cases hw : appendStateConditions "any" [] v with
        | error e => simp only [hw, bind, Except.bind, Except.map]
        | ok w =>
          simp only [hw, bind, Except.bind]
          exact H10 { tf with Conditions := { tf.Conditions with Any := w } } n PUnit.unit
    · simp only [jp9, hc]
      exact H10 tf n PUnit.unit
  have P9 : ∀ (tf : View) (y : PUnit) (r : View),
      jp9 tf y = Except.ok r → r.Restriction = tf.Restriction := by
    intro tf y r h
    by_cases hc : (g "any").2 = true
    · simp only [jp9, hc, if_true] at h
      cases hv : assertSetList (g "any").1 with
      | error e =>
        rw [hv] at h
        cases h
      | ok v =>
        rw [hv] at h
        cases hw : appendStateConditions "any" [] v with
        | error e =>
          simp only [hw, bind, Except.bind] at h
          cases h
        | ok w =>
          simp only [hw, bind, Except.bind] at h
          have h2 := P10 _ PUnit.unit _ h
          exact h2
    · simp only [jp9, hc] at h
      have h2 := P10 _ PUnit.unit _ h
      exact h2
  clear_value jp9
  have H8 : ∀ (tf : View) (n : Int) (y : PUnit),
      jp8 { tf with ID := n } y
        = Except.map (fun t => { t with ID := n }) (jp8 tf y) := by
    intro tf n y
    by_cases hc : (g "all").2 = true
    · simp only [jp8, hc, if_true]
      cases assertSetList (g "all").1 with
      | error e => rfl
      | ok v =>
        cases hw : appendStateConditions "all" [] v with
        | error e => simp only [hw, bind, Except.bind, Except.map]
        | ok w =>
          simp only [hw, bind, Except.bind]
          exact H9 { tf with Conditions := { tf.Conditions with All := w } } n PUnit.unit
    · simp only [jp8, hc]
      exact H9 tf n PUnit.unit
  have P8 : ∀ (tf : View) (y : PUnit) (r : View),
      jp8 tf y = Except.ok r → r.Restriction = tf.Restriction := by
    intro tf y r h
    by_cases hc : (g "all").2 = true
    · simp only [jp8, hc, if_true] at h
      cases hv : assertSetList (g "all").1 with
      | error e =>
        rw [hv] at h
        cases h
      | ok v =>
        rw [hv] at h
        cases hw : appendStateConditions "all" [] v with
        | error e =>
          simp only [hw, bind, Except.bind] at h
          cases h
        | ok w =>
          simp only [hw, bind, Except.bind] at h
          have h2 := P9 _ PUnit.unit _ h
          exact h2
    · simp only [jp8, hc] at h
      have h2 := P9 _ PUnit.unit _ h
      exact h2
  clear_value jp8
  have H7 : ∀ (tf : View) (n : Int) (y : PUnit),
      jp7 { tf with ID := n } y
        = Except.map (fun t => { t with ID := n }) (jp7 tf y) := by
    intro tf n y
    by_cases hc : (g "columns").2 = true
    · simp only [jp7, hc, if_true]
      cases assertSlice (g "columns").1 with
      | error e => rfl
      | ok v =>
        cases hw : appendStateColumns [] v with
        | error e => simp only [hw, bind, Except.bind, Except.map]
        | ok w =>
          simp only [hw, bind, Except.bind]
          exact H8 { tf with Execution := { tf.Execution with Columns := w } } n PUnit.unit
    · simp only [jp7, hc]
      exact H8 tf n PUnit.unit
  have P7 : ∀ (tf : View) (y : PUnit) (r : View),
      jp7 tf y = Except.ok r → r.Restriction = tf.Restriction := by
    intro tf y r h
    by_cases hc : (g "columns").2 = true
    · simp only [jp7, hc, if_true] at h
      cases hv : assertSlice (g "columns").1 with
      | error e =>
        rw [hv] at h
        cases h
      | ok v =>
        rw [hv] at h
        cases hw : appendStateColumns [] v with
        | error e =>
          simp only [hw, bind, Except.bind] at h
          cases h
        | ok w =>
          simp only [hw, bind, Except.bind] at h
          have h2 := P8 _ PUnit.unit _ h
          exact h2
    · simp only [jp7, hc] at h
      have h2 := P8 _ PUnit.unit _ h
      exact h2
  clear_value jp7
  have H6 : ∀ (tf : View) (n : Int) (y : PUnit),
      jp6 { tf with ID := n } y
        = Except.map (fun t => { t with ID := n }) (jp6 tf y) := by
    intro tf n y
    by_cases hc : (g "sort_order").2 = true
    · simp only [jp6, hc, if_true]
      cases assertString (g "sort_order").1 with
      | error e => rfl
      | ok v => exact H7 { tf with Execution := { tf.Execution with SortOrder := v } } n PUnit.unit
    · simp only [jp6, hc]
      exact H7 tf n PUnit.unit
  have P6 : ∀ (tf : View) (y : PUnit) (r : View),
      jp6 tf y = Except.ok r → r.Restriction = tf.Restriction := by
    intro tf y r h
    by_cases hc : (g "sort_order").2 = true
    · simp only [jp6, hc, if_true] at h
      cases hv : assertString (g "sort_order").1 with
      | error e =>
        rw [hv] at h
        cases h
      | ok v =>
        rw [hv] at h
        have h2 := P7 _ PUnit.unit _ h
        exact h2
    · simp only [jp6, hc] at h
      have h2 := P7 _ PUnit.unit _ h
      exact h2
  clear_value jp6
  have H5 : ∀ (tf : View) (n : Int) (y : PUnit),
      jp5 { tf with ID := n } y
        = Except.map (fun t => { t with ID := n }) (jp5 tf y) := by
    intro tf n y
    by_cases hc : (g "restrictions").2 = true
    · simp only [jp5, hc, if_true]
      cases assertSetList (g "restrictions").1 with
      | error e => rfl
      | ok v =>
        cases hw : appendSetInts [] v with
        | error e => simp only [hw, bind, Except.bind, Except.map]
        | ok w =>
          simp only [hw, bind, Except.bind]
          exact H6 { tf with Restriction := some { IDs := w, Type_ := "Group" } } n PUnit.unit
    · simp only [jp5, hc]
      exact H6 { tf with Restriction := none } n PUnit.unit
  have Q5 : ∀ (tf : View) (y : PUnit) (r : View), jp5 tf y = Except.ok r →
      ((g "restrictions").2 = false → r.Restriction = none)
      ∧ ((g "restrictions").2 = true → ∃ ids : List Int, (g "restrictions").1 = Attr.set (ids.map Attr.int)
          ∧ r.Restriction = some { IDs := ids, Type_ := "Group" }) := by
    intro tf y r h
    by_cases hc : (g "restrictions").2 = true
    · simp only [jp5, hc, if_true] at h
      cases hv : assertSetList (g "restrictions").1 with
      | error e =>
        rw [hv] at h
        cases h
      | ok v =>
        rw [hv] at h
        cases hw : appendSetInts [] v with
        | error e =>
          simp only [hw, bind, Except.bind] at h
          cases h
        | ok w =>
          simp only [hw, bind, Except.bind] at h
          have h2 := P6 _ PUnit.unit _ h
          refine ⟨fun hf => ?_, fun _ => ⟨w, ?_, h2⟩⟩
          · rw [hc] at hf
            cases hf
          · rw [assertSetList_ok _ _ hv, appendSetInts_ok _ _ hw]
    · simp only [jp5, hc] at h
      have h2 := P6 _ PUnit.unit _ h
      exact ⟨fun _ => h2, fun ht => absurd ht hc⟩
  clear_value jp5
  have H4 : ∀ (tf : View) (n : Int) (y : PUnit),
      jp4 { tf with ID := n } y
        = Except.map (fun t => { t with ID := n }) (jp4 tf y) := by
    intro tf n y
    by_cases hc : (g "group_order").2 = true
    · simp only [jp4, hc, if_true]
      cases assertString (g "group_order").1 with
      | error e => rfl
      | ok v => exact H5 { tf with Execution := { tf.Execution with GroupOrder := v } } n PUnit.unit
    · simp only [jp4, hc]
      exact H5 tf n PUnit.unit
  have Q4 : ∀ (tf : View) (y : PUnit) (r : View), jp4 tf y = Except.ok r →
      ((g "restrictions").2 = false → r.Restriction = none)
      ∧ ((g "restrictions").2 = true → ∃ ids : List Int, (g "restrictions").1 = Attr.set (ids.map Attr.int)
          ∧ r.Restriction = some { IDs := ids, Type_ := "Group" }) := by
    intro tf y r h
    by_cases hc : (g "group_order").2 = true
    · simp only [jp4, hc, if_true] at h
      cases hv : assertString (g "group_order").1 with
      | error e =>
        rw [hv] at h
        cases h
      | ok v =>
        rw [hv] at h
        have h2 := Q5 _ PUnit.unit _ h
        exact h2
    · simp only [jp4, hc] at h
      have h2 := Q5 _ PUnit.unit _ h
      exact h2
  clear_value jp4
  have H3 : ∀ (tf : View) (n : Int) (y : PUnit),
      jp3 { tf with ID := n } y
        = Except.map (fun t => { t with ID := n }) (jp3 tf y) := by
    intro tf n y
    by_cases hc : (g "sort_by").2 = true
    · simp only [jp3, hc, if_true]
      cases assertString (g "sort_by").1 with
      | error e => rfl
      | ok v => exact H4 { tf with Execution := { tf.Execution with SortBy := v } } n PUnit.unit
    · simp only [jp3, hc]
      exact H4 tf n PUnit.unit
  have Q3 : ∀ (tf : View) (y : PUnit) (r : View), jp3 tf y = Except.ok r →
      ((g "restrictions").2 = false → r.Restriction = none)
      ∧ ((g "restrictions").2 = true → ∃ ids : List Int, (g "restrictions").1 = Attr.set (ids.map Attr.int)
          ∧ r.Restriction = some { IDs := ids, Type_ := "Group" }) := by
    intro tf y r h
    by_cases hc : (g "sort_by").2 = true
    · simp only [jp3, hc, if_true] at h
      cases hv : assertString (g "sort_by").1 with
      | error e =>
        rw [hv] at h
        cases h
      | ok v =>
        rw [hv] at h
        have h2 := Q4 _ PUnit.unit _ h
        exact h2
    · simp only [jp3, hc] at h
      have h2 := Q4 _ PUnit.unit _ h
      exact h2
  clear_value jp3
  have H2 : ∀ (tf : View) (n : Int) (y : PUnit),
      jp2 { tf with ID := n } y
        = Except.map (fun t => { t with ID := n }) (jp2 tf y) := by
    intro tf n y
    by_cases hc : (g "group_by").2 = true
    · simp only [jp2, hc, if_true]
      cases assertString (g "group_by").1 with
      | error e => rfl
      | ok v => exact H3 { tf with Execution := { tf.Execution with GroupBy := v } } n PUnit.unit
    · simp only [jp2, hc]
      exact H3 tf n PUnit.unit
  have Q2 : ∀ (tf : View) (y : PUnit) (r : View), jp2 tf y = Except.ok r →
      ((g "restrictions").2 = false → r.Restriction = none)
      ∧ ((g "restrictions").2 = true → ∃ ids : List Int, (g "restrictions").1 = Attr.set (ids.map Attr.int)
          ∧ r.Restriction = some { IDs := ids, Type_ := "Group" }) := by
    intro tf y r h
    by_cases hc : (g "group_by").2 = true
    · simp only [jp2, hc, if_true] at h
      cases hv : assertString (g "group_by").1 with
      | error e =>
        rw [hv] at h
        cases h
      | ok v =>
        rw [hv] at h
        have h2 := Q3 _ PUnit.unit _ h
        exact h2
    · simp only [jp2, hc] at h
      have h2 := Q3 _ PUnit.unit _ h
      exact h2
  clear_value jp2
  have H1 : ∀ (tf : View) (n : Int) (y : PUnit),
      jp1 { tf with ID := n } y
        = Except.map (fun t => { t with ID := n }) (jp1 tf y) := by
    intro tf n y
    by_cases hc : (g "url").2 = true
    · simp only [jp1, hc, if_true]
      cases assertString (g "url").1 with
      | error e => rfl
      | ok v => exact H2 { tf with URL := v } n PUnit.unit
    · simp only [jp1, hc]
      exact H2 tf n PUnit.unit
  have Q1 : ∀ (tf : View) (y : PUnit) (r : View), jp1 tf y = Except.ok r →
      ((g "restrictions").2 = false → r.Restriction = none)
      ∧ ((g "restrictions").2 = true → ∃ ids : List Int, (g "restrictions").1 = Attr.set (ids.map Attr.int)
          ∧ r.Restriction = some { IDs := ids, Type_ := "Group" }) := by
    intro tf y r h
    by_cases hc : (g "url").2 = true
    · simp only [jp1, hc, if_true] at h
      cases hv : assertString (g "url").1 with
      | error e =>
        rw [hv] at h
        cases h
      | ok v =>
        rw [hv] at h
        have h2 := Q2 _ PUnit.unit _ h
        exact h2
    · simp only [jp1, hc] at h
      have h2 := Q2 _ PUnit.unit _ h
      exact h2
  clear_value jp1
  have hempty : (identifiableMapGetterSetter.Id { mapGetterSetter := m, id := "" } ≠ "") = False := by
    simp [identifiableMapGetterSetter.Id]
  have hsid : identifiableMapGetterSetter.Id { mapGetterSetter := m, id := s } = s := rfl
  refine ⟨?_, ?_, ?_, ?_⟩
  · intro n hs hp
    simp only [hempty, hsid, hs, hp, ne_eq, not_false_eq_true, if_true, if_false]
    exact H1 tf0 n PUnit.unit
  · intro tf h
    simp only [hempty, if_false] at h
    have e : jp1 tf0 PUnit.unit
        = Except.map (fun t => { t with ID := 0 }) (jp1 tf0 PUnit.unit) := H1 tf0 0 PUnit.unit
    have h3 : jp1 tf0 PUnit.unit = Except.ok tf := h
    rw [h3] at e
    exact congrArg View.ID (Except.ok.inj e)
  · intro err hs hp
    simp only [hsid, hs, hp, ne_eq, not_false_eq_true, if_true]
    rfl
  · intro r h
    rw [hsid] at h
    by_cases hs : s = ""
    · simp only [hs, ne_eq, not_true_eq_false, if_false] at h
      exact Q1 _ PUnit.unit _ h
    · simp only [hs, ne_eq, not_false_eq_true, if_true] at h
      cases hp : ParseInt s with
      | error e =>
        rw [hp] at h
        cases h
      | ok id =>
        rw [hp] at h
        exact Q1 _ PUnit.unit _ h

end

section
set_option maxHeartbeats 4000000

/-- The runs of `unmarshalQueue` on the same attributes with the Id `s` and
with the empty Id: the Id only decides the ID of the record, or the error. -/
theorem unmarshalQueue_run (m : mapGetterSetter) (s : String) :
    (∀ n, s ≠ "" → atoi64 s = Except.ok n →
        unmarshalQueue { mapGetterSetter := m, id := s }
          = Except.map (fun tf => { tf with ID := n })
              (unmarshalQueue { mapGetterSetter := m, id := "" }))
    ∧ (∀ tf, unmarshalQueue { mapGetterSetter := m, id := "" } = Except.ok tf → tf.ID = 0)
    ∧ (∀ err, s ≠ "" → atoi64 s = Except.error err →
        unmarshalQueue { mapGetterSetter := m, id := s }
          = Except.error (Fault.error (String.mk
              ("could not parse queue id ".data ++ s.data ++ ": ".data
                ++ err.message.data)))) := by
  unfold unmarshalQueue
  generalize hg1 : identifiableMapGetterSetter.GetOk { mapGetterSetter := m, id := s } = g
  generalize hg2 : identifiableMapGetterSetter.GetOk { mapGetterSetter := m, id := "" } = g2
  have hg : g = g2 := by
    rw [← hg1, ← hg2]
    rfl
  subst hg
  lift_lets
  intro tf0 jp5 jp4 jp3 jp2 jp1
  have H5 : ∀ (tf : Queue) (n : Int) (y : PUnit),
      jp5 { tf with ID := n } y
        = Except.map (fun t => { t with ID := n }) (jp5 tf y) :=
    fun _ _ _ => rfl
  clear_value jp5
  have H4 : ∀ (tf : Queue) (n : Int) (y : PUnit),
      jp4 { tf with ID := n } y
        = Except.map (fun t => { t with ID := n }) (jp4 tf y) := by
    intro tf n y
    by_cases hc : (g "definition").2 = true
    · simp only [jp4, hc, if_true]
      cases assertMap (g "definition").1 with
      | error e => rfl
      | ok v => exact H5 { tf with Definition := some (copyMap [] v) } n PUnit.unit
    · simp only [jp4, hc]
      exact H5 tf n PUnit.unit
  clear_value jp4
  have H3 : ∀ (tf : Queue) (n : Int) (y : PUnit),
      jp3 { tf with ID := n } y
        = Except.map (fun t => { t with ID := n }) (jp3 tf y) := by
    intro tf n y
    by_cases hc : (g "description").2 = true
    · simp only [jp3, hc, if_true]
      cases assertString (g "description").1 with
      | error e => rfl
      | ok v => exact H4 { tf with Description := v } n PUnit.unit
    · simp only [jp3, hc]
      exact H4 tf n PUnit.unit
  clear_value jp3
  have H2 : ∀ (tf : Queue) (n : Int) (y : PUnit),
      jp2 { tf with ID := n } y
        = Except.map (fun t => { t with ID := n }) (jp2 tf y) := by
    intro tf n y
    by_cases hc : (g "name").2 = true
    · simp only [jp2, hc, if_true]
      cases assertString (g "name").1 with
      | error e => rfl
      | ok v => exact H3 { tf with Name := v } n PUnit.unit
    · simp only [jp2, hc]
      exact H3 tf n PUnit.unit
  clear_value jp2
  have H1 : ∀ (tf : Queue) (n : Int) (y : PUnit),
      jp1 { tf with ID := n } y
        = Except.map (fun t => { t with ID := n }) (jp1 tf y) := by
    intro tf n y
    by_cases hc : (g "url").2 = true
    · simp only [jp1, hc, if_true]
      cases assertString (g "url").1 with
      | error e => rfl
      | ok v => exact H2 { tf with URL := v } n PUnit.unit
    · simp only [jp1, hc]
      exact H2 tf n PUnit.unit
  clear_value jp1
  have hempty : (identifiableMapGetterSetter.Id { mapGetterSetter := m, id := "" } ≠ "") = False := by
    simp [identifiableMapGetterSetter.Id]
  have hsid : identifiableMapGetterSetter.Id { mapGetterSetter := m, id := s } = s := rfl
  refine ⟨?_, ?_, ?_⟩
  · intro n hs hp
    simp only [hempty, hsid, hs, hp, ne_eq, not_false_eq_true, if_true, if_false]
    exact H1 tf0 n PUnit.unit
  · intro tf h
    simp only [hempty, if_false] at h
    have e : jp1 tf0 PUnit.unit
        = Except.map (fun t => { t with ID := 0 }) (jp1 tf0 PUnit.unit) := H1 tf0 0 PUnit.unit
    have h3 : jp1 tf0 PUnit.unit = Except.ok tf := h
    rw [h3] at e
    exact congrArg Queue.ID (Except.ok.inj e)
  · intro err hs hp
    simp only [hsid, hs, hp, ne_eq, not_false_eq_true, if_true]
    rfl

end

section
set_option maxHeartbeats 4000000

/-- The runs of `unmarshalCustomStatus` on the same attributes with the Id `s` and
with the empty Id: the Id only decides the ID of the record, or the error. -/
theorem unmarshalCustomStatus_run (m : mapGetterSetter) (s : String) :
    (∀ n, s ≠ "" → atoi64 s = Except.ok n →
        unmarshalCustomStatus { mapGetterSetter := m, id := s }
          = Except.map (fun tf => { tf with ID := n })
              (unmarshalCustomStatus { mapGetterSetter := m, id := "" }))
    ∧ (∀ tf, unmarshalCustomStatus { mapGetterSetter := m, id := "" } = Except.ok tf → tf.ID = 0)
    ∧ (∀ err, s ≠ "" → atoi64 s = Except.error err →
        unmarshalCustomStatus { mapGetterSetter := m, id := s }
          = Except.error (Fault.error (String.mk
              ("could not parse custom status id ".data ++ s.data ++ ": ".data
                ++ err.message.data)))) := by
  unfold unmarshalCustomStatus
  generalize hg1 : identifiableMapGetterSetter.GetOk { mapGetterSetter := m, id := s } = g
  generalize hg2 : identifiableMapGetterSetter.GetOk { mapGetterSetter := m, id := "" } = g2
  have hg : g = g2 := by
    rw [← hg1, ← hg2]
    rfl
  subst hg
  lift_lets
  intro tf0 jp9 jp8 jp7 jp6 jp5 jp4 jp3 jp2 jp1
  have H9 : ∀ (tf : CustomStatus) (n : Int) (y : PUnit),
      jp9 { tf with ID := n } y
        = Except.map (fun t => { t with ID := n }) (jp9 tf y) :=
    fun _ _ _ => rfl
  clear_value jp9
  have H8 : ∀ (tf : CustomStatus) (n : Int) (y : PUnit),
      jp8 { tf with ID := n } y
        = Except.map (fun t => { t with ID := n }) (jp8 tf y) := by
    intro tf n y
    by_cases hc : (g "end_user_hidden").2 = true
    · simp only [jp8, hc, if_true]
      cases assertBool (g "end_user_hidden").1 with
      | error e => rfl
      | ok v => exact H9 { tf with EndUserHidden := v } n PUnit.unit
    · simp only [jp8, hc]
      exact H9 tf n PUnit.unit
  clear_value jp8
  have H7 : ∀ (tf : CustomStatus) (n : Int) (y : PUnit),
      jp7 { tf with ID := n } y
        = Except.map (fun t => { t with ID := n }) (jp7 tf y) := by
    intro tf n y
    by_cases hc : (g "active").2 = true
    · simp only [jp7, hc, if_true]
      cases assertBool (g "active").1 with
      | error e => rfl
      | ok v => exact H8 { tf with Active := v } n PUnit.unit
    · simp only [jp7, hc]
      exact H8 tf n PUnit.unit
  clear_value jp7
  have H6 : ∀ (tf : CustomStatus) (n : Int) (y : PUnit),
      jp6 { tf with ID := n } y
        = Except.map (fun t => { t with ID := n }) (jp6 tf y) := by
    intro tf n y
    by_cases hc : (g "default").2 = true
    · simp only [jp6, hc, if_true]
      cases assertBool (g "default").1 with
      | error e => rfl
      | ok v => exact H7 { tf with Default := v } n PUnit.unit
    · simp only [jp6, hc]
      exact H7 tf n PUnit.unit
  clear_value jp6
  have H5 : ∀ (tf : CustomStatus) (n : Int) (y : PUnit),
      jp5 { tf with ID := n } y
        = Except.map (fun t => { t with ID := n }) (jp5 tf y) := by
    intro tf n y
    by_cases hc : (g "description").2 = true
    · simp only [jp5, hc, if_true]
      cases assertString (g "description").1 with
      | error e => rfl
      | ok v => exact H6 { tf with Description := v } n PUnit.unit
    · simp only [jp5, hc]
      exact H6 tf n PUnit.unit
  clear_value jp5
  have H4 : ∀ (tf : CustomStatus) (n : Int) (y : PUnit),
      jp4 { tf with ID := n } y
        = Except.map (fun t => { t with ID := n }) (jp4 tf y) := by
    intro tf n y
    by_cases hc : (g "end_user_label").2 = true
    · simp only [jp4, hc, if_true]
      cases assertString (g "end_user_label").1 with
      | error e => rfl
      | ok v => exact H5 { tf with EndUserLabel := v } n PUnit.unit
    · simp only [jp4, hc]
      exact H5 tf n PUnit.unit
  clear_value jp4
  have H3 : ∀ (tf : CustomStatus) (n : Int) (y : PUnit),
      jp3 { tf with ID := n } y
        = Except.map (fun t => { t with ID := n }) (jp3 tf y) := by
    intro tf n y
    by_cases hc : (g "agent_label").2 = true
    · simp only [jp3, hc, if_true]
      cases assertString (g "agent_label").1 with
      | error e => rfl
      | ok v => exact H4 { tf with AgentLabel := v } n PUnit.unit
    · simp only [jp3, hc]
      exact H4 tf n PUnit.unit
  clear_value jp3
  have H2 : ∀ (tf : CustomStatus) (n : Int) (y : PUnit),
      jp2 { tf with ID := n } y
        = Except.map (fun t => { t with ID := n }) (jp2 tf y) := by
    intro tf n y
    by_cases hc : (g "status_category").2 = true
    · simp only [jp2, hc, if_true]
      cases assertString (g "status_category").1 with
      | error e => rfl
      | ok v => exact H3 { tf with StatusCategory := v } n PUnit.unit
    · simp only [jp2, hc]
      exact H3 tf n PUnit.unit
  clear_value jp2
  have H1 : ∀ (tf : CustomStatus) (n : Int) (y : PUnit),
      jp1 { tf with ID := n } y
        = Except.map (fun t => { t with ID := n }) (jp1 tf y) := by
    intro tf n y
    by_cases hc : (g "url").2 = true
    · simp only [jp1, hc, if_true]
      cases assertString (g "url").1 with
      | error e => rfl
      | ok v => exact H2 { tf with URL := v } n PUnit.unit
    · simp only [jp1, hc]
      exact H2 tf n PUnit.unit
  clear_value jp1
  have hempty : (identifiableMapGetterSetter.Id { mapGetterSetter := m, id := "" } ≠ "") = False := by
    simp [identifiableMapGetterSetter.Id]
  have hsid : identifiableMapGetterSetter.Id { mapGetterSetter := m, id := s } = s := rfl
  refine ⟨?_, ?_, ?_⟩
  · intro n hs hp
    simp only [hempty, hsid, hs, hp, ne_eq, not_false_eq_true, if_true, if_false]
    exact H1 tf0 n PUnit.unit
  · intro tf h
    simp only [hempty, if_false] at h
    have e : jp1 tf0 PUnit.unit
        = Except.map (fun t => { t with ID := 0 }) (jp1 tf0 PUnit.unit) := H1 tf0 0 PUnit.unit
    have h3 : jp1 tf0 PUnit.unit = Except.ok tf := h
    rw [h3] at e
    exact congrArg CustomStatus.ID (Except.ok.inj e)
  · intro err hs hp
    simp only [hsid, hs, hp, ne_eq, not_false_eq_true, if_true]
    rfl

end

section
set_option maxHeartbeats 4000000

/-- The runs of `unmarshalGroupMembership` on the same attributes with the Id `s` and
with the empty Id: the Id only decides the ID of the record, or the error. -/
theorem unmarshalGroupMembership_run (m : mapGetterSetter) (s : String) :
    (∀ n, s ≠ "" → atoi64 s = Except.ok n →
        unmarshalGroupMembership { mapGetterSetter := m, id := s }
          = Except.map (fun tf => { tf with ID := n })
              (unmarshalGroupMembership { mapGetterSetter := m, id := "" }))
    ∧ (∀ tf, unmarshalGroupMembership { mapGetterSetter := m, id := "" } = Except.ok tf → tf.ID = 0)
    ∧ (∀ err, s ≠ "" → atoi64 s = Except.error err →
        unmarshalGroupMembership { mapGetterSetter := m, id := s }
          = Except.error (Fault.error (String.mk
              ("could not parse group membership id ".data ++ s.data ++ ": ".data
                ++ err.message.data)))) := by
  unfold unmarshalGroupMembership
  generalize hg1 : identifiableMapGetterSetter.GetOk { mapGetterSetter := m, id := s } = g
  generalize hg2 : identifiableMapGetterSetter.GetOk { mapGetterSetter := m, id := "" } = g2
  have hg : g = g2 := by
    rw [← hg1, ← hg2]
    rfl
  subst hg
  lift_lets
  intro tf0 jp5 jp4 jp3 jp2 jp1
  have H5 : ∀ (tf : GroupMembership) (n : Int) (y : PUnit),
      jp5 { tf with ID := n } y
        = Except.map (fun t => { t with ID := n }) (jp5 tf y) :=
    fun _ _ _ => rfl
  clear_value jp5
  have H4 : ∀ (tf : GroupMembership) (n : Int) (y : PUnit),
      jp4 { tf with ID := n } y
        = Except.map (fun t => { t with ID := n }) (jp4 tf y) := by
    intro tf n y
    by_cases hc : (g "default").2 = true
    · simp only [jp4, hc, if_true]
      cases assertBool (g "default").1 with
      | error e => rfl
      | ok v => exact H5 { tf with Default := v } n PUnit.unit
    · simp only [jp4, hc]
      exact H5 tf n PUnit.unit
  clear_value jp4
  have H3 : ∀ (tf : GroupMembership) (n : Int) (y : PUnit),
      jp3 { tf with ID := n } y
        = Except.map (fun t => { t with ID := n }) (jp3 tf y) := by
    intro tf n y
    by_cases hc : (g "group_id").2 = true
    · simp only [jp3, hc, if_true]
      cases assertInt (g "group_id").1 with
      | error e => rfl
      | ok v => exact H4 { tf with GroupID := intOfInt64 v } n PUnit.unit
    · simp only [jp3, hc]
      exact H4 tf n PUnit.unit
  clear_value jp3
  have H2 : ∀ (tf : GroupMembership) (n : Int) (y : PUnit),
      jp2 { tf with ID := n } y
        = Except.map (fun t => { t with ID := n }) (jp2 tf y) := by
    intro tf n y
    by_cases hc : (g "user_id").2 = true
    · simp only [jp2, hc, if_true]
      cases assertInt (g "user_id").1 with
      | error e => rfl
      | ok v => exact H3 { tf with UserID := intOfInt64 v } n PUnit.unit
    · simp only [jp2, hc]
      exact H3 tf n PUnit.unit
  clear_value jp2
  have H1 : ∀ (tf : GroupMembership) (n : Int) (y : PUnit),
      jp1 { tf with ID := n } y
        = Except.map (fun t => { t with ID := n }) (jp1 tf y) := by
    intro tf n y
    by_cases hc : (g "url").2 = true
    · simp only [jp1, hc, if_true]
      cases assertString (g "url").1 with
      | error e => rfl
      | ok v => exact H2 { tf with URL := v } n PUnit.unit
    · simp only [jp1, hc]
      exact H2 tf n PUnit.unit
  clear_value jp1
  have hempty : (identifiableMapGetterSetter.Id { mapGetterSetter := m, id := "" } ≠ "") = False := by
    simp [identifiableMapGetterSetter.Id]
  have hsid : identifiableMapGetterSetter.Id { mapGetterSetter := m, id := s } = s := rfl
  refine ⟨?_, ?_, ?_⟩
  · intro n hs hp
    simp only [hempty, hsid, hs, hp, ne_eq, not_false_eq_true, if_true, if_false]
    exact H1 tf0 n PUnit.unit
  · intro tf h
    simp only [hempty, if_false] at h
    have e : jp1 tf0 PUnit.unit
        = Except.map (fun t => { t with ID := 0 }) (jp1 tf0 PUnit.unit) := H1 tf0 0 PUnit.unit
    have h3 : jp1 tf0 PUnit.unit = Except.ok tf := h
    rw [h3] at e
    exact congrArg GroupMembership.ID (Except.ok.inj e)
  · intro err hs hp
    simp only [hsid, hs, hp, ne_eq, not_false_eq_true, if_true]
    rfl

end

section
set_option maxHeartbeats 4000000

/-- The runs of `unmarshalOrganizationMembership` on the same attributes with the Id `s` and
with the empty Id: the Id only decides the ID of the record, or the error. -/
theorem unmarshalOrganizationMembership_run (m : mapGetterSetter) (s : String) :
    (∀ n, s ≠ "" → atoi64 s = Except.ok n →
        unmarshalOrganizationMembership { mapGetterSetter := m, id := s }
          = Except.map (fun tf => { tf with ID := n })
              (unmarshalOrganizationMembership { mapGetterSetter := m, id := "" }))
    ∧ (∀ tf, unmarshalOrganizationMembership { mapGetterSetter := m, id := "" } = Except.ok tf → tf.ID = 0)
    ∧ (∀ err, s ≠ "" → atoi64 s = Except.error err →
        unmarshalOrganizationMembership { mapGetterSetter := m, id := s }
          = Except.error (Fault.error (String.mk
              ("could not parse organization membership id ".data ++ s.data ++ ": ".data
                ++ err.message.data)))) := by
  unfold unmarshalOrganizationMembership
  generalize hg1 : identifiableMapGetterSetter.GetOk { mapGetterSetter := m, id := s } = g
  generalize hg2 : identifiableMapGetterSetter.GetOk { mapGetterSetter := m, id := "" } = g2
  have hg : g = g2 := by
    rw [← hg1, ← hg2]
    rfl
  subst hg
  lift_lets
  intro tf0 jp5 jp4 jp3 jp2 jp1
  have H5 : ∀ (tf : OrganizationMembership) (n : Int) (y : PUnit),
      jp5 { tf with ID := n } y
        = Except.map (fun t => { t with ID := n }) (jp5 tf y) :=
    fun _ _ _ => rfl
  clear_value jp5
  have H4 : ∀ (tf : OrganizationMembership) (n : Int) (y : PUnit),
      jp4 { tf with ID := n } y
        = Except.map (fun t => { t with ID := n }) (jp4 tf y) := by
    intro tf n y
    by_cases hc : (g "default").2 = true
    · simp only [jp4, hc, if_true]
      cases assertBool (g "default").1 with
      | error e => rfl
      | ok v => exact H5 { tf with Default := v } n PUnit.unit
    · simp only [jp4, hc]
      exact H5 tf n PUnit.unit
  clear_value jp4
  have H3 : ∀ (tf : OrganizationMembership) (n : Int) (y : PUnit),
      jp3 { tf with ID := n } y
        = Except.map (fun t => { t with ID := n }) (jp3 tf y) := by
    intro tf n y
    by_cases hc : (g "organization_id").2 = true
    · simp only [jp3, hc, if_true]
      cases assertInt (g "organization_id").1 with
      | error e => rfl
      | ok v => exact H4 { tf with OrganizationID := intOfInt64 v } n PUnit.unit
    · simp only [jp3, hc]
      exact H4 tf n PUnit.unit
  clear_value jp3
  have H2 : ∀ (tf : OrganizationMembership) (n : Int) (y : PUnit),
      jp2 { tf with ID := n } y
        = Except.map (fun t => { t with ID := n }) (jp2 tf y) := by
    intro tf n y
    by_cases hc : (g "user_id").2 = true
    · simp only [jp2, hc, if_true]
      cases assertInt (g "user_id").1 with
      | error e => rfl
      | ok v => exact H3 { tf with UserID := intOfInt64 v } n PUnit.unit
    · simp only [jp2, hc]
      exact H3 tf n PUnit.unit
  clear_value jp2
  have H1 : ∀ (tf : OrganizationMembership) (n : Int) (y : PUnit),
      jp1 { tf with ID := n } y
        = Except.map (fun t => { t with ID := n }) (jp1 tf y) := by
    intro tf n y
    by_cases hc : (g "url").2 = true
    · simp only [jp1, hc, if_true]
      cases assertString (g "url").1 with
      | error e => rfl
      | ok v => exact H2 { tf with URL := v } n PUnit.unit
    · simp only [jp1, hc]
      exact H2 tf n PUnit.unit
  clear_value jp1
  have hempty : (identifiableMapGetterSetter.Id { mapGetterSetter := m, id := "" } ≠ "") = False := by
    simp [identifiableMapGetterSetter.Id]
  have hsid : identifiableMapGetterSetter.Id { mapGetterSetter := m, id := s } = s := rfl
  refine ⟨?_, ?_, ?_⟩
  · intro n hs hp
    simp only [hempty, hsid, hs, hp, ne_eq, not_false_eq_true, if_true, if_false]
    exact H1 tf0 n PUnit.unit
  · intro tf h
    simp only [hempty, if_false] at h
    have e : jp1 tf0 PUnit.unit
        = Except.map (fun t => { t with ID := 0 }) (jp1 tf0 PUnit.unit) := H1 tf0 0 PUnit.unit
    have h3 : jp1 tf0 PUnit.unit = Except.ok tf := h
    rw [h3] at e
    exact congrArg OrganizationMembership.ID (Except.ok.inj e)
  · intro err hs hp
    simp only [hsid, hs, hp, ne_eq, not_false_eq_true, if_true]
    rfl

end

/-! ### The resource Id -/

/-- When `ParseInt` fails on a non-empty Id, the five unmarshal functions
return an error. -/
theorem IdRejected_of_error (d : identifiableMapGetterSetter) (err : Fault)
    (hne : d.Id ≠ "") (hp : ParseInt d.Id = Except.error err) : IdRejected d := by
  refine ⟨?_, ?_, ?_, ?_, ?_⟩
  · exact ⟨_, (unmarshalViews_run d.mapGetterSetter d.id).2.2.1 err hne hp⟩
  · exact ⟨_, (unmarshalQueue_run d.mapGetterSetter d.id).2.2 err hne hp⟩
  · exact ⟨_, (unmarshalCustomStatus_run d.mapGetterSetter d.id).2.2 err hne hp⟩
  · exact ⟨_, (unmarshalGroupMembership_run d.mapGetterSetter d.id).2.2 err hne hp⟩
  · exact ⟨_, (unmarshalOrganizationMembership_run d.mapGetterSetter d.id).2.2 err hne hp⟩

/-- C21: for every resource data, (1) when the Id is empty, `unmarshalViews`,
`unmarshalQueue` and the other unmarshal functions leave the ID of the record
at 0 and return what they return on the same attributes under a well-formed
Id, the ID apart, so the empty Id makes none of them fail; (2) when the Id is
not empty and `strconv.ParseInt` rejects it, each of them returns an error and
does not panic; this is so (3) for every Id with a character that is neither
a decimal digit nor a sign, and (4) for every Id that is the numeral of an
integer outside the int64 range. -/
theorem unmarshal_id_parsing (d : identifiableMapGetterSetter) :
    (d.Id = "" → EmptyIdSkipped d)
    ∧ (∀ err, d.Id ≠ "" → ParseInt d.Id = Except.error err → IdRejected d)
    ∧ ((∃ c ∈ d.Id.data, c.isDigit = false ∧ c ≠ '+' ∧ c ≠ '-') → IdRejected d)
    ∧ (∀ n : Int, (n < -(2 : Int) ^ 63 ∨ (2 : Int) ^ 63 ≤ n) →
        d.Id = String.mk (formatInt n) → IdRejected d) := by
  refine ⟨?_, ?_, ?_, ?_⟩
  · intro hid
    obtain ⟨m, i⟩ := d
    have hi : i = "" := hid
    subst hi
    refine ⟨?_, ?_, ?_, ?_, ?_⟩
    · exact ⟨(unmarshalViews_run m "").2.1, fun s n hs hp => (unmarshalViews_run m s).1 n hs hp⟩
    · exact ⟨(unmarshalQueue_run m "").2.1, fun s n hs hp => (unmarshalQueue_run m s).1 n hs hp⟩
    · exact ⟨(unmarshalCustomStatus_run m "").2.1, fun s n hs hp => (unmarshalCustomStatus_run m s).1 n hs hp⟩
    · exact ⟨(unmarshalGroupMembership_run m "").2.1, fun s n hs hp => (unmarshalGroupMembership_run m s).1 n hs hp⟩
    · exact ⟨(unmarshalOrganizationMembership_run m "").2.1, fun s n hs hp => (unmarshalOrganizationMembership_run m s).1 n hs hp⟩
  · intro err hne hp
    exact IdRejected_of_error d err hne hp
  · intro h
    have hne : d.Id ≠ "" := by
      intro h0
      obtain ⟨c, hc, _⟩ := h
      rw [h0] at hc
      cases hc
    exact IdRejected_of_error d _ hne (ParseInt_non_digit d.Id h)
  · intro n hn hid
    have hne : d.Id ≠ "" := by
      rw [hid]
      exact formatInt_ne_nil n
    have hp := ParseInt_out_of_range n hn
    rw [← hid] at hp
    exact IdRejected_of_error d _ hne hp

/-- C21 on three sample states: with the empty Id the view returned has the
ID 0; the Ids "12a45" and "9223372036854775808" (2^63) are rejected with an
error. -/
theorem unmarshal_id_parsing_witness :
    (∀ tf, unmarshalViews noConditionsState = Except.ok tf → tf.ID = 0)
    ∧ IdRejected badIdState
    ∧ IdRejected hugeIdState :=
  ⟨((unmarshal_id_parsing noConditionsState).1 rfl).1.1,
   (unmarshal_id_parsing badIdState).2.2.1
     ⟨'a', by decide, by decide, by decide, by decide⟩,
   (unmarshal_id_parsing hugeIdState).2.2.2 (2 ^ 63) (Or.inr (le_refl _)) (by decide)⟩

/-- C22: for every resource data on which `unmarshalViews` returns a view:
when "restrictions" is not set the Restriction of the view is nil; when it is
set, the attribute is a set of ints and the Restriction is non-nil, with the
Type "Group" and, as IDs, exactly the elements of the set, in the order and
number the set lists them. -/
theorem unmarshalViews_restriction (d : identifiableMapGetterSetter) (tf : View)
    (h : unmarshalViews d = Except.ok tf) :
    ((d.GetOk "restrictions").2 = false → tf.Restriction = none)
    ∧ ((d.GetOk "restrictions").2 = true →
        ∃ ids : List Int, (d.GetOk "restrictions").1 = Attr.set (ids.map Attr.int)
          ∧ tf.Restriction = some { IDs := ids, Type_ := "Group" }) :=
  (unmarshalViews_run d.mapGetterSetter d.id).2.2.2 tf h

/-- C22 on two sample states: the view with the restriction set of 11 and 12,
and the view without restrictions. -/
theorem unmarshalViews_restriction_witness :
    (∃ ids : List Int, Attr.set [Attr.int 11, Attr.int 12] = Attr.set (ids.map Attr.int)
        ∧ restrictedView.Restriction = some { IDs := ids, Type_ := "Group" })
    ∧ openView.Restriction = none :=
  ⟨(unmarshalViews_restriction restrictedViewState restrictedView rfl).2 rfl,
   (unmarshalViews_restriction noConditionsState openView rfl).1 rfl⟩

end Zendesk
